import Mathlib

/-!
# Polo: session lifecycle, shallow embedding

Embedding of `pkg/models/session.go`, `pkg/background/session-build-worker.go`,
`pkg/background/session-start-worker.go`,
`pkg/background/application-fetch-worker.go`,
`internal/tests/events_assertions/application-events_assertions.go` and
`cmd/tests/application-init/application-init_test.go`.

Conventions of the embedding:

* Go `int` is `Int`; the counters of this development (`startupRetries`,
  `MaxAge`, session counts) start near zero and move by one, so the 64-bit
  bounds are never in play.  The one product of the sources,
  `time.Second * time.Duration(n)`, is reduced to the range of `int64`
  (`durationOfSeconds`).
* Go `string` is `String`; `SessionStatus` and `KillReason` are string types in
  the source and stay strings here, so values outside the named constants exist.
* Go maps are association lists (first binding of a key wins on lookup).
* `time.Time` is an `Int` number of nanoseconds and `time.Duration` an `int64`
  number of nanoseconds; `Time.Add` and `Time.After` are exact.
* A session object is a value; functions that mutate a session in place return
  the new value.  Calls to the environment (`uuid.NewString`, `getFreePort`,
  the clock) are parameters.
-/

namespace Polo

/-! ## models -/

abbrev SessionStatus := String
abbrev KillReason := String
abbrev LogType := String

def SessionStatusStarting : SessionStatus := "starting"
def SessionStatusStarted : SessionStatus := "started"
def SessionStatusStartFailed : SessionStatus := "start_failed"
def SessionStatusStopFailed : SessionStatus := "stop_failed"
def SessionStatusStopping : SessionStatus := "stopping"
def SessionStatusStopped : SessionStatus := "stopped"
def SessionStatusDegraded : SessionStatus := "degraded"

def KillReasonNone : KillReason := ""
def KillReasonStopped : KillReason := "stopped"
def KillReasonBuildFailed : KillReason := "build_failed"
def KillReasonHealthcheckFailed : KillReason := "healthcheck_failed"

/-- Modelled from the spec: the constant `models.KillReasonReplaced` is used by the
build worker but its declaration is missing from `session.go`; the data model lists
the kill reasons as none, stopped, build_failed, healthcheck_failed, replaced. -/
def KillReasonReplaced : KillReason := "replaced"

/-- Modelled from the spec: the log type constants other than stdin, stdout and
stderr are missing from `session.go`; `LogInfo` tags its entries with this one. -/
def LogTypeInfo : LogType := "info"

/-- Modelled from the spec: the log type used by `LogWarn`. -/
def LogTypeWarn : LogType := "warn"

/-- `SessionStatus.IsAlive` (session.go 34-38). -/
def SessionStatus.IsAlive (status : SessionStatus) : Bool :=
  status != SessionStatusStartFailed &&
    status != SessionStatusStopFailed &&
    status != SessionStatusStopped

/-- Modelled from the spec: a log entry (`models.Log` and `NewLog` are missing); only
the type and the message are kept. -/
structure Log where
  Type_ : LogType
  Message : String
deriving DecidableEq, Repr

/-- Modelled from the spec: commit metadata (`object.Commit` of go-git), reduced to
hash, author and message. -/
structure Commit where
  Hash : String
  Author : String
  Message : String
deriving DecidableEq, Repr

/-- Modelled from the spec: the port section of an application configuration
(section 6: `Port: {Except:[int]}`); it is only handed to `getFreePort`. -/
structure PortConfiguration where
  Except : List Int
deriving DecidableEq, Repr

/-- Modelled from the spec: `Recycle: { InactivityTimeout }`. -/
structure Recycle where
  InactivityTimeout : Int
deriving DecidableEq, Repr

/-- Modelled from the spec: a start or stop command (section 6:
`Command: { Command, Environment[], WorkingDir, Timeout, ContinueOnError,
StartHealthchecking }`); a field left out has the Go zero value. -/
structure Command where
  Command : String := ""
  Environment : List String := []
  WorkingDir : String := ""
  Timeout : Int := 0
  ContinueOnError : Bool := false
  StartHealthchecking : Bool := false
deriving DecidableEq, Repr

/-- Modelled from the spec: `Commands: { Start: [Command], Stop: [Command] }`. -/
structure Commands where
  Start : List Command := []
  Stop : List Command := []
deriving DecidableEq, Repr

/-- Modelled from the spec: `Startup: { Timeout, Retries }`. -/
structure Startup where
  Timeout : Int := 0
  Retries : Int := 0
deriving DecidableEq, Repr

/-- Modelled from the spec: `Healthcheck: { URL, Method, Status, RetryInterval, Timeout,
MaxRetries }`; the build worker compares it with the zero value `models.Healthcheck{}`,
which is the default value of this structure. -/
structure Healthcheck where
  Method : String := ""
  URL : String := ""
  Status : Int := 0
  MaxRetries : Int := 0
  RetryInterval : Int := 0
  Timeout : Int := 0
deriving DecidableEq, Repr

/-- Modelled from the spec: `Warmup entry: { URL, Method, Status, Timeout }`. -/
structure Warmup where
  Method : String := ""
  URL : String := ""
  Status : Int := 0
  Timeout : Int := 0
deriving DecidableEq, Repr

/-- Modelled from the spec: `Warmup: Warmups { URLs: [Warmup], MaxRetries,
RetryInterval }`. -/
structure Warmups where
  MaxRetries : Int := 0
  RetryInterval : Int := 0
  URLs : List Warmup := []
deriving DecidableEq, Repr

/-- Modelled from the spec: the part of `models.ApplicationConfiguration` read by the
build and start workers (`Name`, `MaxConcurrentSessions`, `Port`, `Target`, `Watch`,
`Recycle`, and for the build goroutine `Commands`, `Startup`, `Healthcheck`, `Warmup`,
`Host`); the type declaration is missing from the sources.  A field left out of a
literal has the Go zero value. -/
structure ApplicationConfiguration where
  Name : String
  MaxConcurrentSessions : Int
  Port : PortConfiguration
  Target : String
  Watch : List String
  Recycle : Recycle
  Commands : Commands := {}
  Startup : Startup := {}
  Healthcheck : Healthcheck := {}
  Warmup : Warmups := {}
  Host : String := ""
deriving DecidableEq, Repr

/-- Modelled from the spec: `models.Branch` (declaration missing), as the fetch worker
fills it (application-fetch-worker.go 121-127); `Date` is left out, `Commit` carrying no
date here. -/
structure Branch where
  Name : String
  Hash : String
  Author : String
  Message : String
deriving DecidableEq, Repr

/-- Modelled from the spec: `models.RemoteObject` (declaration missing), the branches
and tags that point to a hash (section 3: `HashToObjectsMap`). -/
structure RemoteObject where
  Branches : List String
  Tags : List String
deriving DecidableEq, Repr

/-- Modelled from the spec: `models.Application` (declaration missing): the
configuration, whose fields Go promotes (`app.Name`, `app.Watch`, `app.Recycle`), and
the maps filled by the fetch worker; a map or list left out of a literal is empty. -/
structure Application extends ApplicationConfiguration where
  ObjectsToHashMap : List (String × String)
  CommitMap : List (String × Commit)
  HashToObjectsMap : List (String × RemoteObject) := []
  Branches : List (String × Branch) := []
  Tags : List String := []
  Commits : List String := []
deriving DecidableEq, Repr

/-- Modelled from the spec: `Application.GetConfiguration` returns the configuration
snapshot of the application. -/
def Application.GetConfiguration (a : Application) : ApplicationConfiguration :=
  a.toApplicationConfiguration

/-- Modelled from the spec: `Watch.Contains` (missing) is membership of the ref in the
watch list (`Watch: [refName]`). -/
def Watch.Contains (watch : List String) (ref : String) : Bool :=
  watch.contains ref

abbrev Variables := List (String × String)

/-- Lookup `v[k]` in a Go map. -/
def Variables.get (v : Variables) (k : String) : Option String :=
  v.lookup k

/-- Assignment `v[k] = x` in a Go map: the binding of `k` is overwritten when there is
one and created otherwise. -/
def Variables.set (v : Variables) (k x : String) : Variables :=
  if v.any (fun p => p.1 == k) then v.map (fun p => if p.1 == k then (k, x) else p)
  else v ++ [(k, x)]

/-- The struct `models.Session` (session.go 40-60), without the lock and the metrics;
`Commit` and `replaces` are fields the build worker writes and are modelled from the
spec (`replaces` holds the UUID of the replaced session). -/
structure Session where
  UUID : String
  ShortUUID : String
  Name : String
  Target : String
  Port : Int
  ApplicationName : String
  Application : Application
  Status : SessionStatus
  Logs : List Log
  CommitID : String
  Checkout : String
  Commit : Option Commit
  MaxAge : Int
  InactiveAt : Int
  Folder : String
  Variables : Variables
  startupRetries : Int
  killReason : KillReason
  replaces : Option String
deriving DecidableEq, Repr

/-- First element of `strings.Split(s, "-")`: the part of `s` before the first dash. -/
def firstDashSegment (s : String) : String :=
  String.mk (s.data.takeWhile (fun c => c != '-'))

/-- `NewSession` (session.go 73-91). -/
def NewSession (session : Session) : Session :=
  { session with
    ShortUUID := firstDashSegment session.UUID
    ApplicationName := session.Application.Name
    Status := SessionStatusStarting
    Variables := if session.Variables.length = 0 then [] else session.Variables
    killReason := KillReasonNone }

/-- Modelled from the spec: `SessionBuilder.Build` is missing from the sources; it is
the constructor of sessions, whose body `session.go` holds as `NewSession`. -/
def SessionBuilder.Build (session : Session) : Session :=
  NewSession session

/-- `Session.LogInfo` (session.go 123-131). -/
def Session.LogInfo (session : Session) (message : String) : Session :=
  { session with Logs := session.Logs ++ [{ Type_ := LogTypeInfo, Message := message }] }

/-- `Session.LogWarn` (session.go 113-121). -/
def Session.LogWarn (session : Session) (message : String) : Session :=
  { session with Logs := session.Logs ++ [{ Type_ := LogTypeWarn, Message := message }] }

/-- `Session.SetStatus` (session.go 189-193). -/
def Session.SetStatus (session : Session) (status : SessionStatus) : Session :=
  { session with Status := status }

/-- `Session.GetStatus` (session.go 195-199). -/
def Session.GetStatus (session : Session) : SessionStatus := session.Status

/-- `Session.DecreaseMaxAge` (session.go 201-205). -/
def Session.DecreaseMaxAge (session : Session) : Session :=
  { session with MaxAge := session.MaxAge - 1 }

/-- `Session.GetMaxAge` (session.go 207-211). -/
def Session.GetMaxAge (session : Session) : Int := session.MaxAge

/-- `Session.SetMaxAge` (session.go 213-217). -/
def Session.SetMaxAge (session : Session) (age : Int) : Session :=
  { session with MaxAge := age }

/-- `Session.GetInactiveAt` (session.go 219-223). -/
def Session.GetInactiveAt (session : Session) : Int := session.InactiveAt

/-- `Session.SetInactiveAt` (session.go 225-229). -/
def Session.SetInactiveAt (session : Session) (at_ : Int) : Session :=
  { session with InactiveAt := at_ }

/-- `Session.GetStartupRetriesCount` (session.go 231-235). -/
def Session.GetStartupRetriesCount (session : Session) : Int := session.startupRetries

/-- `Session.IncStartupRetriesCount` (session.go 243-247). -/
def Session.IncStartupRetriesCount (session : Session) : Session :=
  { session with startupRetries := session.startupRetries + 1 }

/-- `Session.ResetStartupRetriesCount` (session.go 249-253). -/
def Session.ResetStartupRetriesCount (session : Session) : Session :=
  { session with startupRetries := 0 }

/-- `Session.GetKillReason` (session.go 255-259). -/
def Session.GetKillReason (session : Session) : KillReason := session.killReason

/-- `Session.SetKillReason` (session.go 261-265). -/
def Session.SetKillReason (session : Session) (reason : KillReason) : Session :=
  { session with killReason := reason }

/-- `Session.SetVariable` (session.go 267-271). -/
def Session.SetVariable (session : Session) (k v : String) : Session :=
  { session with Variables := session.Variables.set k v }

/-- `Session.ResetVariables` (session.go 273-277). -/
def Session.ResetVariables (session : Session) : Session :=
  { session with Variables := [] }

/-- The value of an integer reduced to the range of `int64` (two's complement). -/
def wrapInt64 (x : Int) : Int :=
  (x + 2 ^ 63) % 2 ^ 64 - 2 ^ 63

/-- The constant `time.Second`: a `time.Duration` counts nanoseconds. -/
def Second : Int := 1000000000

/-- The expression `time.Second * time.Duration(n)` (session.go 185,
session-start-worker.go 53): a product of `int64` values, which wraps around. -/
def durationOfSeconds (n : Int) : Int :=
  wrapInt64 (Second * n)

/-- `Session.MarkAsBeingRequested` (session.go 183-187); `now` is `time.Now()`. -/
def Session.MarkAsBeingRequested (session : Session) (now : Int) : Session :=
  (session.SetInactiveAt
      (now + durationOfSeconds session.Application.Recycle.InactivityTimeout)).SetMaxAge
    session.Application.Recycle.InactivityTimeout

/-- Modelled from the spec: `Session.SetReplaces` (missing) records the replacement
linkage: the new session remembers which session it replaces. -/
def Session.SetReplaces (session : Session) (previous : Session) : Session :=
  { session with replaces := some previous.UUID }

/-- Modelled from the spec: `Session.GetConfiguration` (missing) is the configuration
of the session's application. -/
def Session.GetConfiguration (session : Session) : ApplicationConfiguration :=
  session.Application.GetConfiguration

/-! ## storage -/

/-- Modelled from the spec: the session store `storage.Session` is missing from the
sources.  Section 4.3 describes it as a registry of sessions whose primary index is
UUID -> Session and whose secondary indexes ((ApplicationName, CommitID) -> alive
session, ApplicationName -> count of alive sessions) are maintained by `Add`, `Update`
and `Delete`.  The registry is the list of the registered sessions, as recorded by
the last `Add` or `Update` of each. -/
structure SessionStorage where
  sessions : List Session
deriving DecidableEq, Repr

/-- Modelled from the spec: `Add` registers the session under its UUID (an entry of
the same UUID is superseded). -/
def SessionStorage.Add (s : SessionStorage) (session : Session) : SessionStorage :=
  { sessions := s.sessions.filter (fun x => x.UUID != session.UUID) ++ [session] }

/-- Modelled from the spec: `Update` re-indexes a registered session: the entry of
that UUID is replaced by the current state of the session. -/
def SessionStorage.Update (s : SessionStorage) (session : Session) : SessionStorage :=
  { sessions := s.sessions.map (fun x => if x.UUID = session.UUID then session else x) }

/-- Modelled from the spec: `GetAllAliveSessions`, the registered sessions whose status
is alive. -/
def SessionStorage.GetAllAliveSessions (s : SessionStorage) : List Session :=
  s.sessions.filter (fun x => x.Status.IsAlive)

/-- Modelled from the spec: `AliveByApplicationCount`, the index
ApplicationName -> count of alive sessions. -/
def SessionStorage.AliveByApplicationCount (s : SessionStorage) (application : Application) :
    Int :=
  ((s.GetAllAliveSessions.filter (fun x => x.ApplicationName = application.Name)).length : Int)

/-- Modelled from the spec: `GetAliveApplicationSessionByCheckout(hash, app)`, the index
(ApplicationName, CommitID) -> alive session used for deduplication. -/
def SessionStorage.GetAliveApplicationSessionByCheckout (s : SessionStorage)
    (checkout : String) (application : Application) : Option Session :=
  s.GetAllAliveSessions.find?
    (fun x => x.ApplicationName = application.Name && x.CommitID = checkout)

/-! ## strings -/

/-- The scan of `strings.ReplaceAll` for a non-empty `old`: `skip` counts the characters
of a matched occurrence still to be dropped. -/
def replaceAllFrom (old new : List Char) : Nat → List Char → List Char
  | _, [] => []
  | skip + 1, _ :: cs => replaceAllFrom old new skip cs
  | 0, c :: cs =>
    if old.isPrefixOf (c :: cs) then new ++ replaceAllFrom old new (old.length - 1) cs
    else c :: replaceAllFrom old new 0 cs

/-- Go `strings.ReplaceAll(s, old, new)`: every non-overlapping occurrence of `old`,
found from the left, is replaced by `new`; an empty `old` matches before every
character and at the end. -/
def ReplaceAll (s old new : String) : String :=
  if old.data = [] then
    String.mk (new.data ++ s.data.flatMap (fun c => c :: new.data))
  else
    String.mk (replaceAllFrom old.data new.data 0 s.data)

/-- Go `strings.Contains(s, sub)` on character lists. -/
def containsChars (sub : List Char) : List Char → Bool
  | [] => sub.isEmpty
  | c :: cs => sub.isPrefixOf (c :: cs) || containsChars sub cs

/-- Go `strings.Contains(s, sub)`. -/
def Contains (s sub : String) : Bool :=
  containsChars sub.data s.data

/-- Go `fmt.Sprint(n)` and the verb `%d` for an `int`: the decimal numeral. -/
def Sprint (n : Int) : String := toString n

/-- The placeholder of the target template. -/
def portPlaceholder : String := "\x7b\x7bport\x7d\x7d"

/-! ## background: the session build worker -/

/-- Modelled from the spec: `models.GlobalConfiguration` (declaration missing); the
build worker reads `MaxConcurrentSessions`. -/
structure GlobalConfiguration where
  MaxConcurrentSessions : Int
deriving DecidableEq, Repr

/-- Modelled from the spec: the two values of `queues.SessionBuildResult.Result`. -/
inductive SessionBuildResultType where
  | SessionBuildResultSucceeded
  | SessionBuildResultFailed
deriving DecidableEq, Repr

/-- Modelled from the spec: `queues.SessionBuildResult{Result, Session, FailingReason}`;
a field the Go literal leaves out has its zero value. -/
structure SessionBuildResult where
  Result : SessionBuildResultType
  Session : Option Session
  FailingReason : String
deriving DecidableEq, Repr

/-- Modelled from the spec: `queues.SessionBuildInput{Checkout, Application,
PreviousSession}`. -/
structure SessionBuildInput where
  Checkout : String
  Application : Application
  PreviousSession : Option Session
deriving DecidableEq, Repr

/-- The state of `SessionBuildWorker` (session-build-worker.go 25-31) that
`acceptSessionBuild` reads and writes. -/
structure SessionBuildWorker where
  global : GlobalConfiguration
  sessionStorage : SessionStorage
deriving DecidableEq, Repr

/-- The answers of the environment to one call of `acceptSessionBuild`:
`uuid.NewString()` and `getFreePort(appPort)` (`none` is the error return). -/
structure BuildEnvironment where
  newUUID : String
  getFreePort : PortConfiguration → Option Int

/-- What one call of `acceptSessionBuild` leaves behind: the result it returns (`none`
when the call panics on the nil entry of `CommitMap`), the session object it worked on
in its final state (`none` when it returned before making one), the session store, and
the session handed to the `buildSession` goroutine. -/
structure AcceptOutcome where
  result : Option SessionBuildResult
  session : Option Session
  sessionStorage : SessionStorage
  building : Option Session
deriving DecidableEq, Repr

/-- Lines 113-124 of `acceptSessionBuild`: a new session under a generated UUID;
the fields the Go literal leaves out have their zero values. -/
def freshSession (env : BuildEnvironment) (input : SessionBuildInput) : Session :=
  let conf := input.Application.GetConfiguration
  let appName := conf.Name
  let sessionUUID := env.newUUID
  SessionBuilder.Build
    { UUID := sessionUUID
      ShortUUID := ""
      Name := appName
      Target := ""
      Port := 0
      ApplicationName := ""
      Application := input.Application
      Status := SessionStatusStarting
      Logs := []
      CommitID := input.Checkout
      Checkout := input.Checkout
      Commit := none
      MaxAge := 0
      InactiveAt := 0
      Folder := ""
      Variables := []
      startupRetries := 0
      killReason := KillReasonNone
      replaces := none }

/-- Lines 91-129 of `acceptSessionBuild`: the flags derived from the previous session
and the session object the build works on, which is the previous session (rebuilt,
variables reset, retries incremented) when recycling and a new one otherwise, linked to
the previous session when it is a replacement. -/
def sessionForBuild (env : BuildEnvironment) (input : SessionBuildInput) : Session :=
  let recyclingPreviousSession : Bool :=
    match input.PreviousSession with
    | some previous =>
      decide (previous.GetKillReason = KillReasonBuildFailed
        ∨ previous.GetKillReason = KillReasonHealthcheckFailed)
    | none => false
  let isAReplacement : Bool :=
    match input.PreviousSession with
    | some previous =>
      !recyclingPreviousSession && decide (previous.GetKillReason = KillReasonReplaced)
    | none => false
  let session : Session :=
    match recyclingPreviousSession, input.PreviousSession with
    | true, some previous =>
      ((SessionBuilder.Build previous).ResetVariables).IncStartupRetriesCount
    | _, _ => freshSession env input
  match isAReplacement, input.PreviousSession with
  | true, some previous => session.SetReplaces previous
  | _, _ => session

/-- Lines 154-155 of `acceptSessionBuild`: the free port is recorded on the session. -/
def recordPort (session : Session) (freePort : Int) : Session :=
  let session := { session with Port := freePort }
  session.LogInfo ("Found new free port: " ++ Sprint session.Port)

/-- Lines 158-159 of `acceptSessionBuild`, after `session.CommitID = checkout`: the
commit found in `CommitMap` is recorded on the session. -/
def recordCommit (session : Session) (inputCheckout : String) (commit : Commit) : Session :=
  let session := { session with Commit := some commit }
  session.LogInfo
    ("Requested checkout to " ++ inputCheckout ++ " (" ++ session.CommitID ++ ")")

/-- Lines 177-185 of `acceptSessionBuild`: the target is computed from the template and
the five variables are seeded. -/
def seedSession (session : Session) (appTarget : String) (freePort : Int) : Session :=
  let target := ReplaceAll appTarget portPlaceholder (Sprint freePort)
  let session := { session with Target := target }
  let session := session.LogInfo ("Setting session target to " ++ session.Target)
  let session := { session with Variables := session.Variables.set "uuid" session.UUID }
  let session := { session with Variables := session.Variables.set "name" session.Name }
  let session :=
    { session with Variables := session.Variables.set "port" (Sprint session.Port) }
  let session := { session with Variables := session.Variables.set "target" session.Target }
  { session with Variables := session.Variables.set "commit" session.CommitID }

/-- `SessionBuildWorker.acceptSessionBuild` (session-build-worker.go 71-195); lines
91-129 are `sessionForBuild`, lines 154-155 `recordPort`, lines 158-159 `recordCommit`
and lines 177-185 `seedSession`. -/
def acceptSessionBuild (w : SessionBuildWorker) (env : BuildEnvironment)
    (input : SessionBuildInput) : AcceptOutcome :=
  let conf := input.Application.GetConfiguration
  let appMaxConcurrentSessions := conf.MaxConcurrentSessions
  let aliveCount : Int := (w.sessionStorage.GetAllAliveSessions.length : Int)
  if aliveCount ≥ w.global.MaxConcurrentSessions then
    { result := some
        { Result := .SessionBuildResultFailed
          Session := none
          FailingReason := "Reached global maximum concurrent sessions" }
      session := none
      sessionStorage := w.sessionStorage
      building := none }
  else if w.sessionStorage.AliveByApplicationCount input.Application
      ≥ appMaxConcurrentSessions then
    { result := some
        { Result := .SessionBuildResultFailed
          Session := none
          FailingReason := "Reached maximum concurrent sessions for this application" }
      session := none
      sessionStorage := w.sessionStorage
      building := none }
  else
    let basedOnPreviousSession : Bool := input.PreviousSession.isSome
    let session : Session := sessionForBuild env input
    let conf := session.GetConfiguration
    let appPort := conf.Port
    let appTarget := conf.Target
    match input.Application.ObjectsToHashMap.lookup input.Checkout with
    | none =>
      { result := some
          { Result := .SessionBuildResultFailed
            Session := none
            FailingReason :=
              "Could not find the hash of the selected checkout " ++ input.Checkout }
        session := some session
        sessionStorage := w.sessionStorage
        building := none }
    | some checkout =>
      let session := session.LogInfo ("Creating session " ++ session.UUID)
      match env.getFreePort appPort with
      | none =>
        { result := some
            { Result := .SessionBuildResultFailed
              Session := none
              FailingReason := "Could not get a free port" }
          session := some session
          sessionStorage := w.sessionStorage
          building := none }
      | some freePort =>
        let session := recordPort session freePort
        let session := { session with CommitID := checkout }
        match input.Application.CommitMap.lookup checkout with
        | none =>
          { result := none
            session := some session
            sessionStorage := w.sessionStorage
            building := none }
        | some commit =>
          let session := recordCommit session input.Checkout commit
          match (if basedOnPreviousSession then none
                 else w.sessionStorage.GetAliveApplicationSessionByCheckout checkout
                   input.Application) with
          | some sessionAlreadyBeingBuilt =>
            let session := session.LogWarn
              ("Another session with the UUID " ++ sessionAlreadyBeingBuilt.UUID
                ++ " has already being requested for checkout " ++ input.Checkout)
            { result := some
                { Result := .SessionBuildResultSucceeded
                  Session := some sessionAlreadyBeingBuilt
                  FailingReason := "" }
              session := some session
              sessionStorage := w.sessionStorage
              building := none }
          | none =>
            let session := seedSession session appTarget freePort
            { result := some
                { Result := .SessionBuildResultSucceeded
                  Session := some session
                  FailingReason := "" }
              session := some session
              sessionStorage := w.sessionStorage.Add session
              building := some session }

/-- The request passes the two admission checks of `acceptSessionBuild` (lines 76-89). -/
def Admitted (w : SessionBuildWorker) (input : SessionBuildInput) : Prop :=
  (w.sessionStorage.GetAllAliveSessions.length : Int) < w.global.MaxConcurrentSessions
    ∧ w.sessionStorage.AliveByApplicationCount input.Application
        < input.Application.MaxConcurrentSessions

instance (w : SessionBuildWorker) (input : SessionBuildInput) : Decidable (Admitted w input) := by
  unfold Admitted
  infer_instance

/-- The session of `acceptSessionBuild` at line 187, on the path that reaches it: the
checkout resolved to `checkout`, `getFreePort` answered `freePort` and `CommitMap` held
`commit`. -/
def builtSession (env : BuildEnvironment) (input : SessionBuildInput) (checkout : String)
    (commit : Commit) (freePort : Int) : Session :=
  seedSession
    (recordCommit
      { recordPort ((sessionForBuild env input).LogInfo
          ("Creating session " ++ (sessionForBuild env input).UUID)) freePort with
        CommitID := checkout }
      input.Checkout commit)
    (sessionForBuild env input).GetConfiguration.Target freePort

/-- The five variables seeded on a session (lines 181-185). -/
def seededVariables (session : Session) : Variables :=
  [("uuid", session.UUID), ("name", session.Name), ("port", Sprint session.Port),
    ("target", session.Target), ("commit", session.CommitID)]

/-- Invariant 2 of the data model: the alive sessions are at most
`global.MaxConcurrentSessions`, and for every alive session the alive sessions of its
application are at most that application's `MaxConcurrentSessions`. -/
def ConcurrencyCaps (global : GlobalConfiguration) (s : SessionStorage) : Prop :=
  (s.GetAllAliveSessions.length : Int) ≤ global.MaxConcurrentSessions
    ∧ ∀ x ∈ s.GetAllAliveSessions,
        s.AliveByApplicationCount x.Application ≤ x.Application.MaxConcurrentSessions

instance (global : GlobalConfiguration) (s : SessionStorage) :
    Decidable (ConcurrencyCaps global s) := by
  unfold ConcurrencyCaps
  infer_instance

/-- Invariant 1 of the data model: two distinct alive sessions (distinct UUIDs) of the
same application and the same CommitID exist only when one of them was killed with
reason Replaced. -/
def UniqueAlive (s : SessionStorage) : Prop :=
  ∀ x ∈ s.GetAllAliveSessions, ∀ y ∈ s.GetAllAliveSessions,
    x.UUID ≠ y.UUID → x.ApplicationName = y.ApplicationName → x.CommitID = y.CommitID →
      x.killReason = KillReasonReplaced ∨ y.killReason = KillReasonReplaced

instance (s : SessionStorage) : Decidable (UniqueAlive s) := by
  unfold UniqueAlive
  infer_instance

/-- The store holds an alive session of the application `application` on commit
`checkout`. -/
def HoldsAlive (s : SessionStorage) (application : Application) (checkout : String)
    (x : Session) : Prop :=
  x ∈ s.sessions ∧ x.Status.IsAlive = true ∧ x.ApplicationName = application.Name
    ∧ x.CommitID = checkout

instance (s : SessionStorage) (application : Application) (checkout : String) (x : Session) :
    Decidable (HoldsAlive s application checkout x) := by
  unfold HoldsAlive
  infer_instance

/-! ## background: the session start worker -/

/-- What one call of `MarkSessionAsStarted` leaves behind: the session, the session
store, and whether `startSessionInactivityTimer` spawned a timer goroutine. -/
structure StartOutcome where
  session : Session
  sessionStorage : SessionStorage
  timerStarted : Bool
deriving DecidableEq, Repr

/-- `SessionStartWorker.startSessionInactivityTimer` (session-start-worker.go 52-54),
the statement before the goroutine is spawned; `now` is `time.Now()`. -/
def startSessionInactivityTimer (session : Session) (now : Int) : Session :=
  session.SetInactiveAt
    (now + durationOfSeconds session.Application.Recycle.InactivityTimeout)

/-- `SessionStartWorker.MarkSessionAsStarted` (session-start-worker.go 36-50). -/
def MarkSessionAsStarted (sessionStorage : SessionStorage) (session : Session) (now : Int) :
    StartOutcome :=
  let app := session.Application
  let session := session.SetStatus SessionStatusStarted
  let session := session.ResetStartupRetriesCount
  if Watch.Contains app.Watch session.Checkout then
    let session := session.SetMaxAge (-1)
    { session := session
      sessionStorage := sessionStorage.Update session
      timerStarted := false }
  else
    let session := session.SetMaxAge session.Application.Recycle.InactivityTimeout
    if session.GetMaxAge > 0 then
      let session := startSessionInactivityTimer session now
      { session := session
        sessionStorage := sessionStorage.Update session
        timerStarted := true }
    else
      { session := session
        sessionStorage := sessionStorage.Update session
        timerStarted := false }

/-- How one iteration of the timer loop ends: the goroutine returns, it enqueues
`DestroySession` and returns, or it sleeps one second and loops. -/
inductive TimerStep where
  | exit
  | destroy
  | sleep
deriving DecidableEq, Repr

/-- One iteration of the loop of the timer goroutine (session-start-worker.go 55-67);
`now` is `time.Now()` and `After` is strict. -/
def inactivityTimerIteration (session : Session) (now : Int) : Session × TimerStep :=
  let status := session.GetStatus
  if status ≠ SessionStatusStarted then (session, TimerStep.exit)
  else if now > session.GetInactiveAt then (session, TimerStep.destroy)
  else (session.DecreaseMaxAge, TimerStep.sleep)

/-- The start worker and what it shares with the rest of the program: the session
objects (by address), the session store, the timer goroutines that are running (each
by the address of its session) and the sessions enqueued on `DestroySession`. -/
structure StartWorld where
  objects : Nat → Option Session
  sessionStorage : SessionStorage
  timers : List Nat
  destroyQueue : List Nat

/-- What can happen next in a `StartWorld`: the worker receives a session from the
`StartSession` channel, a timer goroutine runs one iteration, the request service
calls `MarkAsBeingRequested`, or another worker sets the status of a session. -/
inductive StartEvent where
  | start (p : Nat) (now : Int)
  | tick (p : Nat) (now : Int)
  | request (p : Nat) (now : Int)
  | status (p : Nat) (status : SessionStatus)

/-- One event of the start worker's world. -/
def StartWorld.step (w : StartWorld) : StartEvent → StartWorld
  | .start p now =>
    match w.objects p with
    | none => w
    | some session =>
      let out := MarkSessionAsStarted w.sessionStorage session now
      { objects := Function.update w.objects p (some out.session)
        sessionStorage := out.sessionStorage
        timers := if out.timerStarted then w.timers ++ [p] else w.timers
        destroyQueue := w.destroyQueue }
  | .tick p now =>
    if p ∈ w.timers then
      match w.objects p with
      | none => w
      | some session =>
        match inactivityTimerIteration session now with
        | (_, TimerStep.exit) => { w with timers := w.timers.erase p }
        | (_, TimerStep.destroy) =>
          { w with timers := w.timers.erase p, destroyQueue := w.destroyQueue ++ [p] }
        | (session, TimerStep.sleep) =>
          { w with objects := Function.update w.objects p (some session) }
    else w
  | .request p now =>
    match w.objects p with
    | none => w
    | some session =>
      { w with objects := Function.update w.objects p (some (session.MarkAsBeingRequested now)) }
  | .status p status =>
    match w.objects p with
    | none => w
    | some session =>
      { w with objects := Function.update w.objects p (some (session.SetStatus status)) }

/-- A run of events. -/
def StartWorld.run (w : StartWorld) (events : List StartEvent) : StartWorld :=
  events.foldl StartWorld.step w

/-- The session at address `p` is watched, no timer goroutine runs for it and it is not
on the destroy queue. -/
def Pinned (w : StartWorld) (p : Nat) : Prop :=
  (∃ s, w.objects p = some s ∧ Watch.Contains s.Application.Watch s.Checkout = true)
    ∧ p ∉ w.timers ∧ p ∉ w.destroyQueue

/-- The session at address `p` gets no inactivity timer when it is marked started (its
checkout is watched or the inactivity timeout of its application is not positive), no
timer goroutine runs for it and it is not on the destroy queue. -/
def Untimed (w : StartWorld) (p : Nat) : Prop :=
  (∃ s, w.objects p = some s
      ∧ (Watch.Contains s.Application.Watch s.Checkout = true
        ∨ s.Application.Recycle.InactivityTimeout ≤ 0))
    ∧ p ∉ w.timers ∧ p ∉ w.destroyQueue

/-- The edges of the session state machine (spec 4.4): starting to started or
start_failed, started to stopping or degraded, stopping to stopped or stop_failed,
degraded to stopped. -/
def statusEdges : List (SessionStatus × SessionStatus) :=
  [(SessionStatusStarting, SessionStatusStarted),
    (SessionStatusStarting, SessionStatusStartFailed),
    (SessionStatusStarted, SessionStatusStopping),
    (SessionStatusStarted, SessionStatusDegraded),
    (SessionStatusStopping, SessionStatusStopped),
    (SessionStatusStopping, SessionStatusStopFailed),
    (SessionStatusDegraded, SessionStatusStopped)]

/-! ## background: the build goroutine -/

/-- Modelled from the spec: the log type used by `LogError`. -/
def LogTypeError : LogType := "error"

/-- Modelled from the spec: the log type used by `LogTrace`. -/
def LogTypeTrace : LogType := "trace"

/-- `Session.LogError` (session.go 103-111). -/
def Session.LogError (session : Session) (message : String) : Session :=
  { session with Logs := session.Logs ++ [{ Type_ := LogTypeError, Message := message }] }

/-- `Session.LogTrace` (session.go 143-151). -/
def Session.LogTrace (session : Session) (message : String) : Session :=
  { session with Logs := session.Logs ++ [{ Type_ := LogTypeTrace, Message := message }] }

/-- `Variables.ApplyTo` (session.go 66-71).  Go visits the keys of a map in an
unspecified order; here the bindings are visited in the order of the list. -/
def Variables.ApplyTo (v : Variables) (str : String) : String :=
  v.foldl (fun str p => ReplaceAll str ("\x7b\x7b" ++ p.1 ++ "\x7d\x7d") p.2) str

/-- The errors the build goroutine tells apart: the sentinel `ErrWrongSessionState`
(session-build-worker.go 21), `context.Canceled`, and any other error value (an error
of `buildCommand`, of `utils.ExecCmds`, ...), kept as its message. -/
inductive BuildError where
  | ErrWrongSessionState
  | Canceled
  | other (message : String)
deriving DecidableEq, Repr

/-- The method `Error()` of a `BuildError`. -/
def BuildError.Error : BuildError → String
  | .ErrWrongSessionState => "Wrong session state"
  | .Canceled => "context canceled"
  | .other message => message

/-- What the build goroutine does that other workers can see: the request of a working
tree to the filesystem worker, the execution of a start command (`execCommand`), the
execution of a warmup (`execWarmup`), and the calls of `HealthcheckSession.Enqueue`,
`StartSession.Enqueue` and `CleanSession.Enqueue` with its status. -/
inductive BuildEvent where
  | filesystem
  | command (c : Command)
  | warmup (u : Warmup)
  | healthcheck
  | start
  | clean (status : SessionStatus)
deriving DecidableEq, Repr

/-- The state threaded through the build goroutine: the session object, the session
store and the events so far, oldest first. -/
structure ExecState where
  session : Session
  sessionStorage : SessionStorage
  events : List BuildEvent
deriving DecidableEq, Repr

/-- What the environment does when the loop of `execCommands` reaches a command:
whether the context is done, the status the other workers have left on the session by
then, and the error of `execCommand` (`none` for nil).  The error of `execCommand` is
made by `buildCommand` or `utils.ExecCmds`, never the sentinel `ErrWrongSessionState`.
The writes of `execCommand` to the session (log lines, parsed output) are left out:
`buildCommand` and `parseSessionCommandOuput` are missing from the sources. -/
structure CommandRun where
  ctxDone : Bool := false
  status : SessionStatus := SessionStatusStarting
  err : Option String := none
deriving DecidableEq, Repr

/-- What `execCommands` returns, with the state it leaves. -/
structure CommandsOutcome where
  healthcheckingStarted : Bool
  err : Option BuildError
  state : ExecState
deriving DecidableEq, Repr

/-- The loop of `execCommands` (session-build-worker.go 312-341) over the remaining
commands, each with what the environment does at its turn. -/
def execCommandsLoop (conf : ApplicationConfiguration) :
    List (Command × CommandRun) → Bool → ExecState → CommandsOutcome
  | [], healthcheckingStarted, st =>
    { healthcheckingStarted := healthcheckingStarted, err := none, state := st }
  | (command, run) :: rest, healthcheckingStarted, st =>
    if run.ctxDone then
      { healthcheckingStarted := healthcheckingStarted
        err := some BuildError.Canceled
        state := st }
    else
      let session := st.session.SetStatus run.status
      let status := session.GetStatus
      if status ≠ SessionStatusStarting ∧ status ≠ SessionStatusStarted then
        { healthcheckingStarted := healthcheckingStarted
          err := some BuildError.ErrWrongSessionState
          state := { st with session := session } }
      else
        let events := st.events ++ [BuildEvent.command command]
        match run.err with
        | some message =>
          if !command.ContinueOnError then
            { healthcheckingStarted := healthcheckingStarted
              err := some (BuildError.other message)
              state := { st with session := session, events := events } }
          else
            execCommandsLoop conf rest healthcheckingStarted
              { st with session := session.LogError message, events := events }
        | none =>
          let sessionStorage := st.sessionStorage.Update session
          if command.StartHealthchecking && !healthcheckingStarted
              && decide (conf.Healthcheck ≠ {}) then
            execCommandsLoop conf rest true
              { session := session
                sessionStorage := sessionStorage
                events := events ++ [BuildEvent.healthcheck] }
          else
            execCommandsLoop conf rest healthcheckingStarted
              { session := session, sessionStorage := sessionStorage, events := events }

/-- `SessionBuildWorker.execCommands` (session-build-worker.go 305-342) on the start
commands of `conf`, each paired with what the environment does at its turn. -/
def execCommands (conf : ApplicationConfiguration) (steps : List (Command × CommandRun))
    (st : ExecState) : CommandsOutcome :=
  execCommandsLoop conf steps false st

/-- What one request of `execWarmup` meets: `http.NewRequest` fails, `Headers.ApplyTo`
fails, `client.Do` fails, or a response with a status code arrives. -/
inductive WarmupAttempt where
  | newRequestError (message : String)
  | headersError (message : String)
  | doError (message : String)
  | response (statusCode : Int)
deriving DecidableEq, Repr

/-- What `execWarmup` returns (success, url, error as its message), with the number of
requests it sent with `client.Do` and the session it leaves. -/
structure WarmupResult where
  success : Bool
  url : String
  err : Option String
  requests : Nat
  session : Session
deriving DecidableEq, Repr

/-- The loop of `execWarmup` (session-build-worker.go 415-471) from its iteration `i`,
with `retryCount` retries counted so far; `attempts i` is what the request of iteration
`i` meets. -/
def execWarmupLoop (warmup : Warmup) (warmups : Warmups) (attempts : Nat → WarmupAttempt)
    (retryCount : Int) (i : Nat) (session : Session) : WarmupResult :=
  let url := session.Variables.ApplyTo warmup.URL
  let session := session.LogTrace ("Requesting warmup URL " ++ url)
  match attempts i with
  | .newRequestError message =>
    { success := false, url := url, err := some message, requests := i, session := session }
  | .headersError message =>
    { success := false, url := url, err := some message, requests := i, session := session }
  | .doError message =>
    let retryCount := retryCount + 1
    let session := session.LogTrace ("Warmup error: " ++ message)
    if retryCount ≥ warmups.MaxRetries then
      { success := false, url := url
        err := some "Warmup did not return successfull status code"
        requests := i + 1, session := session }
    else execWarmupLoop warmup warmups attempts retryCount (i + 1) session
  | .response statusCode =>
    if statusCode ≠ warmup.Status then
      let retryCount := retryCount + 1
      let session := session.LogTrace
        ("Warmup error: received status code " ++ Sprint statusCode ++ ", wanted "
          ++ Sprint warmup.Status)
      if retryCount ≥ warmups.MaxRetries then
        { success := false, url := url
          err := some "Warmup did not return successfull status code"
          requests := i + 1, session := session }
      else execWarmupLoop warmup warmups attempts retryCount (i + 1) session
    else
      { success := true, url := url, err := none, requests := i + 1, session := session }
termination_by (warmups.MaxRetries - retryCount).toNat
decreasing_by
  all_goals simp_wf
  all_goals omega

/-- `SessionBuildWorker.execWarmup` (session-build-worker.go 410-472). -/
def execWarmup (session : Session) (warmup : Warmup) (warmups : Warmups)
    (attempts : Nat → WarmupAttempt) : WarmupResult :=
  execWarmupLoop warmup warmups attempts 0 0 session

/-- What the environment does when the loop of `execWarmups` reaches a warmup: whether
the context is done, the status the other workers have left on the session by then,
and what the requests of `execWarmup` meet. -/
structure WarmupRun where
  ctxDone : Bool := false
  status : SessionStatus := SessionStatusStarting
  attempts : Nat → WarmupAttempt := fun _ => WarmupAttempt.response 0

/-- What `execWarmups` returns, with the state it leaves. -/
structure WarmupsOutcome where
  err : Option BuildError
  state : ExecState
deriving DecidableEq, Repr

/-- Lines 397-403 of `execWarmups`: a warmup that did not succeed is logged, with the
error when there is one; the session is the one `execWarmup` left. -/
def logWarmupFailure (result : WarmupResult) : Session :=
  if !result.success then
    match result.err with
    | some message =>
      result.session.LogError
        ("Cannot execute warmup of URL " ++ result.url ++ ": " ++ message)
    | none => result.session.LogError ("Cannot execute warmup of URL " ++ result.url)
  else result.session

/-- The loop of `execWarmups` (session-build-worker.go 385-405) over the remaining
warmups, each with what the environment does at its turn. -/
def execWarmupsLoop (warmups : Warmups) : List (Warmup × WarmupRun) → ExecState → WarmupsOutcome
  | [], st => { err := none, state := st }
  | (warmup, run) :: rest, st =>
    if run.ctxDone then { err := some BuildError.Canceled, state := st }
    else
      let session := st.session.SetStatus run.status
      let status := session.GetStatus
      if status ≠ SessionStatusStarting ∧ status ≠ SessionStatusStarted then
        { err := some BuildError.ErrWrongSessionState
          state := { st with session := session } }
      else
        let result := execWarmup session warmup warmups run.attempts
        execWarmupsLoop warmups rest
          { st with
            session := logWarmupFailure result
            events := st.events ++ [BuildEvent.warmup warmup] }

/-- `SessionBuildWorker.execWarmups` (session-build-worker.go 378-408) on the warmups of
`conf`, each paired with what the environment does at its turn. -/
def execWarmups (conf : ApplicationConfiguration) (steps : List (Warmup × WarmupRun))
    (st : ExecState) : WarmupsOutcome :=
  execWarmupsLoop conf.Warmup steps st

/-- The items of a list, each with the answer of the environment for its position,
counted from `i`. -/
def withRuns {α β : Type} (runs : Nat → β) : Nat → List α → List (α × β)
  | _, [] => []
  | i, x :: xs => (x, runs i) :: withRuns runs (i + 1) xs

/-- Modelled from the spec: the response of the filesystem worker,
`{commitFolder, err}` (section 4.7). -/
structure FilesystemResponse where
  CommitFolder : String := ""
  Err : Option String := none
deriving DecidableEq, Repr

/-- The environment of one run of `buildSession`: the response of the filesystem
worker, what happens at the turn of each start command and of each warmup (by
position), and the status the other workers have left on the session when line 281
reads it. -/
structure BuildRun where
  filesystem : FilesystemResponse := {}
  commands : Nat → CommandRun := fun _ => {}
  warmups : Nat → WarmupRun := fun _ => {}
  statusAtHandoff : SessionStatus := SessionStatusStarting

/-- The goroutine of lines 231-245 when `quit` is closed: it logs, sets the kill reason
to build_failed if there is none, and enqueues `CleanSession` with start_failed. -/
def abortHandler (st : ExecState) : ExecState :=
  let session := st.session.LogError "Execution aborted"
  let session :=
    if session.GetKillReason = KillReasonNone then
      session.SetKillReason KillReasonBuildFailed
    else session
  { st with
    session := session
    events := st.events ++ [BuildEvent.clean SessionStatusStartFailed] }

/-- Lines 247-258 of `buildSession` (and lines 263-274, up to the text of the trace):
an error of `execCommands` or `execWarmups` is handled, `abort()` closes `quit` and the
goroutine of lines 231-245 runs. -/
def failBuild (err : BuildError) (trace : String) (st : ExecState) : ExecState :=
  let session := st.session
  let session :=
    if err = BuildError.ErrWrongSessionState then
      if session.GetKillReason = KillReasonNone then
        session.SetKillReason KillReasonStopped
      else session.LogTrace trace
    else session
  let session := session.LogError err.Error
  abortHandler { st with session := session }

/-- Lines 277-292 of `buildSession`: the store is updated and the session is handed to
the start worker or to the healthcheck worker; `confirm()` closes `done` and the
goroutine of lines 231-245 returns. -/
def handoff (conf : ApplicationConfiguration) (healthcheckingStarted : Bool)
    (statusAtHandoff : SessionStatus) (st : ExecState) : ExecState :=
  let session := st.session
  let sessionStorage := st.sessionStorage.Update session
  let appHealthcheck := conf.Healthcheck
  if appHealthcheck = {} then
    let session := session.SetStatus statusAtHandoff
    let events :=
      if session.Status ≠ SessionStatusStarted then st.events ++ [BuildEvent.start]
      else st.events
    { session := session.LogInfo "Session started"
      sessionStorage := sessionStorage
      events := events }
  else
    if !healthcheckingStarted then
      { session := session
        sessionStorage := sessionStorage
        events := st.events ++ [BuildEvent.healthcheck] }
    else { session := session, sessionStorage := sessionStorage, events := st.events }

/-- `SessionBuildWorker.buildSession` (session-build-worker.go 197-293), with
`prepareFolders` (lines 295-303) inlined.  The metrics and the registration of the
cancellable scope are left out. -/
def buildSession (w : SessionBuildWorker) (run : BuildRun) (session : Session) : ExecState :=
  let conf := session.GetConfiguration
  let events := [BuildEvent.filesystem]
  let session := { session with Folder := run.filesystem.CommitFolder }
  match run.filesystem.Err with
  | some message =>
    let session :=
      session.LogError ("Could not build session commit structure: " ++ message)
    let session := session.SetKillReason KillReasonBuildFailed
    { session := session
      sessionStorage := w.sessionStorage
      events := events ++ [BuildEvent.clean SessionStatusStartFailed] }
  | none =>
    let st : ExecState :=
      { session := session
        sessionStorage := w.sessionStorage.Update session
        events := events }
    let commands := execCommands conf (withRuns run.commands 0 conf.Commands.Start) st
    match commands.err with
    | some err =>
      failBuild err "Commands: it has been killed by the user, right?" commands.state
    | none =>
      let warmup := conf.Warmup
      if warmup.URLs.length > 0 then
        let warmups := execWarmups conf (withRuns run.warmups 0 warmup.URLs) commands.state
        match warmups.err with
        | some err =>
          failBuild err "Warmup: it has been killed by the user, right?" warmups.state
        | none =>
          handoff conf commands.healthcheckingStarted run.statusAtHandoff warmups.state
      else handoff conf commands.healthcheckingStarted run.statusAtHandoff commands.state

/-- The start commands executed according to a list of events, in order. -/
def commandsOf (events : List BuildEvent) : List Command :=
  events.filterMap (fun e => match e with
    | BuildEvent.command c => some c
    | _ => none)

/-- The warmups executed according to a list of events, in order. -/
def warmupsOf (events : List BuildEvent) : List Warmup :=
  events.filterMap (fun e => match e with
    | BuildEvent.warmup u => some u
    | _ => none)

/-- The environment lets the loop of `execCommands` run the command: the context is
live and the status of the session is starting or started. -/
def CommandRun.Live (r : CommandRun) : Prop :=
  r.ctxDone = false ∧ (r.status = SessionStatusStarting ∨ r.status = SessionStatusStarted)

instance (r : CommandRun) : Decidable r.Live := by
  unfold CommandRun.Live
  infer_instance

/-- The environment lets the loop of `execWarmups` run the warmup: the context is live
and the status of the session is starting or started. -/
def WarmupRun.Live (r : WarmupRun) : Prop :=
  r.ctxDone = false ∧ (r.status = SessionStatusStarting ∨ r.status = SessionStatusStarted)

instance (r : WarmupRun) : Decidable r.Live := by
  unfold WarmupRun.Live
  infer_instance

/-- The command does not end the sequence: it succeeds, or it fails with
`ContinueOnError` set. -/
def Tolerated (p : Command × CommandRun) : Prop :=
  p.2.err ≠ none → p.1.ContinueOnError = true

instance (p : Command × CommandRun) : Decidable (Tolerated p) := by
  unfold Tolerated
  infer_instance

/-- The statuses with which `CleanSession` was enqueued according to a list of events,
in order. -/
def cleansOf (events : List BuildEvent) : List SessionStatus :=
  events.filterMap (fun e => match e with
    | BuildEvent.clean status => some status
    | _ => none)

/-- The state of `buildSession` when it calls `execCommands` (line 246), after the
filesystem worker answered without error. -/
def buildStart (w : SessionBuildWorker) (run : BuildRun) (session : Session) : ExecState :=
  { session := { session with Folder := run.filesystem.CommitFolder }
    sessionStorage :=
      w.sessionStorage.Update { session with Folder := run.filesystem.CommitFolder }
    events := [BuildEvent.filesystem] }

/-- The start commands of the session, each with what the environment does at its
turn. -/
def commandSteps (run : BuildRun) (session : Session) : List (Command × CommandRun) :=
  withRuns run.commands 0 session.GetConfiguration.Commands.Start

/-- The warmups of the session, each with what the environment does at its turn. -/
def warmupSteps (run : BuildRun) (session : Session) : List (Warmup × WarmupRun) :=
  withRuns run.warmups 0 session.GetConfiguration.Warmup.URLs

/-- The call of `execCommands` made by `buildSession` (line 246). -/
def buildCommands (w : SessionBuildWorker) (run : BuildRun) (session : Session) :
    CommandsOutcome :=
  execCommands session.GetConfiguration (commandSteps run session) (buildStart w run session)

/-- The call of `execWarmups` made by `buildSession` once the commands returned without
error (lines 260-262); without warmup URL nothing is called. -/
def buildWarmups (w : SessionBuildWorker) (run : BuildRun) (session : Session) :
    WarmupsOutcome :=
  if session.GetConfiguration.Warmup.URLs.length > 0 then
    execWarmups session.GetConfiguration (warmupSteps run session)
      (buildCommands w run session).state
  else { err := none, state := (buildCommands w run session).state }

/-- The build is aborted with the error `err`: `execCommands` returns it, or
`execCommands` returns no error and `execWarmups` returns it. -/
def AbortedWith (w : SessionBuildWorker) (run : BuildRun) (session : Session)
    (err : BuildError) : Prop :=
  run.filesystem.Err = none
    ∧ ((buildCommands w run session).err = some err
      ∨ ((buildCommands w run session).err = none
        ∧ (buildWarmups w run session).err = some err))

/-- The commands and the warmups of the build complete: the filesystem worker, the
call of `execCommands` and the call of `execWarmups` return no error. -/
def Completed (w : SessionBuildWorker) (run : BuildRun) (session : Session) : Prop :=
  run.filesystem.Err = none ∧ (buildCommands w run session).err = none
    ∧ (buildWarmups w run session).err = none

/-- The command is flagged `StartHealthchecking` and succeeds. -/
def StartsHealthcheck (p : Command × CommandRun) : Prop :=
  p.1.StartHealthchecking = true ∧ p.2.err = none

instance (p : Command × CommandRun) : Decidable (StartsHealthcheck p) := by
  unfold StartsHealthcheck
  infer_instance

instance (w : SessionBuildWorker) (run : BuildRun) (session : Session)
    (err : BuildError) : Decidable (AbortedWith w run session err) := by
  unfold AbortedWith
  infer_instance

instance (w : SessionBuildWorker) (run : BuildRun) (session : Session) :
    Decidable (Completed w run session) := by
  unfold Completed
  infer_instance

/-! ## background: the application fetch worker -/

/-- Assignment `m[k] = x` in a Go map: the binding of `k` is overwritten when there is
one and created otherwise. -/
def mapSet {β : Type} : List (String × β) → String → β → List (String × β)
  | [], k, x => [(k, x)]
  | (k', x') :: rest, k, x =>
    if k' = k then (k, x) :: rest else (k', x') :: mapSet rest k x

/-- Go `strings.HasPrefix(s, p)`. -/
def HasPrefix (s p : String) : Bool :=
  p.data.isPrefixOf s.data

/-- The slice `s[len(p):]` for a string `s` that starts with `p`. -/
def trimLeading (s p : String) : String :=
  String.mk (s.data.drop p.data.length)

/-- Modelled from the spec: `appendWithoutDup` (missing from the sources) appends an
element to a list that does not hold it yet (section 3: sets, de-duplicated). -/
def appendWithoutDup (l : List String) (x : String) : List String :=
  if x ∈ l then l else l ++ [x]

/-- A reference of the repository (`plumbing.Reference`): its full name and the hash it
points to. -/
structure Reference where
  Name : String
  Hash : String
deriving DecidableEq, Repr

/-- What the opened repository answers during one fetch: `repo.Branches()`,
`repo.CommitObject(hash)`, `repo.Tags()` and `repo.Log(...)`; `none` is the error
return. -/
structure Repository where
  Branches : Option (List Reference)
  CommitObject : String → Option Commit
  Tags : Option (List Reference)
  Log : Option (List Commit)

/-- The answers of the environment to one call of `FetchApplicationRemote`: whether
`application.GetAuth()` returns an error, the repository opened by `git.PlainOpen`
(`none` is the error return), and the answers given to the build worker for the build
of each ref. -/
structure FetchEnvironment where
  authErr : Bool := false
  repo : Option Repository
  build : String → BuildEnvironment

/-- The local variables of `FetchApplicationRemote` (lines 62-67) and of the closure
returned by `registerObjectHash` (lines 223-224). -/
structure FetchState where
  objectsToHashMap : List (String × String) := []
  hashToObjectsMap : List (String × RemoteObject) := []
  appBranches : List (String × Branch) := []
  appTags : List String := []
  appCommits : List String := []
  appCommitMap : List (String × Commit) := []
  watchResults : List (String × String) := []
  watchedHashes : List (String × Bool) := []
deriving DecidableEq, Repr

/-- The closure returned by `registerObjectHash` (application-fetch-worker.go
225-232). -/
def registerHash (watch : List String) (st : FetchState) (refName hash : String) :
    FetchState :=
  let st := { st with objectsToHashMap := mapSet st.objectsToHashMap refName hash }
  if Watch.Contains watch refName then
    match st.watchedHashes.lookup hash with
    | none =>
      { st with
        watchResults := mapSet st.watchResults refName hash
        watchedHashes := mapSet st.watchedHashes hash true }
    | some _ => st
  else st

/-- The closure `checkObjectExists` (lines 69-78). -/
def checkObjectExists (st : FetchState) (hash : String) : FetchState :=
  match st.hashToObjectsMap.lookup hash with
  | none =>
    { st with
      hashToObjectsMap := mapSet st.hashToObjectsMap hash { Branches := [], Tags := [] } }
  | some _ => st

/-- The entry `hashToObjectsMap[hash]`, which `checkObjectExists` has created. -/
def FetchState.remoteObject (st : FetchState) (hash : String) : RemoteObject :=
  match st.hashToObjectsMap.lookup hash with
  | some o => o
  | none => { Branches := [], Tags := [] }

def refPrefix : String := "refs/heads/"

def tagPrefix : String := "refs/tags/"

/-- The callback of `branches.ForEach` (lines 99-130); the Boolean tells whether the
callback returns an error, which is the error of `repo.CommitObject`. -/
def branchCallback (repo : Repository) (watch : List String) (st : FetchState)
    (ref : Reference) : FetchState × Bool :=
  let refName := ref.Name
  let refHash := ref.Hash
  if !HasPrefix refName refPrefix then (st, false)
  else
    let branchName := trimLeading refName refPrefix
    let st := registerHash watch st branchName refHash
    let st := registerHash watch st ("origin/" ++ branchName) refHash
    let st := registerHash watch st ref.Name refHash
    let st := checkObjectExists st refHash
    let o := st.remoteObject refHash
    let st :=
      { st with
        hashToObjectsMap :=
          mapSet st.hashToObjectsMap refHash
            { o with Branches := appendWithoutDup o.Branches branchName } }
    match repo.CommitObject ref.Hash with
    | none => (st, true)
    | some commit =>
      ({ st with
          appBranches :=
            mapSet st.appBranches branchName
              { Name := branchName
                Hash := refHash
                Author := commit.Author
                Message := commit.Message } },
        false)

/-- The iteration `branches.ForEach` of go-git, which calls the callback on each
reference until the callback returns an error or the references are exhausted. -/
def forEachBranch (repo : Repository) (watch : List String) :
    List Reference → FetchState → FetchState
  | [], st => st
  | ref :: rest, st =>
    let step := branchCallback repo watch st ref
    if step.2 then step.1 else forEachBranch repo watch rest step.1

/-- The callback of `tags.ForEach` (lines 141-159), which returns no error. -/
def tagCallback (watch : List String) (st : FetchState) (ref : Reference) : FetchState :=
  let refName := ref.Name
  let refHash := ref.Hash
  if !HasPrefix refName tagPrefix then st
  else
    let tagName := trimLeading refName tagPrefix
    let st := registerHash watch st tagName refHash
    let st := { st with appTags := appendWithoutDup st.appTags tagName }
    let st := registerHash watch st refName refHash
    let st := checkObjectExists st refHash
    let o := st.remoteObject refHash
    { st with
      hashToObjectsMap :=
        mapSet st.hashToObjectsMap refHash
          { o with Tags := appendWithoutDup o.Tags tagName } }

/-- The callback of `logs.ForEach` (lines 171-177). -/
def logCallback (watch : List String) (st : FetchState) (commit : Commit) : FetchState :=
  let commitHash := commit.Hash
  let st := registerHash watch st commitHash commitHash
  { st with
    appCommits := st.appCommits ++ [commitHash]
    appCommitMap := mapSet st.appCommitMap commitHash commit }

/-- Lines 181-188: the maps of the application are replaced under its lock. -/
def swapMaps (application : Application) (st : FetchState) : Application :=
  { application with
    ObjectsToHashMap := st.objectsToHashMap
    HashToObjectsMap := st.hashToObjectsMap
    Branches := st.appBranches
    Tags := st.appTags
    Commits := st.appCommits
    CommitMap := st.appCommitMap }

/-- What the fetch worker enqueues: `DestroySession` for a session, with a callback that
requests the build of `ref`, or `BuildSession` for `ref` without previous session. -/
inductive FetchEvent where
  | destroy (session : Session) (ref : String)
  | build (ref : String)
deriving DecidableEq, Repr

/-- What one call of `FetchApplicationRemote` leaves behind: the application, the state
of the build worker, which has served the builds requested, and the requests
enqueued. -/
structure FetchOutcome where
  application : Application
  worker : SessionBuildWorker
  events : List FetchEvent
deriving DecidableEq, Repr

/-- Lines 196-205: the last alive session of the application whose checkout is `ref`. -/
def foundSession (sessions : List Session) (appName ref : String) : Option Session :=
  sessions.foldl
    (fun found session =>
      if session.ApplicationName = appName ∧ session.Checkout = ref then some session
      else found)
    none

/-- Lines 194-219: the loop over `watchResults`, visited in the order of the list.
`BuildSession.Enqueue` is synchronous: the build worker runs `acceptSessionBuild` on the
request before the loop goes on. -/
def watchLoop (env : FetchEnvironment) (application : Application) (appName : String) :
    List (String × String) → FetchOutcome → FetchOutcome
  | [], out => out
  | (ref, hash) :: rest, out =>
    let sessions := out.worker.sessionStorage.GetAllAliveSessions
    match foundSession sessions appName ref with
    | some session =>
      let sessionCommitID := session.CommitID
      if sessionCommitID ≠ hash then
        watchLoop env application appName rest
          { out with events := out.events ++ [FetchEvent.destroy session ref] }
      else watchLoop env application appName rest out
    | none =>
      let accepted :=
        acceptSessionBuild out.worker (env.build ref)
          { Checkout := ref, Application := application, PreviousSession := none }
      watchLoop env application appName rest
        { out with
          worker := { out.worker with sessionStorage := accepted.sessionStorage }
          events := out.events ++ [FetchEvent.build ref] }

/-- The state of the fetch after the branches, the tags and the log have been read
(lines 95-177), `none` when `repo.Tags()` or `repo.Log()` returns an error and the fetch
returns early. -/
def readRepository (repo : Repository) (watch : List String) (branches : List Reference) :
    Option FetchState :=
  let st := forEachBranch repo watch branches {}
  match repo.Tags with
  | none => none
  | some tags =>
    let st := tags.foldl (tagCallback watch) st
    match repo.Log with
    | none => none
    | some logs => some (logs.foldl (logCallback watch) st)

/-- `ApplicationFetchWorker.FetchApplicationRemote` (application-fetch-worker.go
43-220).  The result is `none` when `repo.Branches()` returns an error: the iterator is
then nil and `branches.ForEach` panics.  An early return leaves the application as it
is.  The logging and `gitClient.FetchAll`, whose error is only logged, are left
out. -/
def FetchApplicationRemote (w : SessionBuildWorker) (env : FetchEnvironment)
    (application : Application) (watchObjects : Bool) : Option FetchOutcome :=
  let unchanged : FetchOutcome := { application := application, worker := w, events := [] }
  if env.authErr then some unchanged
  else
    let appName := application.Name
    let watch := application.Watch
    match env.repo with
    | none => some unchanged
    | some repo =>
      match repo.Branches with
      | none => none
      | some branches =>
        match readRepository repo watch branches with
        | none => some unchanged
        | some st =>
          let application := swapMaps application st
          let out : FetchOutcome := { application := application, worker := w, events := [] }
          if !watchObjects then some out
          else some (watchLoop env application appName st.watchResults out)

/-- The names under which the fetch registers a branch reference, in the order of
lines 108-110; none for a reference outside `refs/heads/`. -/
def branchRegistrations (ref : Reference) : List (String × String) :=
  if HasPrefix ref.Name refPrefix then
    [(trimLeading ref.Name refPrefix, ref.Hash),
      ("origin/" ++ trimLeading ref.Name refPrefix, ref.Hash),
      (ref.Name, ref.Hash)]
  else []

/-- The names under which the fetch registers a tag reference, in the order of lines
150-153; none for a reference outside `refs/tags/`. -/
def tagRegistrations (ref : Reference) : List (String × String) :=
  if HasPrefix ref.Name tagPrefix then
    [(trimLeading ref.Name tagPrefix, ref.Hash), (ref.Name, ref.Hash)]
  else []

/-- Every call of `registerHash` of a fetch that reads the whole repository, in order:
the branches, the tags, the commits of the log. -/
def registrations (branches tags : List Reference) (logs : List Commit) :
    List (String × String) :=
  branches.flatMap branchRegistrations ++ tags.flatMap tagRegistrations
    ++ logs.map (fun commit => (commit.Hash, commit.Hash))

/-- The hash registered last under a name by a list of calls of `registerHash`. -/
def lastRegistered (regs : List (String × String)) (name : String) : Option String :=
  regs.reverse.lookup name

/-- The request of an attempt is sent and fails: `client.Do` returns an error, or a
response arrives whose status code is not the expected one. -/
def WarmupAttempt.Fails (a : WarmupAttempt) (warmup : Warmup) : Prop :=
  match a with
  | .doError _ => True
  | .response statusCode => statusCode ≠ warmup.Status
  | .newRequestError _ => False
  | .headersError _ => False

instance (a : WarmupAttempt) (warmup : Warmup) : Decidable (a.Fails warmup) := by
  unfold WarmupAttempt.Fails
  split <;> infer_instance

/-- The request recycles its previous session: there is one and its kill reason is
`build_failed` or `healthcheck_failed` (lines 95-101 of `acceptSessionBuild`). -/
def SessionBuildInput.recycling (input : SessionBuildInput) : Bool :=
  match input.PreviousSession with
  | some previous =>
    decide (previous.GetKillReason = KillReasonBuildFailed
      ∨ previous.GetKillReason = KillReasonHealthcheckFailed)
  | none => false

/-- The previous session object after a call of `acceptSessionBuild`.  When an admitted
request recycles its previous session, line 109 hands the pointer
`input.PreviousSession` to `sessionBuilder.Build`, which writes to the object and returns
the same pointer (`NewSession`, session.go 73-91), so the session the call works on is
the previous session itself; otherwise the call does not write to the previous
session. -/
def previousSessionAfter (w : SessionBuildWorker) (env : BuildEnvironment)
    (input : SessionBuildInput) : Option Session :=
  match input.PreviousSession with
  | none => none
  | some previous =>
    if input.recycling then
      match (acceptSessionBuild w env input).session with
      | some session => some session
      | none => some previous
    else some previous

/-- The call returns a result whose `Result` is `SessionBuildResultFailed`. -/
def FailedResult (outcome : AcceptOutcome) : Prop :=
  ∃ r, outcome.result = some r ∧ r.Result = SessionBuildResultType.SessionBuildResultFailed

instance (outcome : AcceptOutcome) : Decidable (FailedResult outcome) :=
  match h : outcome.result with
  | none => isFalse (by rintro ⟨r, hr, _⟩; rw [h] at hr; cases hr)
  | some r =>
    if hf : r.Result = SessionBuildResultType.SessionBuildResultFailed then
      isTrue ⟨r, h, hf⟩
    else isFalse (by rintro ⟨r', hr, hf'⟩; rw [h] at hr; cases hr; exact hf hf')

/-- The ref a request of the fetch worker is about: the ref that the callback of a
`DestroySession` request builds, or the ref of a `BuildSession` request. -/
def FetchEvent.ref : FetchEvent → String
  | .destroy _ ref => ref
  | .build ref => ref

/-- Modelled from the spec: `models.ApplicationEventType` (declaration missing), with
the event types listed for the application event bus (section 3). -/
inductive ApplicationEventType where
  | InitializationStarted
  | FetchStarted
  | FetchCompleted
  | InitializationCompleted
  | InitializationFailed
  | HotSwap
deriving DecidableEq, Repr

def ApplicationEventTypeInitializationStarted : ApplicationEventType :=
  ApplicationEventType.InitializationStarted

def ApplicationEventTypeFetchStarted : ApplicationEventType :=
  ApplicationEventType.FetchStarted

def ApplicationEventTypeFetchCompleted : ApplicationEventType :=
  ApplicationEventType.FetchCompleted

def ApplicationEventTypeInitializationCompleted : ApplicationEventType :=
  ApplicationEventType.InitializationCompleted

def ApplicationEventTypeInitializationFailed : ApplicationEventType :=
  ApplicationEventType.InitializationFailed

/-- Modelled from the spec: `models.ApplicationEvent` (declaration missing), reduced to
its type (`ApplicationEvent{type}`). -/
structure ApplicationEvent where
  EventType : ApplicationEventType
deriving DecidableEq, Repr

/-- What the initialisation of an application meets: whether the clone of the mirror
fails and whether the fetch fails. -/
structure InitEnvironment where
  cloneErr : Bool := false
  fetchErr : Bool := false
deriving DecidableEq, Repr

/-- Modelled from the spec: the events the application init worker emits on the bus of
the application (section 4.9; the worker is missing from the sources):
`InitializationStarted`, the clone and the opening of the mirror, `FetchStarted`, the
fetch, `FetchCompleted`, `InitializationCompleted`; an error converts to
`InitializationFailed` and aborts the sequence. -/
def initializeApplication (env : InitEnvironment) : List ApplicationEvent :=
  let events := [{ EventType := ApplicationEventTypeInitializationStarted }]
  if env.cloneErr then events ++ [{ EventType := ApplicationEventTypeInitializationFailed }]
  else
    let events := events ++ [{ EventType := ApplicationEventTypeFetchStarted }]
    if env.fetchErr then
      events ++ [{ EventType := ApplicationEventTypeInitializationFailed }]
    else
      events ++ [{ EventType := ApplicationEventTypeFetchCompleted },
        { EventType := ApplicationEventTypeInitializationCompleted }]

/-- What follows the events of a channel: the channel is closed, or no further event
arrives before the timeout of the `select`. -/
inductive ChannelEnd where
  | closed
  | silent
deriving DecidableEq, Repr

/-- The variables of `AssertApplicationEvents` when the loop `L` is left. -/
structure AssertState where
  lastFoundIndex : Int
  gotEvents : List ApplicationEvent
  timeoutFired : Bool
deriving DecidableEq, Repr

/-- The loop `L` of `AssertApplicationEvents` (application-events_assertions.go 34-56)
on the events still to arrive on the channel; `none` is the panic of the index
expression `events[lastFoundIndex+1]` when the index is out of range. -/
def assertLoop (events : List ApplicationEventType) (ending : ChannelEnd) :
    List ApplicationEvent → Int → List ApplicationEvent → Option AssertState
  | [], lastFoundIndex, gotEvents =>
    match ending with
    | .closed =>
      some { lastFoundIndex := lastFoundIndex, gotEvents := gotEvents, timeoutFired := false }
    | .silent =>
      some { lastFoundIndex := lastFoundIndex, gotEvents := gotEvents, timeoutFired := true }
  | ev :: ch, lastFoundIndex, gotEvents =>
    let gotEvents := gotEvents ++ [ev]
    match events[(lastFoundIndex + 1).toNat]? with
    | none => none
    | some expected =>
      if ev.EventType = expected then
        let lastFoundIndex := lastFoundIndex + 1
        if lastFoundIndex = (events.length : Int) - 1 then
          some { lastFoundIndex := lastFoundIndex, gotEvents := gotEvents
                 timeoutFired := false }
        else assertLoop events ending ch lastFoundIndex gotEvents
      else
        some { lastFoundIndex := lastFoundIndex, gotEvents := gotEvents
               timeoutFired := false }

/-- What a call of `AssertApplicationEvents` leaves: the events it returns and whether it
called `t.Error`. -/
structure AssertResult where
  gotEvents : List ApplicationEvent
  failed : Bool
deriving DecidableEq, Repr

/-- `AssertApplicationEvents` (application-events_assertions.go 14-68) on a channel
that delivers the events of `ch`, each before the timeout, and then ends with `ending`;
`none` is a panic.  The texts of the error messages are left out. -/
def AssertApplicationEvents (ch : List ApplicationEvent) (ending : ChannelEnd)
    (events : List ApplicationEventType) : Option AssertResult :=
  match assertLoop events ending ch (-1) [] with
  | none => none
  | some state =>
    if state.timeoutFired then some { gotEvents := state.gotEvents, failed := true }
    else if state.lastFoundIndex < (events.length : Int) - 1 then
      some { gotEvents := state.gotEvents, failed := true }
    else some { gotEvents := state.gotEvents, failed := false }

/-- The assertion accepts the stream: it returns without calling `t.Error`. -/
def Accepts (ch : List ApplicationEvent) (ending : ChannelEnd)
    (events : List ApplicationEventType) : Prop :=
  ∃ result, AssertApplicationEvents ch ending events = some result ∧ result.failed = false

/-- The events expected by `Test_ApplicationInit` (application-init_test.go 30-35). -/
def initEvents : List ApplicationEventType :=
  [ApplicationEventTypeInitializationStarted, ApplicationEventTypeFetchStarted,
    ApplicationEventTypeFetchCompleted, ApplicationEventTypeInitializationCompleted]

/-- `Test_ApplicationInit` (application-init_test.go 12-39): the application is
initialised and the events of its bus are asserted; the channel stays open. -/
def Test_ApplicationInit (env : InitEnvironment) : Option AssertResult :=
  AssertApplicationEvents (initializeApplication env) ChannelEnd.silent initEvents

/-! ## templates: the strings `Variables.ApplyTo` is applied to -/

/-- A piece of a template: literal text, or the placeholder of a key. -/
inductive Segment where
  | text (content : String)
  | placeholder (key : String)
deriving DecidableEq, Repr

/-- The characters of a segment; a placeholder is written with the key between two
opening and two closing braces, as `ApplyTo` formats it. -/
def Segment.chars : Segment → List Char
  | .text content => content.data
  | .placeholder key => ("\x7b\x7b" ++ key ++ "\x7d\x7d").data

/-- The string of a template. -/
def render (segs : List Segment) : String :=
  String.mk (segs.flatMap Segment.chars)

/-- The string holds no brace. -/
def BraceFree (s : String) : Prop :=
  ∀ c ∈ s.data, c ≠ '\x7b' ∧ c ≠ '\x7d'

instance (s : String) : Decidable (BraceFree s) := by
  unfold BraceFree
  infer_instance

/-- The text and the key of a segment hold no brace. -/
def Segment.BraceFree : Segment → Prop
  | .text content => Polo.BraceFree content
  | .placeholder key => Polo.BraceFree key

instance (seg : Segment) : Decidable seg.BraceFree := by
  unfold Segment.BraceFree
  split <;> infer_instance

/-- The segment after the placeholders of the keys of `v` have been replaced by their
values. -/
def Segment.substitute (v : Variables) : Segment → Segment
  | .text content => .text content
  | .placeholder key =>
    match v.lookup key with
    | some value => .text value
    | none => .placeholder key

/-! ## Example data -/

def exampleCommit : Commit :=
  { Hash := "abc123", Author := "dev@example.org", Message := "initial commit" }

/-- An application with a cap of two sessions, watching `main`; `main` and `dev` both
resolve to `abc123`, `feature` to `def456`, and `old` resolves to a commit outside the
log window. -/
def exampleApplication : Application :=
  { Name := "testserver"
    MaxConcurrentSessions := 2
    Port := { Except := [] }
    Target := "http://localhost:\x7b\x7bport\x7d\x7d"
    Watch := ["main"]
    Recycle := { InactivityTimeout := 60 }
    ObjectsToHashMap :=
      [("main", "abc123"), ("dev", "abc123"), ("feature", "def456"), ("old", "000aaa")]
    CommitMap :=
      [("abc123", exampleCommit),
        ("def456", { Hash := "def456", Author := "dev@example.org", Message := "feature" })] }

/-- The environment answers with UUID `7f3a-0002` and port 8080. -/
def exampleEnvironment : BuildEnvironment :=
  { newUUID := "7f3a-0002", getFreePort := fun _ => some 8080 }

/-- The environment has no free port. -/
def noPortEnvironment : BuildEnvironment :=
  { newUUID := "7f3a-0002", getFreePort := fun _ => none }

/-- A started session of `exampleApplication` on `main`. -/
def exampleSession : Session :=
  { UUID := "7f3a-0001"
    ShortUUID := "7f3a"
    Name := "testserver"
    Target := "http://localhost:8079"
    Port := 8079
    ApplicationName := "testserver"
    Application := exampleApplication
    Status := SessionStatusStarted
    Logs := []
    CommitID := "abc123"
    Checkout := "main"
    Commit := some exampleCommit
    MaxAge := 60
    InactiveAt := 60
    Folder := ""
    Variables :=
      [("uuid", "7f3a-0001"), ("name", "testserver"), ("port", "8079"),
        ("target", "http://localhost:8079"), ("commit", "abc123")]
    startupRetries := 0
    killReason := KillReasonNone
    replaces := none }

/-- A worker with an empty store and a global cap of ten. -/
def emptyWorker : SessionBuildWorker :=
  { global := { MaxConcurrentSessions := 10 }, sessionStorage := { sessions := [] } }

/-- A worker whose store holds `exampleSession`, global cap ten. -/
def busyWorker : SessionBuildWorker :=
  { global := { MaxConcurrentSessions := 10 }
    sessionStorage := { sessions := [exampleSession] } }

/-- A worker whose store holds `exampleSession`, global cap one. -/
def fullWorker : SessionBuildWorker :=
  { global := { MaxConcurrentSessions := 1 }
    sessionStorage := { sessions := [exampleSession] } }

/-- A request for `main` without previous session. -/
def mainRequest : SessionBuildInput :=
  { Checkout := "main", Application := exampleApplication, PreviousSession := none }

/-- A second answer of the environment: UUID `7f3a-0003` and port 8081. -/
def secondEnvironment : BuildEnvironment :=
  { newUUID := "7f3a-0003", getFreePort := fun _ => some 8081 }

/-- A stopped session of `exampleApplication`, killed with reason stopped; it is in no
store of the examples. -/
def stoppedSession : Session :=
  { exampleSession with
    UUID := "7f3a-0000"
    Status := SessionStatusStopped
    killReason := KillReasonStopped }

/-- A request for `main` that carries `stoppedSession` as previous session. -/
def rebuildRequest : SessionBuildInput :=
  { Checkout := "main", Application := exampleApplication
    PreviousSession := some stoppedSession }

/-- A started session of `exampleApplication` on the commit `000aaa` of `old`. -/
def oldSession : Session :=
  { exampleSession with UUID := "7f3a-0009", CommitID := "000aaa", Checkout := "old" }

/-- A worker whose store holds `oldSession`, global cap ten. -/
def oldWorker : SessionBuildWorker :=
  { global := { MaxConcurrentSessions := 10 }
    sessionStorage := { sessions := [oldSession] } }

/-- A request for `old` without previous session. -/
def oldRequest : SessionBuildInput :=
  { Checkout := "old", Application := exampleApplication, PreviousSession := none }

/-- A session of `exampleApplication` whose build failed once; it holds a stale
variable and is in no store of the examples. -/
def failedSession : Session :=
  { exampleSession with
    UUID := "7f3a-0000"
    Status := SessionStatusStartFailed
    Variables := [("uuid", "7f3a-0000"), ("stale", "yes")]
    startupRetries := 1
    killReason := KillReasonBuildFailed }

/-- A request for `main` that carries `failedSession` as previous session. -/
def recycleRequest : SessionBuildInput :=
  { Checkout := "main", Application := exampleApplication
    PreviousSession := some failedSession }

/-- A stopped session of `exampleApplication` on `def456`, killed with reason replaced;
it is in no store of the examples. -/
def replacedSession : Session :=
  { exampleSession with
    UUID := "7f3a-0000"
    Status := SessionStatusStopped
    CommitID := "def456"
    killReason := KillReasonReplaced }

/-- A request for `main` that carries `replacedSession` as previous session. -/
def replaceRequest : SessionBuildInput :=
  { Checkout := "main", Application := exampleApplication
    PreviousSession := some replacedSession }

/-- A request for a ref the application does not know. -/
def unknownRequest : SessionBuildInput :=
  { Checkout := "nope", Application := exampleApplication, PreviousSession := none }

/-- The session built for `featureRequest` under `exampleEnvironment`. -/
def featureSession : Session :=
  { UUID := "7f3a-0002"
    ShortUUID := "7f3a"
    Name := "testserver"
    Target := "http://localhost:8080"
    Port := 8080
    ApplicationName := "testserver"
    Application := exampleApplication
    Status := SessionStatusStarting
    Logs :=
      [{ Type_ := LogTypeInfo, Message := "Creating session 7f3a-0002" },
        { Type_ := LogTypeInfo, Message := "Found new free port: 8080" },
        { Type_ := LogTypeInfo, Message := "Requested checkout to feature (def456)" },
        { Type_ := LogTypeInfo, Message := "Setting session target to http://localhost:8080" }]
    CommitID := "def456"
    Checkout := "feature"
    Commit := some { Hash := "def456", Author := "dev@example.org", Message := "feature" }
    MaxAge := 0
    InactiveAt := 0
    Folder := ""
    Variables :=
      [("uuid", "7f3a-0002"), ("name", "testserver"), ("port", "8080"),
        ("target", "http://localhost:8080"), ("commit", "def456")]
    startupRetries := 0
    killReason := KillReasonNone
    replaces := none }

/-- A request for `feature` without previous session. -/
def featureRequest : SessionBuildInput :=
  { Checkout := "feature", Application := exampleApplication, PreviousSession := none }

/-- A world of the start worker: `exampleSession` (on the watched ref `main`) lives at
address 0, no timer runs and nothing is enqueued. -/
def exampleWorld : StartWorld :=
  { objects := fun p => if p = 0 then some exampleSession else none
    sessionStorage := { sessions := [exampleSession] }
    timers := []
    destroyQueue := [] }

/-- A long idle period of `exampleWorld`: ticks at ever later times, a request and a
second start. -/
def exampleEvents : List StartEvent :=
  [StartEvent.tick 0 100, StartEvent.tick 0 100000, StartEvent.request 0 100001,
    StartEvent.start 0 100002, StartEvent.tick 0 99999999]

/-- An application like `exampleApplication` with an inactivity timeout of 0. -/
def zeroTimeoutApplication : Application :=
  { exampleApplication with Recycle := { InactivityTimeout := 0 } }

/-- A starting session of `zeroTimeoutApplication` on the unwatched ref `feature`. -/
def idleSession : Session :=
  { featureSession with Application := zeroTimeoutApplication }

/-- A world of the start worker with `idleSession` at address 0, no timer running. -/
def idleWorld : StartWorld :=
  { objects := fun p => if p = 0 then some idleSession else none
    sessionStorage := { sessions := [idleSession] }
    timers := []
    destroyQueue := [] }

/-- A world in which a timer runs for the started `exampleSession` at address 0; its
`InactiveAt` is 60. -/
def timerWorld : StartWorld :=
  { objects := fun p => if p = 0 then some exampleSession else none
    sessionStorage := { sessions := [exampleSession] }
    timers := [0]
    destroyQueue := [] }

/-- A world in which a timer runs for `featureSession`, whose status is starting. -/
def startingWorld : StartWorld :=
  { objects := fun p => if p = 0 then some featureSession else none
    sessionStorage := { sessions := [featureSession] }
    timers := [0]
    destroyQueue := [] }

/-- A start command that installs the dependencies. -/
def installCommand : Command := { Command := "npm install" }

/-- A start command whose failure is tolerated. -/
def lintCommand : Command := { Command := "npm run lint", ContinueOnError := true }

/-- A start command after which healthchecking starts. -/
def serveCommand : Command := { Command := "npm start", StartHealthchecking := true }

/-- The application `testserver` with three start commands and a healthcheck, without
warmup. -/
def buildApplication : Application :=
  { exampleApplication with
    Commands := { Start := [installCommand, lintCommand, serveCommand] }
    Healthcheck := { Method := "GET", URL := "/health", Status := 200, MaxRetries := 5 } }

/-- The application `testserver` with one start command and one warmup URL, without
healthcheck. -/
def warmupApplication : Application :=
  { exampleApplication with
    Commands := { Start := [serveCommand] }
    Warmup :=
      { MaxRetries := 2, URLs := [{ Method := "GET", URL := "/", Status := 200 }] } }

/-- A starting session of `buildApplication` whose kill reason is None. -/
def buildingSession : Session :=
  { featureSession with Application := buildApplication, killReason := KillReasonNone }

/-- A starting session of `warmupApplication` whose kill reason is None. -/
def warmingSession : Session :=
  { featureSession with Application := warmupApplication, killReason := KillReasonNone }

/-- A build in which the filesystem worker answers with a folder and every command
succeeds; every warmup request is answered with status code 0. -/
def smoothRun : BuildRun := { filesystem := { CommitFolder := "/tmp/polo/def456" } }

/-- A build in which the filesystem worker returns an error. -/
def filesystemFailsRun : BuildRun := { filesystem := { Err := some "clone failed" } }

/-- A command that exits with status 1. -/
def failedRun : CommandRun := { err := some "exit status 1" }

/-- A build in which the first command (`installCommand`) fails. -/
def installFailsRun : BuildRun :=
  { filesystem := { CommitFolder := "/tmp/polo/def456" }
    commands := fun i => if i = 0 then failedRun else {} }

/-- A build in which the second command (`lintCommand`) fails. -/
def lintFailsRun : BuildRun :=
  { filesystem := { CommitFolder := "/tmp/polo/def456" }
    commands := fun i => if i = 1 then failedRun else {} }

/-- A build whose context is cancelled when the second command is about to run. -/
def canceledRun : BuildRun :=
  { filesystem := { CommitFolder := "/tmp/polo/def456" }
    commands := fun i => if i = 1 then { ctxDone := true } else {} }

/-- A build whose session is found stopping when the second command is about to run. -/
def stoppingRun : BuildRun :=
  { filesystem := { CommitFolder := "/tmp/polo/def456" }
    commands := fun i => if i = 1 then { status := SessionStatusStopping } else {} }

/-- The state in which `buildSession` calls `execCommands` for `buildingSession`. -/
def exampleExecState : ExecState :=
  { session := buildingSession
    sessionStorage := { sessions := [buildingSession] }
    events := [BuildEvent.filesystem] }

/-- The commit of the branch `feature` of the examples. -/
def featureCommit : Commit :=
  { Hash := "def456", Author := "dev@example.org", Message := "feature" }

/-- A repository with the branches `main` and `feature`, the tag `v1` on the head of
`main`, and both commits in the log. -/
def exampleRepository : Repository :=
  { Branches :=
      some [{ Name := "refs/heads/main", Hash := "abc123" },
        { Name := "refs/heads/feature", Hash := "def456" }]
    CommitObject := fun hash => [exampleCommit, featureCommit].find? (fun c => c.Hash = hash)
    Tags := some [{ Name := "refs/tags/v1", Hash := "abc123" }]
    Log := some [featureCommit, exampleCommit] }

/-- A repository whose branch `v1` (head `def456`) and tag `v1` (on `abc123`) share
their short name. -/
def collisionRepository : Repository :=
  { Branches := some [{ Name := "refs/heads/v1", Hash := "def456" }]
    CommitObject := fun hash => [exampleCommit, featureCommit].find? (fun c => c.Hash = hash)
    Tags := some [{ Name := "refs/tags/v1", Hash := "abc123" }]
    Log := some [featureCommit, exampleCommit] }

/-- The fetch opens `exampleRepository`. -/
def exampleFetchEnvironment : FetchEnvironment :=
  { repo := some exampleRepository, build := fun _ => exampleEnvironment }

/-- The fetch opens `collisionRepository`. -/
def collisionFetchEnvironment : FetchEnvironment :=
  { repo := some collisionRepository, build := fun _ => exampleEnvironment }

/-- A warmup that expects status code 200. -/
def exampleWarmup : Warmup := { Method := "GET", URL := "/", Status := 200 }

/-- Every request is answered with status code 500. -/
def failingAttempts : Nat → WarmupAttempt := fun _ => WarmupAttempt.response 500

/-- The first request is refused, the second one is answered with status code 200. -/
def secondAttemptSucceeds : Nat → WarmupAttempt :=
  fun i => if i = 1 then WarmupAttempt.response 200 else WarmupAttempt.doError "refused"

/-- The commit of the branch `old` of the examples, made before the window of the log
(which starts on 2018-01-01). -/
def oldCommit : Commit :=
  { Hash := "000aaa", Author := "dev@example.org", Message := "first import" }

/-- A repository whose branch `old` points to a commit that the log does not list: the
commit is older than the window of `repo.Log`. -/
def staleRepository : Repository :=
  { Branches :=
      some [{ Name := "refs/heads/main", Hash := "abc123" },
        { Name := "refs/heads/old", Hash := "000aaa" }]
    CommitObject := fun hash =>
      [exampleCommit, oldCommit].find? (fun c => c.Hash = hash)
    Tags := some []
    Log := some [exampleCommit] }

/-- The fetch opens `staleRepository`. -/
def staleFetchEnvironment : FetchEnvironment :=
  { repo := some staleRepository, build := fun _ => exampleEnvironment }

/-- An application whose target template holds the placeholder of the name beside the
one of the port. -/
def namedTargetApplication : Application :=
  { exampleApplication with
    Target := "http://\x7b\x7bname\x7d\x7d.localhost:\x7b\x7bport\x7d\x7d" }

/-- A request for `main` of `namedTargetApplication`. -/
def namedTargetRequest : SessionBuildInput :=
  { Checkout := "main", Application := namedTargetApplication, PreviousSession := none }

/-- The variables seeded on the session built for `namedTargetRequest`, in the order of
lines 181-185. -/
def namedTargetVariables : Variables :=
  [("uuid", "7f3a-0002"), ("name", "testserver"), ("port", "8080"),
    ("target", "http://\x7b\x7bname\x7d\x7d.localhost:8080"), ("commit", "abc123")]

/-- A template of a warmup URL. -/
def exampleTemplate : List Segment :=
  [Segment.text "http://localhost:", Segment.placeholder "port", Segment.text "/health/",
    Segment.placeholder "commit", Segment.placeholder "unknown"]

/-- Variables without braces. -/
def plainVariables : Variables :=
  [("uuid", "7f3a-0002"), ("name", "testserver"), ("port", "8080"), ("commit", "abc123")]

/-- An application like `exampleApplication` with an inactivity timeout of
10000000000 seconds (about 317 years). -/
def longTimeoutApplication : Application :=
  { exampleApplication with Recycle := { InactivityTimeout := 10000000000 } }

/-- A started session of `longTimeoutApplication`. -/
def longTimeoutSession : Session :=
  { exampleSession with Application := longTimeoutApplication }

/-- A second application, with a cap of one session. -/
def otherApplication : Application :=
  { exampleApplication with Name := "otherserver", MaxConcurrentSessions := 1 }

/-- A started session of `otherApplication`. -/
def otherSession : Session :=
  { exampleSession with
    UUID := "9c1d-0001"
    ShortUUID := "9c1d"
    Name := "otherserver"
    ApplicationName := "otherserver"
    Application := otherApplication }

/-- A session of `otherApplication` whose build failed; it is in no store of the
examples. -/
def otherFailedSession : Session :=
  { otherSession with
    UUID := "9c1d-0000"
    Status := SessionStatusStartFailed
    killReason := KillReasonBuildFailed }

/-- A worker whose store holds `otherSession`, global cap ten. -/
def otherWorker : SessionBuildWorker :=
  { global := { MaxConcurrentSessions := 10 }
    sessionStorage := { sessions := [otherSession] } }

/-- A request for `main` of `exampleApplication` that carries a failed session of
`otherApplication` as previous session. -/
def crossRecycleRequest : SessionBuildInput :=
  { Checkout := "main", Application := exampleApplication
    PreviousSession := some otherFailedSession }

/-- A request that recycles `failedSession` for a ref the application does not know. -/
def recycleUnknownRequest : SessionBuildInput :=
  { Checkout := "nope", Application := exampleApplication
    PreviousSession := some failedSession }

/-! # Theorems -/

/-! ## The paths of `acceptSessionBuild` -/

theorem sessionForBuild_none (env : BuildEnvironment) (input : SessionBuildInput)
    (h : input.PreviousSession = none) :
    sessionForBuild env input = freshSession env input := by
  unfold sessionForBuild
  simp only [h]

theorem sessionForBuild_recycle (env : BuildEnvironment) (input : SessionBuildInput)
    (p : Session) (h : input.PreviousSession = some p)
    (hk : p.killReason = KillReasonBuildFailed ∨ p.killReason = KillReasonHealthcheckFailed) :
    sessionForBuild env input
      = ((SessionBuilder.Build p).ResetVariables).IncStartupRetriesCount := by
  have hk' : decide (p.GetKillReason = KillReasonBuildFailed
      ∨ p.GetKillReason = KillReasonHealthcheckFailed) = true := by
    simpa [Session.GetKillReason] using hk
  unfold sessionForBuild
  simp only [h, hk']
  rfl

theorem sessionForBuild_other (env : BuildEnvironment) (input : SessionBuildInput)
    (p : Session) (h : input.PreviousSession = some p)
    (hk : ¬ (p.killReason = KillReasonBuildFailed ∨ p.killReason = KillReasonHealthcheckFailed)) :
    sessionForBuild env input =
      if p.killReason = KillReasonReplaced then (freshSession env input).SetReplaces p
      else freshSession env input := by
  have hk' : decide (p.GetKillReason = KillReasonBuildFailed
      ∨ p.GetKillReason = KillReasonHealthcheckFailed) = false := by
    simpa [Session.GetKillReason] using hk
  unfold sessionForBuild
  simp only [h, hk']
  by_cases hr : p.killReason = KillReasonReplaced
  · simp [hr, Session.GetKillReason]
  · simp [hr, Session.GetKillReason]

/-- The three shapes of the session a build works on. -/
theorem sessionForBuild_cases (env : BuildEnvironment) (input : SessionBuildInput) :
    sessionForBuild env input = freshSession env input
    ∨ (∃ p, input.PreviousSession = some p
        ∧ sessionForBuild env input = (freshSession env input).SetReplaces p)
    ∨ (∃ p, input.PreviousSession = some p
        ∧ (p.killReason = KillReasonBuildFailed ∨ p.killReason = KillReasonHealthcheckFailed)
        ∧ sessionForBuild env input
            = ((SessionBuilder.Build p).ResetVariables).IncStartupRetriesCount) := by
  cases h : input.PreviousSession with
  | none => exact Or.inl (sessionForBuild_none env input h)
  | some p =>
    by_cases hk : p.killReason = KillReasonBuildFailed
        ∨ p.killReason = KillReasonHealthcheckFailed
    · exact Or.inr (Or.inr ⟨p, rfl, hk, sessionForBuild_recycle env input p h hk⟩)
    · have := sessionForBuild_other env input p h hk
      by_cases hr : p.killReason = KillReasonReplaced
      · rw [if_pos hr] at this
        exact Or.inr (Or.inl ⟨p, rfl, this⟩)
      · rw [if_neg hr] at this
        exact Or.inl this

theorem sessionForBuild_status (env : BuildEnvironment) (input : SessionBuildInput) :
    (sessionForBuild env input).Status = SessionStatusStarting := by
  rcases sessionForBuild_cases env input with h | ⟨p, _, h⟩ | ⟨p, _, _, h⟩ <;> rw [h] <;> rfl

theorem sessionForBuild_killReason (env : BuildEnvironment) (input : SessionBuildInput) :
    (sessionForBuild env input).killReason = KillReasonNone := by
  rcases sessionForBuild_cases env input with h | ⟨p, _, h⟩ | ⟨p, _, _, h⟩ <;> rw [h] <;> rfl

theorem sessionForBuild_variables (env : BuildEnvironment) (input : SessionBuildInput) :
    (sessionForBuild env input).Variables = [] := by
  rcases sessionForBuild_cases env input with h | ⟨p, _, h⟩ | ⟨p, _, _, h⟩ <;> rw [h] <;> rfl

theorem sessionForBuild_applicationName (env : BuildEnvironment) (input : SessionBuildInput) :
    (sessionForBuild env input).ApplicationName = (sessionForBuild env input).Application.Name := by
  rcases sessionForBuild_cases env input with h | ⟨p, _, h⟩ | ⟨p, _, _, h⟩ <;> rw [h] <;> rfl

theorem sessionForBuild_application (env : BuildEnvironment) (input : SessionBuildInput) :
    (sessionForBuild env input).Application = input.Application
    ∨ ∃ p, input.PreviousSession = some p
        ∧ (p.killReason = KillReasonBuildFailed ∨ p.killReason = KillReasonHealthcheckFailed)
        ∧ (sessionForBuild env input).Application = p.Application := by
  rcases sessionForBuild_cases env input with h | ⟨p, _, h⟩ | ⟨p, hp, hk, h⟩
  · left; rw [h]; rfl
  · left; rw [h]; rfl
  · right; exact ⟨p, hp, hk, by rw [h]; rfl⟩

/-! ### builtSession -/

theorem variables_seed (u n p t c : String) :
    Variables.set (Variables.set (Variables.set (Variables.set (Variables.set [] "uuid" u)
      "name" n) "port" p) "target" t) "commit" c
      = [("uuid", u), ("name", n), ("port", p), ("target", t), ("commit", c)] := by
  simp [Variables.set]

theorem builtSession_variables (env : BuildEnvironment) (input : SessionBuildInput)
    (checkout : String) (commit : Commit) (freePort : Int) :
    (builtSession env input checkout commit freePort).Variables
      = seededVariables (builtSession env input checkout commit freePort) := by
  have h0 := sessionForBuild_variables env input
  simp only [builtSession, seedSession, recordCommit, recordPort, Session.LogInfo,
    seededVariables, h0]
  exact variables_seed _ _ _ _ _

theorem aliveByApplicationCount_nonneg (s : SessionStorage) (a : Application) :
    0 ≤ s.AliveByApplicationCount a := by
  unfold SessionStorage.AliveByApplicationCount
  exact Int.natCast_nonneg _

theorem accept_denied_global (w : SessionBuildWorker) (env : BuildEnvironment)
    (input : SessionBuildInput)
    (hg : (w.sessionStorage.GetAllAliveSessions.length : Int) ≥ w.global.MaxConcurrentSessions) :
    acceptSessionBuild w env input =
      { result := some
          { Result := .SessionBuildResultFailed
            Session := none
            FailingReason := "Reached global maximum concurrent sessions" }
        session := none
        sessionStorage := w.sessionStorage
        building := none } := by
  unfold acceptSessionBuild
  exact if_pos hg

theorem accept_denied_application (w : SessionBuildWorker) (env : BuildEnvironment)
    (input : SessionBuildInput)
    (hg : ¬ (w.sessionStorage.GetAllAliveSessions.length : Int) ≥ w.global.MaxConcurrentSessions)
    (ha : w.sessionStorage.AliveByApplicationCount input.Application
          ≥ input.Application.MaxConcurrentSessions) :
    acceptSessionBuild w env input =
      { result := some
          { Result := .SessionBuildResultFailed
            Session := none
            FailingReason := "Reached maximum concurrent sessions for this application" }
        session := none
        sessionStorage := w.sessionStorage
        building := none } := by
  have ha' : w.sessionStorage.AliveByApplicationCount input.Application
        ≥ input.Application.GetConfiguration.MaxConcurrentSessions := ha
  unfold acceptSessionBuild
  simp only [if_neg hg, if_pos ha']

theorem admitted_checks (w : SessionBuildWorker) (input : SessionBuildInput)
    (hadm : Admitted w input) :
    ¬ ((w.sessionStorage.GetAllAliveSessions.length : Int) ≥ w.global.MaxConcurrentSessions)
    ∧ ¬ (w.sessionStorage.AliveByApplicationCount input.Application
      ≥ input.Application.GetConfiguration.MaxConcurrentSessions) := by
  obtain ⟨h1, h2⟩ := hadm
  exact ⟨not_le.mpr h1, not_le.mpr h2⟩

theorem accept_checkout_unknown (w : SessionBuildWorker) (env : BuildEnvironment)
    (input : SessionBuildInput) (hadm : Admitted w input)
    (hl : input.Application.ObjectsToHashMap.lookup input.Checkout = none) :
    acceptSessionBuild w env input =
      { result := some
          { Result := .SessionBuildResultFailed
            Session := none
            FailingReason :=
              "Could not find the hash of the selected checkout " ++ input.Checkout }
        session := some (sessionForBuild env input)
        sessionStorage := w.sessionStorage
        building := none } := by
  obtain ⟨h1, h2⟩ := admitted_checks w input hadm
  unfold acceptSessionBuild
  simp only [if_neg h1, if_neg h2, hl]

theorem accept_no_port (w : SessionBuildWorker) (env : BuildEnvironment)
    (input : SessionBuildInput) (checkout : String) (hadm : Admitted w input)
    (hl : input.Application.ObjectsToHashMap.lookup input.Checkout = some checkout)
    (hp : env.getFreePort (sessionForBuild env input).GetConfiguration.Port = none) :
    acceptSessionBuild w env input =
      { result := some
          { Result := .SessionBuildResultFailed
            Session := none
            FailingReason := "Could not get a free port" }
        session := some ((sessionForBuild env input).LogInfo
          ("Creating session " ++ (sessionForBuild env input).UUID))
        sessionStorage := w.sessionStorage
        building := none } := by
  obtain ⟨h1, h2⟩ := admitted_checks w input hadm
  unfold acceptSessionBuild
  simp only [if_neg h1, if_neg h2, hl, hp]

theorem accept_commit_missing (w : SessionBuildWorker) (env : BuildEnvironment)
    (input : SessionBuildInput) (checkout : String) (freePort : Int)
    (hadm : Admitted w input)
    (hl : input.Application.ObjectsToHashMap.lookup input.Checkout = some checkout)
    (hp : env.getFreePort (sessionForBuild env input).GetConfiguration.Port = some freePort)
    (hc : input.Application.CommitMap.lookup checkout = none) :
    acceptSessionBuild w env input =
      { result := none
        session := some
          { recordPort ((sessionForBuild env input).LogInfo
              ("Creating session " ++ (sessionForBuild env input).UUID)) freePort with
            CommitID := checkout }
        sessionStorage := w.sessionStorage
        building := none } := by
  obtain ⟨h1, h2⟩ := admitted_checks w input hadm
  unfold acceptSessionBuild
  simp only [if_neg h1, if_neg h2, hl, hp, hc]

theorem accept_dedup (w : SessionBuildWorker) (env : BuildEnvironment)
    (input : SessionBuildInput) (checkout : String) (commit : Commit) (freePort : Int)
    (existing : Session) (hadm : Admitted w input)
    (hl : input.Application.ObjectsToHashMap.lookup input.Checkout = some checkout)
    (hp : env.getFreePort (sessionForBuild env input).GetConfiguration.Port = some freePort)
    (hc : input.Application.CommitMap.lookup checkout = some commit)
    (hn : input.PreviousSession = none)
    (hd : w.sessionStorage.GetAliveApplicationSessionByCheckout checkout input.Application
      = some existing) :
    acceptSessionBuild w env input =
      { result := some
          { Result := .SessionBuildResultSucceeded
            Session := some existing
            FailingReason := "" }
        session := some ((recordCommit
          { recordPort ((sessionForBuild env input).LogInfo
              ("Creating session " ++ (sessionForBuild env input).UUID)) freePort with
            CommitID := checkout } input.Checkout commit).LogWarn
              ("Another session with the UUID " ++ existing.UUID
                ++ " has already being requested for checkout " ++ input.Checkout))
        sessionStorage := w.sessionStorage
        building := none } := by
  obtain ⟨h1, h2⟩ := admitted_checks w input hadm
  have hd' : (if input.PreviousSession.isSome = true then none
      else w.sessionStorage.GetAliveApplicationSessionByCheckout checkout input.Application)
      = some existing := by
    rw [hn, ← hd]; rfl
  unfold acceptSessionBuild
  simp only [if_neg h1, if_neg h2, hl, hp, hc, hd']

theorem accept_built (w : SessionBuildWorker) (env : BuildEnvironment)
    (input : SessionBuildInput) (checkout : String) (commit : Commit) (freePort : Int)
    (hadm : Admitted w input)
    (hl : input.Application.ObjectsToHashMap.lookup input.Checkout = some checkout)
    (hp : env.getFreePort (sessionForBuild env input).GetConfiguration.Port = some freePort)
    (hc : input.Application.CommitMap.lookup checkout = some commit)
    (hd : input.PreviousSession.isSome = true
      ∨ w.sessionStorage.GetAliveApplicationSessionByCheckout checkout input.Application = none) :
    acceptSessionBuild w env input =
      { result := some
          { Result := .SessionBuildResultSucceeded
            Session := some (builtSession env input checkout commit freePort)
            FailingReason := "" }
        session := some (builtSession env input checkout commit freePort)
        sessionStorage := w.sessionStorage.Add (builtSession env input checkout commit freePort)
        building := some (builtSession env input checkout commit freePort) } := by
  obtain ⟨h1, h2⟩ := admitted_checks w input hadm
  have hd' : (if input.PreviousSession.isSome = true then none
      else w.sessionStorage.GetAliveApplicationSessionByCheckout checkout input.Application)
      = none := by
    rcases hd with hd | hd
    · rw [if_pos hd]
    · rw [hd]; simp
  unfold acceptSessionBuild
  simp only [if_neg h1, if_neg h2, hl, hp, hc, hd', builtSession]

/-- Every call either leaves the store as it was and spawns no build, or it is the
call of an admitted request that reached line 187. -/
theorem accept_cases (w : SessionBuildWorker) (env : BuildEnvironment)
    (input : SessionBuildInput) :
    ((acceptSessionBuild w env input).sessionStorage = w.sessionStorage
      ∧ (acceptSessionBuild w env input).building = none)
    ∨ ∃ checkout commit freePort, Admitted w input
      ∧ input.Application.ObjectsToHashMap.lookup input.Checkout = some checkout
      ∧ env.getFreePort (sessionForBuild env input).GetConfiguration.Port = some freePort
      ∧ input.Application.CommitMap.lookup checkout = some commit
      ∧ (input.PreviousSession.isSome = true
        ∨ w.sessionStorage.GetAliveApplicationSessionByCheckout checkout input.Application
          = none)
      ∧ acceptSessionBuild w env input =
        { result := some
            { Result := .SessionBuildResultSucceeded
              Session := some (builtSession env input checkout commit freePort)
              FailingReason := "" }
          session := some (builtSession env input checkout commit freePort)
          sessionStorage := w.sessionStorage.Add (builtSession env input checkout commit freePort)
          building := some (builtSession env input checkout commit freePort) } := by
  by_cases hg : (w.sessionStorage.GetAllAliveSessions.length : Int)
      ≥ w.global.MaxConcurrentSessions
  · left; rw [accept_denied_global w env input hg]; exact ⟨rfl, rfl⟩
  by_cases ha : w.sessionStorage.AliveByApplicationCount input.Application
      ≥ input.Application.MaxConcurrentSessions
  · left; rw [accept_denied_application w env input hg ha]; exact ⟨rfl, rfl⟩
  have hadm : Admitted w input := ⟨not_le.mp hg, not_le.mp ha⟩
  cases hl : input.Application.ObjectsToHashMap.lookup input.Checkout with
  | none => left; rw [accept_checkout_unknown w env input hadm hl]; exact ⟨rfl, rfl⟩
  | some checkout =>
    cases hp : env.getFreePort (sessionForBuild env input).GetConfiguration.Port with
    | none => left; rw [accept_no_port w env input checkout hadm hl hp]; exact ⟨rfl, rfl⟩
    | some freePort =>
      cases hc : input.Application.CommitMap.lookup checkout with
      | none =>
        left; rw [accept_commit_missing w env input checkout freePort hadm hl hp hc]
        exact ⟨rfl, rfl⟩
      | some commit =>
        cases hn : input.PreviousSession with
        | some p =>
          right
          have hd : input.PreviousSession.isSome = true
              ∨ w.sessionStorage.GetAliveApplicationSessionByCheckout checkout
                input.Application = none := Or.inl (by rw [hn]; rfl)
          have := accept_built w env input checkout commit freePort hadm hl hp hc hd
          rw [hn] at hd
          exact ⟨checkout, commit, freePort, hadm, rfl, rfl, hc, hd, this⟩
        | none =>
          cases hd : w.sessionStorage.GetAliveApplicationSessionByCheckout checkout
              input.Application with
          | some existing =>
            left
            rw [accept_dedup w env input checkout commit freePort existing hadm hl hp hc hn hd]
            exact ⟨rfl, rfl⟩
          | none =>
            right
            exact ⟨checkout, commit, freePort, hadm, rfl, rfl, hc, Or.inr hd,
              accept_built w env input checkout commit freePort hadm hl hp hc (Or.inr hd)⟩

/-! ### the store after `Add` -/

theorem alive_add_mem (s : SessionStorage) (b x : Session)
    (hx : x ∈ (s.Add b).GetAllAliveSessions) :
    x = b ∨ (x ∈ s.GetAllAliveSessions ∧ x.UUID ≠ b.UUID) := by
  simp only [SessionStorage.GetAllAliveSessions, SessionStorage.Add, List.mem_filter,
    List.mem_append, List.mem_singleton] at hx ⊢
  obtain ⟨hx | hx, ha⟩ := hx
  · right
    exact ⟨⟨hx.1, ha⟩, by simpa using hx.2⟩
  · exact Or.inl hx

theorem filter_add_length_le (s : SessionStorage) (b : Session) (q : Session → Bool) :
    ((s.Add b).GetAllAliveSessions.filter q).length
      ≤ (s.GetAllAliveSessions.filter q).length + 1 := by
  simp only [SessionStorage.GetAllAliveSessions, SessionStorage.Add, List.filter_append,
    List.length_append]
  have h1 : (List.filter q (List.filter (fun x => x.Status.IsAlive)
      (List.filter (fun x => x.UUID != b.UUID) s.sessions))).length
      ≤ (List.filter q (List.filter (fun x => x.Status.IsAlive) s.sessions)).length :=
    ((List.filter_sublist _).filter _ |>.filter _).length_le
  have h2 : (List.filter q (List.filter (fun x => x.Status.IsAlive) [b])).length ≤ 1 :=
    le_trans (List.length_filter_le _ _) (le_trans (List.length_filter_le _ _) (by simp))
  omega

theorem filter_add_length_le_of_false (s : SessionStorage) (b : Session) (q : Session → Bool)
    (hq : q b = false) :
    ((s.Add b).GetAllAliveSessions.filter q).length
      ≤ (s.GetAllAliveSessions.filter q).length := by
  simp only [SessionStorage.GetAllAliveSessions, SessionStorage.Add, List.filter_append,
    List.length_append]
  have h1 : (List.filter q (List.filter (fun x => x.Status.IsAlive)
      (List.filter (fun x => x.UUID != b.UUID) s.sessions))).length
      ≤ (List.filter q (List.filter (fun x => x.Status.IsAlive) s.sessions)).length :=
    ((List.filter_sublist _).filter _ |>.filter _).length_le
  have h2 : (List.filter q (List.filter (fun x => x.Status.IsAlive) [b])).length = 0 := by
    by_cases ha : b.Status.IsAlive = true <;> simp [List.filter, ha, hq]
  omega

theorem alive_add_length_le (s : SessionStorage) (b : Session) :
    (s.Add b).GetAllAliveSessions.length ≤ s.GetAllAliveSessions.length + 1 := by
  have := filter_add_length_le s b (fun _ => true)
  simpa using this

theorem aliveByApplicationCount_add_le (s : SessionStorage) (b : Session) (a : Application) :
    (s.Add b).AliveByApplicationCount a ≤ s.AliveByApplicationCount a + 1 := by
  unfold SessionStorage.AliveByApplicationCount
  have := filter_add_length_le s b (fun x => decide (x.ApplicationName = a.Name))
  omega

theorem aliveByApplicationCount_add_le_of_ne (s : SessionStorage) (b : Session)
    (a : Application) (h : b.ApplicationName ≠ a.Name) :
    (s.Add b).AliveByApplicationCount a ≤ s.AliveByApplicationCount a := by
  unfold SessionStorage.AliveByApplicationCount
  have := filter_add_length_le_of_false s b (fun x => decide (x.ApplicationName = a.Name))
    (by simpa using h)
  omega

theorem aliveByApplicationCount_congr (s : SessionStorage) (a a' : Application)
    (h : a.Name = a'.Name) :
    s.AliveByApplicationCount a = s.AliveByApplicationCount a' := by
  unfold SessionStorage.AliveByApplicationCount
  rw [h]

/-! ### the fields of `builtSession` -/

theorem builtSession_status (env : BuildEnvironment) (input : SessionBuildInput)
    (checkout : String) (commit : Commit) (freePort : Int) :
    (builtSession env input checkout commit freePort).Status = SessionStatusStarting := by
  simp only [builtSession, seedSession, recordCommit, recordPort, Session.LogInfo]
  exact sessionForBuild_status env input

theorem builtSession_alive (env : BuildEnvironment) (input : SessionBuildInput)
    (checkout : String) (commit : Commit) (freePort : Int) :
    (builtSession env input checkout commit freePort).Status.IsAlive = true := by
  rw [builtSession_status]
  decide

theorem builtSession_killReason (env : BuildEnvironment) (input : SessionBuildInput)
    (checkout : String) (commit : Commit) (freePort : Int) :
    (builtSession env input checkout commit freePort).killReason = KillReasonNone := by
  simp only [builtSession, seedSession, recordCommit, recordPort, Session.LogInfo]
  exact sessionForBuild_killReason env input

theorem builtSession_uuid (env : BuildEnvironment) (input : SessionBuildInput)
    (checkout : String) (commit : Commit) (freePort : Int) :
    (builtSession env input checkout commit freePort).UUID
      = (sessionForBuild env input).UUID := by
  simp only [builtSession, seedSession, recordCommit, recordPort, Session.LogInfo]

theorem builtSession_name (env : BuildEnvironment) (input : SessionBuildInput)
    (checkout : String) (commit : Commit) (freePort : Int) :
    (builtSession env input checkout commit freePort).Name
      = (sessionForBuild env input).Name := by
  simp only [builtSession, seedSession, recordCommit, recordPort, Session.LogInfo]

theorem builtSession_checkout (env : BuildEnvironment) (input : SessionBuildInput)
    (checkout : String) (commit : Commit) (freePort : Int) :
    (builtSession env input checkout commit freePort).Checkout
      = (sessionForBuild env input).Checkout := by
  simp only [builtSession, seedSession, recordCommit, recordPort, Session.LogInfo]

theorem builtSession_application (env : BuildEnvironment) (input : SessionBuildInput)
    (checkout : String) (commit : Commit) (freePort : Int) :
    (builtSession env input checkout commit freePort).Application
      = (sessionForBuild env input).Application := by
  simp only [builtSession, seedSession, recordCommit, recordPort, Session.LogInfo]

theorem builtSession_applicationName (env : BuildEnvironment) (input : SessionBuildInput)
    (checkout : String) (commit : Commit) (freePort : Int) :
    (builtSession env input checkout commit freePort).ApplicationName
      = (builtSession env input checkout commit freePort).Application.Name := by
  simp only [builtSession, seedSession, recordCommit, recordPort, Session.LogInfo]
  exact sessionForBuild_applicationName env input

theorem builtSession_commitID (env : BuildEnvironment) (input : SessionBuildInput)
    (checkout : String) (commit : Commit) (freePort : Int) :
    (builtSession env input checkout commit freePort).CommitID = checkout := by
  simp only [builtSession, seedSession, recordCommit, recordPort, Session.LogInfo]

theorem builtSession_port (env : BuildEnvironment) (input : SessionBuildInput)
    (checkout : String) (commit : Commit) (freePort : Int) :
    (builtSession env input checkout commit freePort).Port = freePort := by
  simp only [builtSession, seedSession, recordCommit, recordPort, Session.LogInfo]

theorem builtSession_target (env : BuildEnvironment) (input : SessionBuildInput)
    (checkout : String) (commit : Commit) (freePort : Int) :
    (builtSession env input checkout commit freePort).Target
      = ReplaceAll (builtSession env input checkout commit freePort).Application.Target
          portPlaceholder (Sprint freePort) := by
  simp only [builtSession, seedSession, recordCommit, recordPort, Session.LogInfo,
    Session.GetConfiguration, Application.GetConfiguration]

theorem builtSession_startupRetries (env : BuildEnvironment) (input : SessionBuildInput)
    (checkout : String) (commit : Commit) (freePort : Int) :
    (builtSession env input checkout commit freePort).startupRetries
      = (sessionForBuild env input).startupRetries := by
  simp only [builtSession, seedSession, recordCommit, recordPort, Session.LogInfo]

/-! ## C1: admission -/

/-- C1: when the alive sessions of the store are at least the global
`MaxConcurrentSessions`, or the alive sessions of the requested application are at least
its `MaxConcurrentSessions`, or that cap is 0, `acceptSessionBuild` returns a Failed
result with a non-empty failing reason and no session, makes no session, leaves the
store as it was and spawns no build. -/
theorem acceptSessionBuild_denies_at_cap (w : SessionBuildWorker) (env : BuildEnvironment)
    (input : SessionBuildInput)
    (h : (w.sessionStorage.GetAllAliveSessions.length : Int) ≥ w.global.MaxConcurrentSessions
      ∨ w.sessionStorage.AliveByApplicationCount input.Application
          ≥ input.Application.MaxConcurrentSessions
      ∨ input.Application.MaxConcurrentSessions = 0) :
    ∃ r, (acceptSessionBuild w env input).result = some r
      ∧ r.Result = SessionBuildResultType.SessionBuildResultFailed
      ∧ r.FailingReason ≠ ""
      ∧ r.Session = none
      ∧ (acceptSessionBuild w env input).session = none
      ∧ (acceptSessionBuild w env input).sessionStorage = w.sessionStorage
      ∧ (acceptSessionBuild w env input).building = none := by
  have h' : (w.sessionStorage.GetAllAliveSessions.length : Int) ≥ w.global.MaxConcurrentSessions
      ∨ w.sessionStorage.AliveByApplicationCount input.Application
          ≥ input.Application.MaxConcurrentSessions := by
    rcases h with h | h | h
    · exact Or.inl h
    · exact Or.inr h
    · right
      rw [h]
      exact aliveByApplicationCount_nonneg _ _
  by_cases hg : (w.sessionStorage.GetAllAliveSessions.length : Int)
      ≥ w.global.MaxConcurrentSessions
  · rw [accept_denied_global w env input hg]
    exact ⟨_, rfl, rfl, by decide, rfl, rfl, rfl, rfl⟩
  · rw [accept_denied_application w env input hg (h'.resolve_left hg)]
    exact ⟨_, rfl, rfl, by decide, rfl, rfl, rfl, rfl⟩

/-- Witness of C1: `fullWorker` has reached its global cap of one session. -/
theorem acceptSessionBuild_denies_at_cap_witness :
    ∃ r, (acceptSessionBuild fullWorker exampleEnvironment mainRequest).result = some r
      ∧ r.Result = SessionBuildResultType.SessionBuildResultFailed
      ∧ r.FailingReason ≠ ""
      ∧ r.Session = none
      ∧ (acceptSessionBuild fullWorker exampleEnvironment mainRequest).session = none
      ∧ (acceptSessionBuild fullWorker exampleEnvironment mainRequest).sessionStorage
          = fullWorker.sessionStorage
      ∧ (acceptSessionBuild fullWorker exampleEnvironment mainRequest).building = none :=
  acceptSessionBuild_denies_at_cap fullWorker exampleEnvironment mainRequest
    (Or.inl (by decide))

/-! ## C2: the concurrency caps are an invariant -/

/-- C2 (amended): if the store respects the global cap and the cap of the application
of every alive session, it still does after `acceptSessionBuild`, for every request
(fresh, recycled or replacement) whose previous session, when it is recycled (its kill
reason is build_failed or healthcheck_failed), belongs to the requested application.
Applications are identified by name (sessions in the store under the name of the
requested application carry its cap). -/
theorem acceptSessionBuild_preserves_caps (w : SessionBuildWorker) (env : BuildEnvironment)
    (input : SessionBuildInput)
    (hcaps : ConcurrencyCaps w.global w.sessionStorage)
    (hname : ∀ x ∈ w.sessionStorage.sessions,
      x.Application.Name = input.Application.Name →
        x.Application.MaxConcurrentSessions = input.Application.MaxConcurrentSessions)
    (hprev : ∀ p, input.PreviousSession = some p →
      (p.killReason = KillReasonBuildFailed ∨ p.killReason = KillReasonHealthcheckFailed) →
        p.Application = input.Application) :
    ConcurrencyCaps w.global (acceptSessionBuild w env input).sessionStorage := by
  rcases accept_cases w env input with ⟨hs, _⟩ | ⟨checkout, commit, freePort, hadm, _, _, _, _, heq⟩
  · rw [hs]; exact hcaps
  · rw [heq]
    show ConcurrencyCaps w.global
      (w.sessionStorage.Add (builtSession env input checkout commit freePort))
    have happ : (builtSession env input checkout commit freePort).Application
        = input.Application := by
      rw [builtSession_application]
      rcases sessionForBuild_application env input with h | ⟨p, hp, hk, h⟩
      · exact h
      · rw [h]; exact hprev p hp hk
    have hbname : (builtSession env input checkout commit freePort).ApplicationName
        = input.Application.Name := by
      rw [builtSession_applicationName, happ]
    obtain ⟨hglobal, happs⟩ := hcaps
    obtain ⟨hg, ha⟩ := hadm
    refine ⟨?_, ?_⟩
    · have := alive_add_length_le w.sessionStorage
        (builtSession env input checkout commit freePort)
      omega
    · intro x hx
      have hcount := aliveByApplicationCount_add_le w.sessionStorage
        (builtSession env input checkout commit freePort) x.Application
      by_cases hxn : x.Application.Name = input.Application.Name
      · have hc := aliveByApplicationCount_congr w.sessionStorage x.Application
          input.Application hxn
        have hmax : x.Application.MaxConcurrentSessions
            = input.Application.MaxConcurrentSessions := by
          rcases alive_add_mem _ _ _ hx with hx | ⟨hx, _⟩
          · rw [hx, happ]
          · exact hname x (List.mem_of_mem_filter hx) hxn
        omega
      · rcases alive_add_mem _ _ _ hx with hx | ⟨hx, _⟩
        · exact absurd (by rw [hx, happ]) hxn
        · have := aliveByApplicationCount_add_le_of_ne w.sessionStorage
            (builtSession env input checkout commit freePort) x.Application
            (by rw [hbname]; exact fun h => hxn h.symm)
          have := happs x hx
          omega


/-- Counterexample to C2 as stated: `crossRecycleRequest` asks for a session of
`exampleApplication` and carries a failed session of `otherApplication` as previous
session.  The store holds one alive session of `otherApplication`, the cap of that
application; the request is admitted, since admission counts the sessions of
`exampleApplication`, the previous session is recycled under its own application, and
the store then holds two alive sessions of `otherApplication`. -/
theorem acceptSessionBuild_caps_counterexample :
    ConcurrencyCaps otherWorker.global otherWorker.sessionStorage
      ∧ (∀ x ∈ otherWorker.sessionStorage.sessions,
          x.Application.Name = crossRecycleRequest.Application.Name →
            x.Application.MaxConcurrentSessions
              = crossRecycleRequest.Application.MaxConcurrentSessions)
      ∧ Admitted otherWorker crossRecycleRequest
      ∧ otherApplication.MaxConcurrentSessions = 1
      ∧ (acceptSessionBuild otherWorker exampleEnvironment
          crossRecycleRequest).sessionStorage.AliveByApplicationCount otherApplication = 2
      ∧ ¬ ConcurrencyCaps otherWorker.global
          (acceptSessionBuild otherWorker exampleEnvironment
            crossRecycleRequest).sessionStorage := by
  decide

/-- Witness of C2: a second session of `exampleApplication` is built next to
`exampleSession`, once for a fresh request and once by recycling `failedSession`; the
store then holds two alive sessions, the cap of the application. -/
theorem acceptSessionBuild_preserves_caps_witness :
    (ConcurrencyCaps busyWorker.global
        (acceptSessionBuild busyWorker exampleEnvironment featureRequest).sessionStorage
      ∧ (acceptSessionBuild busyWorker exampleEnvironment
          featureRequest).sessionStorage.GetAllAliveSessions.length = 2)
    ∧ (ConcurrencyCaps busyWorker.global
        (acceptSessionBuild busyWorker exampleEnvironment recycleRequest).sessionStorage
      ∧ (acceptSessionBuild busyWorker exampleEnvironment
          recycleRequest).sessionStorage.GetAllAliveSessions.length = 2) :=
  ⟨⟨acceptSessionBuild_preserves_caps busyWorker exampleEnvironment featureRequest
      (by decide) (by decide) (fun p h _ => by cases h), by decide⟩,
    ⟨acceptSessionBuild_preserves_caps busyWorker exampleEnvironment recycleRequest
      (by decide) (by decide) (fun p h _ => by cases h; rfl), by decide⟩⟩

/-! ### the deduplication index -/

theorem getAlive_some (s : SessionStorage) (c : String) (a : Application) (e : Session)
    (h : s.GetAliveApplicationSessionByCheckout c a = some e) :
    HoldsAlive s a c e := by
  unfold SessionStorage.GetAliveApplicationSessionByCheckout at h
  have hp := List.find?_some h
  have hm := List.mem_of_find?_eq_some h
  simp only [SessionStorage.GetAllAliveSessions, List.mem_filter] at hm
  simp only [Bool.and_eq_true, decide_eq_true_eq] at hp
  exact ⟨hm.1, hm.2, hp.1, hp.2⟩

theorem getAlive_none (s : SessionStorage) (c : String) (a : Application)
    (h : s.GetAliveApplicationSessionByCheckout c a = none) (x : Session) :
    ¬ HoldsAlive s a c x := by
  unfold SessionStorage.GetAliveApplicationSessionByCheckout at h
  rw [List.find?_eq_none] at h
  rintro ⟨hm, ha, hn, hc⟩
  have := h x (by simp [SessionStorage.GetAllAliveSessions, hm, ha])
  simp [hn, hc] at this

theorem getAlive_of_holds (s : SessionStorage) (c : String) (a : Application) (x : Session)
    (h : HoldsAlive s a c x) :
    ∃ e, s.GetAliveApplicationSessionByCheckout c a = some e := by
  cases hf : s.GetAliveApplicationSessionByCheckout c a with
  | some e => exact ⟨e, rfl⟩
  | none => exact absurd h (getAlive_none s c a hf x)

theorem getAlive_add (s : SessionStorage) (c : String) (a : Application) (b : Session)
    (h : s.GetAliveApplicationSessionByCheckout c a = none)
    (hb : b.Status.IsAlive = true) (hn : b.ApplicationName = a.Name) (hc : b.CommitID = c) :
    (s.Add b).GetAliveApplicationSessionByCheckout c a = some b := by
  have hnone : ∀ x ∈ List.filter (fun x => x.Status.IsAlive)
      (List.filter (fun x => x.UUID != b.UUID) s.sessions),
      ¬ (decide (x.ApplicationName = a.Name) && decide (x.CommitID = c)) = true := by
    intro x hx hp
    simp only [List.mem_filter] at hx
    simp only [Bool.and_eq_true, decide_eq_true_eq] at hp
    exact getAlive_none s c a h x ⟨hx.1.1, hx.2, hp.1, hp.2⟩
  unfold SessionStorage.GetAliveApplicationSessionByCheckout
  simp only [SessionStorage.GetAllAliveSessions, SessionStorage.Add, List.filter_append,
    List.find?_append]
  rw [List.find?_eq_none.mpr hnone]
  simp [List.filter, hb, hn, hc]

theorem sessionForBuild_port_none (env : BuildEnvironment) (input : SessionBuildInput)
    (hn : input.PreviousSession = none) :
    (sessionForBuild env input).GetConfiguration.Port = input.Application.Port := by
  rw [sessionForBuild_none env input hn]
  rfl

theorem worker_with_store (w : SessionBuildWorker) :
    ({ w with sessionStorage := w.sessionStorage } : SessionBuildWorker) = w := by
  cases w
  rfl

/-! ## C3: deduplication -/

/-- C3, amended: for a request without previous session that passes admission, whose
checkout resolves to `checkout`, for which a free port is found and whose commit is in
`CommitMap`: if the store holds an alive session of the application on `checkout`,
`acceptSessionBuild` returns Succeeded with such a session, leaves the store as it was
and spawns no build; and of two successive such requests the second returns the session
of the first and adds nothing to the store, the first having added at most that one
session. -/
theorem acceptSessionBuild_dedup_without_previous (w : SessionBuildWorker) (env env2 : BuildEnvironment)
    (input : SessionBuildInput) (checkout : String) (commit : Commit) (freePort freePort2 : Int)
    (hn : input.PreviousSession = none)
    (hadm : Admitted w input)
    (hl : input.Application.ObjectsToHashMap.lookup input.Checkout = some checkout)
    (hp : env.getFreePort input.Application.Port = some freePort)
    (hc : input.Application.CommitMap.lookup checkout = some commit) :
    ((∃ x, HoldsAlive w.sessionStorage input.Application checkout x) →
      ∃ e, HoldsAlive w.sessionStorage input.Application checkout e
        ∧ (acceptSessionBuild w env input).result = some
            { Result := SessionBuildResultType.SessionBuildResultSucceeded
              Session := some e
              FailingReason := "" }
        ∧ (acceptSessionBuild w env input).sessionStorage = w.sessionStorage
        ∧ (acceptSessionBuild w env input).building = none)
    ∧ (Admitted { w with sessionStorage := (acceptSessionBuild w env input).sessionStorage } input →
        env2.getFreePort input.Application.Port = some freePort2 →
        ∃ s, (acceptSessionBuild w env input).result = some
            { Result := SessionBuildResultType.SessionBuildResultSucceeded
              Session := some s
              FailingReason := "" }
          ∧ (acceptSessionBuild
              { w with sessionStorage := (acceptSessionBuild w env input).sessionStorage }
              env2 input).result = some
            { Result := SessionBuildResultType.SessionBuildResultSucceeded
              Session := some s
              FailingReason := "" }
          ∧ (acceptSessionBuild
              { w with sessionStorage := (acceptSessionBuild w env input).sessionStorage }
              env2 input).sessionStorage = (acceptSessionBuild w env input).sessionStorage
          ∧ ((acceptSessionBuild w env input).sessionStorage = w.sessionStorage
            ∨ (acceptSessionBuild w env input).sessionStorage = w.sessionStorage.Add s)) := by
  have hp1 : env.getFreePort (sessionForBuild env input).GetConfiguration.Port
      = some freePort := by rw [sessionForBuild_port_none env input hn]; exact hp
  refine ⟨?_, ?_⟩
  · rintro ⟨x, hx⟩
    obtain ⟨e, he⟩ := getAlive_of_holds _ _ _ _ hx
    rw [accept_dedup w env input checkout commit freePort e hadm hl hp1 hc hn he]
    exact ⟨e, getAlive_some _ _ _ _ he, rfl, rfl, rfl⟩
  · intro hadm2 hp2
    have hp2' : env2.getFreePort (sessionForBuild env2 input).GetConfiguration.Port
        = some freePort2 := by rw [sessionForBuild_port_none env2 input hn]; exact hp2
    cases hf : w.sessionStorage.GetAliveApplicationSessionByCheckout checkout
        input.Application with
    | some e =>
      have h1 := accept_dedup w env input checkout commit freePort e hadm hl hp1 hc hn hf
      rw [h1] at hadm2 ⊢
      simp only [worker_with_store] at hadm2 ⊢
      rw [accept_dedup w env2 input checkout commit freePort2 e hadm hl hp2' hc hn hf]
      exact ⟨e, rfl, rfl, rfl, Or.inl trivial⟩
    | none =>
      have h1 := accept_built w env input checkout commit freePort hadm hl hp1 hc (Or.inr hf)
      rw [h1] at hadm2 ⊢
      have hb : (builtSession env input checkout commit freePort).ApplicationName
          = input.Application.Name := by
        rw [builtSession_applicationName, builtSession_application,
          sessionForBuild_none env input hn]
        rfl
      have hfind := getAlive_add w.sessionStorage checkout input.Application
        (builtSession env input checkout commit freePort) hf
        (builtSession_alive env input checkout commit freePort) hb
        (builtSession_commitID env input checkout commit freePort)
      refine ⟨builtSession env input checkout commit freePort, rfl, ?_, ?_, Or.inr rfl⟩
      · rw [accept_dedup _ env2 input checkout commit freePort2
          (builtSession env input checkout commit freePort) hadm2 hl hp2' hc hn hfind]
      · rw [accept_dedup _ env2 input checkout commit freePort2
          (builtSession env input checkout commit freePort) hadm2 hl hp2' hc hn hfind]


/-- Counterexample to C3 as stated: with a previous session killed with reason stopped
the request is not recycled, yet the deduplication is skipped and a second session on
`abc123` is added; a request is also not deduplicated when a cap is reached, when no
port is free (both return Failed) or when `CommitMap` lacks the commit (the call
panics). -/
theorem acceptSessionBuild_dedup_counterexample :
    (stoppedSession.killReason ≠ KillReasonBuildFailed
      ∧ stoppedSession.killReason ≠ KillReasonHealthcheckFailed
      ∧ rebuildRequest.Application.ObjectsToHashMap.lookup rebuildRequest.Checkout
          = some "abc123"
      ∧ HoldsAlive busyWorker.sessionStorage rebuildRequest.Application "abc123" exampleSession
      ∧ (acceptSessionBuild busyWorker exampleEnvironment rebuildRequest).result.map
          (fun r => (r.Result, r.Session.map (fun s => s.UUID)))
          = some (SessionBuildResultType.SessionBuildResultSucceeded, some "7f3a-0002")
      ∧ (acceptSessionBuild busyWorker exampleEnvironment
          rebuildRequest).sessionStorage.sessions.map (fun s => (s.UUID, s.CommitID))
          = [("7f3a-0001", "abc123"), ("7f3a-0002", "abc123")])
    ∧ (HoldsAlive fullWorker.sessionStorage mainRequest.Application "abc123" exampleSession
      ∧ (acceptSessionBuild fullWorker exampleEnvironment mainRequest).result.map
          (fun r => r.Result) = some SessionBuildResultType.SessionBuildResultFailed)
    ∧ (HoldsAlive busyWorker.sessionStorage mainRequest.Application "abc123" exampleSession
      ∧ (acceptSessionBuild busyWorker noPortEnvironment mainRequest).result.map
          (fun r => r.Result) = some SessionBuildResultType.SessionBuildResultFailed)
    ∧ (oldRequest.Application.ObjectsToHashMap.lookup oldRequest.Checkout = some "000aaa"
      ∧ HoldsAlive oldWorker.sessionStorage oldRequest.Application "000aaa" oldSession
      ∧ (acceptSessionBuild oldWorker exampleEnvironment oldRequest).result = none) := by
  decide

/-- Witness of C3, amended: a request for `main` is deduplicated against
`exampleSession`, and two successive requests for `main` on an empty store return the
same session. -/
theorem acceptSessionBuild_dedup_without_previous_witness :
    (∃ e, HoldsAlive busyWorker.sessionStorage mainRequest.Application "abc123" e
        ∧ (acceptSessionBuild busyWorker exampleEnvironment mainRequest).result = some
            { Result := SessionBuildResultType.SessionBuildResultSucceeded
              Session := some e
              FailingReason := "" }
        ∧ (acceptSessionBuild busyWorker exampleEnvironment mainRequest).sessionStorage
            = busyWorker.sessionStorage
        ∧ (acceptSessionBuild busyWorker exampleEnvironment mainRequest).building = none)
    ∧ (∃ s, (acceptSessionBuild emptyWorker exampleEnvironment mainRequest).result = some
            { Result := SessionBuildResultType.SessionBuildResultSucceeded
              Session := some s
              FailingReason := "" }
          ∧ (acceptSessionBuild
              { emptyWorker with
                sessionStorage :=
                  (acceptSessionBuild emptyWorker exampleEnvironment mainRequest).sessionStorage }
              secondEnvironment mainRequest).result = some
            { Result := SessionBuildResultType.SessionBuildResultSucceeded
              Session := some s
              FailingReason := "" }
          ∧ (acceptSessionBuild
              { emptyWorker with
                sessionStorage :=
                  (acceptSessionBuild emptyWorker exampleEnvironment mainRequest).sessionStorage }
              secondEnvironment mainRequest).sessionStorage
              = (acceptSessionBuild emptyWorker exampleEnvironment mainRequest).sessionStorage
          ∧ ((acceptSessionBuild emptyWorker exampleEnvironment mainRequest).sessionStorage
              = emptyWorker.sessionStorage
            ∨ (acceptSessionBuild emptyWorker exampleEnvironment mainRequest).sessionStorage
              = emptyWorker.sessionStorage.Add s)) :=
  ⟨(acceptSessionBuild_dedup_without_previous busyWorker exampleEnvironment secondEnvironment
      mainRequest "abc123" exampleCommit 8080 8081 rfl (by decide) rfl rfl rfl).1
      ⟨exampleSession, by decide⟩,
    (acceptSessionBuild_dedup_without_previous emptyWorker exampleEnvironment secondEnvironment
      mainRequest "abc123" exampleCommit 8080 8081 rfl (by decide) rfl rfl rfl).2
      (by decide) rfl⟩

/-! ## C4: uniqueness of alive sessions -/

/-- C4, amended: for every build request that carries no previous session,
`acceptSessionBuild` preserves the uniqueness invariant: if no two alive sessions of
distinct UUIDs share application and CommitID unless one of them was killed with reason
Replaced, the same holds of the store after the call. -/
theorem acceptSessionBuild_preserves_uniqueness_without_previous (w : SessionBuildWorker) (env : BuildEnvironment) (input : SessionBuildInput)
    (hn : input.PreviousSession = none)
    (hu : UniqueAlive w.sessionStorage) :
    UniqueAlive (acceptSessionBuild w env input).sessionStorage := by
  rcases accept_cases w env input with ⟨hs, _⟩ | ⟨checkout, commit, freePort, _, _, _, _, hd, heq⟩
  · rw [hs]; exact hu
  · rw [heq]
    show UniqueAlive (w.sessionStorage.Add (builtSession env input checkout commit freePort))
    have hf : w.sessionStorage.GetAliveApplicationSessionByCheckout checkout
        input.Application = none := by
      rcases hd with hd | hd
      · rw [hn] at hd; exact absurd hd (by decide)
      · exact hd
    have hb : (builtSession env input checkout commit freePort).ApplicationName
        = input.Application.Name := by
      rw [builtSession_applicationName, builtSession_application,
        sessionForBuild_none env input hn]
      rfl
    have hclash : ∀ x ∈ w.sessionStorage.GetAllAliveSessions,
        x.ApplicationName = (builtSession env input checkout commit freePort).ApplicationName →
        x.CommitID = (builtSession env input checkout commit freePort).CommitID → False := by
      intro x hx hxn hxc
      simp only [SessionStorage.GetAllAliveSessions, List.mem_filter] at hx
      exact getAlive_none _ _ _ hf x
        ⟨hx.1, hx.2, by rw [hxn, hb], by rw [hxc, builtSession_commitID]⟩
    intro x hx y hy hne hname hcommit
    rcases alive_add_mem _ _ _ hx with hx | ⟨hx, _⟩
    · rcases alive_add_mem _ _ _ hy with hy | ⟨hy, _⟩
      · exact absurd (by rw [hx, hy]) hne
      · exact (hclash y hy (by rw [← hname, hx]) (by rw [← hcommit, hx])).elim
    · rcases alive_add_mem _ _ _ hy with hy | ⟨hy, _⟩
      · exact (hclash x hx (by rw [hname, hy]) (by rw [hcommit, hy])).elim
      · exact hu x hx y hy hne hname hcommit

/-- Counterexample to C4 as stated: the store holding only `exampleSession` satisfies
the uniqueness invariant; a request for the same commit that carries a previous session
skips the deduplication (line 161) and adds a second alive session on that commit,
whether the previous session was stopped, recycled after a failed build, or replaced. -/
theorem acceptSessionBuild_uniqueness_counterexample :
    (UniqueAlive busyWorker.sessionStorage
      ∧ ¬ UniqueAlive (acceptSessionBuild busyWorker exampleEnvironment
          rebuildRequest).sessionStorage)
    ∧ ¬ UniqueAlive (acceptSessionBuild busyWorker exampleEnvironment
          recycleRequest).sessionStorage
    ∧ ¬ UniqueAlive (acceptSessionBuild busyWorker exampleEnvironment
          replaceRequest).sessionStorage := by
  decide

/-- Witness of C4, amended: a second session, on another commit, is added next to
`exampleSession`. -/
theorem acceptSessionBuild_preserves_uniqueness_without_previous_witness :
    UniqueAlive (acceptSessionBuild busyWorker exampleEnvironment featureRequest).sessionStorage
    ∧ (acceptSessionBuild busyWorker exampleEnvironment
          featureRequest).sessionStorage.sessions.length = 2 :=
  ⟨acceptSessionBuild_preserves_uniqueness_without_previous busyWorker exampleEnvironment featureRequest rfl (by decide), by decide⟩

/-! ## C5: unknown checkout -/

/-- C5, amended: for every build request whose Checkout is not a key of the
application's `ObjectsToHashMap`, `acceptSessionBuild` returns a Failed result without
session, leaves the store as it was and spawns no build; when the request passes
admission the failing reason names the checkout and the session the call worked on has
kill reason none (no kill reason is recorded). -/
theorem acceptSessionBuild_unknown_checkout (w : SessionBuildWorker) (env : BuildEnvironment) (input : SessionBuildInput)
    (hl : input.Application.ObjectsToHashMap.lookup input.Checkout = none) :
    ∃ r, (acceptSessionBuild w env input).result = some r
      ∧ r.Result = SessionBuildResultType.SessionBuildResultFailed
      ∧ r.Session = none
      ∧ (acceptSessionBuild w env input).sessionStorage = w.sessionStorage
      ∧ (acceptSessionBuild w env input).building = none
      ∧ (Admitted w input →
          r.FailingReason
            = "Could not find the hash of the selected checkout " ++ input.Checkout
          ∧ ∃ s, (acceptSessionBuild w env input).session = some s
            ∧ s.killReason = KillReasonNone) := by
  by_cases hg : (w.sessionStorage.GetAllAliveSessions.length : Int)
      ≥ w.global.MaxConcurrentSessions
  · rw [accept_denied_global w env input hg]
    exact ⟨_, rfl, rfl, rfl, rfl, rfl, fun h => absurd hg (not_le.mpr h.1)⟩
  by_cases ha : w.sessionStorage.AliveByApplicationCount input.Application
      ≥ input.Application.MaxConcurrentSessions
  · rw [accept_denied_application w env input hg ha]
    exact ⟨_, rfl, rfl, rfl, rfl, rfl, fun h => absurd ha (not_le.mpr h.2)⟩
  have hadm : Admitted w input := ⟨not_le.mp hg, not_le.mp ha⟩
  rw [accept_checkout_unknown w env input hadm hl]
  exact ⟨_, rfl, rfl, rfl, rfl, rfl, fun _ =>
    ⟨rfl, _, rfl, sessionForBuild_killReason env input⟩⟩

/-- Counterexample to C5 as stated: for an admitted request on the unknown ref `nope`
the session the call worked on ends with kill reason none, not build_failed; and when
the global cap is reached the failing reason does not name the checkout. -/
theorem acceptSessionBuild_unknown_checkout_counterexample :
    (Admitted emptyWorker unknownRequest
      ∧ unknownRequest.Application.ObjectsToHashMap.lookup unknownRequest.Checkout = none
      ∧ (acceptSessionBuild emptyWorker exampleEnvironment unknownRequest).result.map
          (fun r => r.Result) = some SessionBuildResultType.SessionBuildResultFailed
      ∧ (acceptSessionBuild emptyWorker exampleEnvironment unknownRequest).session.map
          (fun s => s.killReason) = some KillReasonNone
      ∧ KillReasonNone ≠ KillReasonBuildFailed)
    ∧ ((acceptSessionBuild fullWorker exampleEnvironment unknownRequest).result.map
          (fun r => Contains r.FailingReason unknownRequest.Checkout) = some false) := by
  decide

/-- Witness of C5, amended: the admitted request for `nope` on an empty store. -/
theorem acceptSessionBuild_unknown_checkout_witness :
    ∃ r, (acceptSessionBuild emptyWorker exampleEnvironment unknownRequest).result = some r
      ∧ r.Result = SessionBuildResultType.SessionBuildResultFailed
      ∧ r.Session = none
      ∧ (acceptSessionBuild emptyWorker exampleEnvironment unknownRequest).sessionStorage
          = emptyWorker.sessionStorage
      ∧ (acceptSessionBuild emptyWorker exampleEnvironment unknownRequest).building = none
      ∧ r.FailingReason = "Could not find the hash of the selected checkout nope"
      ∧ ∃ s, (acceptSessionBuild emptyWorker exampleEnvironment unknownRequest).session
          = some s
        ∧ s.killReason = KillReasonNone :=
  match acceptSessionBuild_unknown_checkout emptyWorker exampleEnvironment unknownRequest rfl with
  | ⟨r, h1, h2, h3, h4, h5, h6⟩ => ⟨r, h1, h2, h3, h4, h5, h6 (by decide)⟩

/-- The session an admitted call worked on: it is the session of `sessionForBuild` up to
log entries, port, commit, target and variables, and its variables are empty unless the
call reached line 187, in which case it is `builtSession`, returned and stored. -/
theorem accept_session (w : SessionBuildWorker) (env : BuildEnvironment)
    (input : SessionBuildInput) (hadm : Admitted w input) :
    ∃ s, (acceptSessionBuild w env input).session = some s
      ∧ s.UUID = (sessionForBuild env input).UUID
      ∧ s.startupRetries = (sessionForBuild env input).startupRetries
      ∧ s.Application = (sessionForBuild env input).Application
      ∧ s.Name = (sessionForBuild env input).Name
      ∧ s.Checkout = (sessionForBuild env input).Checkout
      ∧ ((s.Variables = [] ∧ (acceptSessionBuild w env input).building = none
          ∧ (acceptSessionBuild w env input).sessionStorage = w.sessionStorage
          ∧ ∀ r, (acceptSessionBuild w env input).result = some r →
              r.Result = SessionBuildResultType.SessionBuildResultSucceeded →
                input.PreviousSession = none)
        ∨ (s.Variables = seededVariables s
          ∧ (acceptSessionBuild w env input).building = some s
          ∧ (acceptSessionBuild w env input).sessionStorage = w.sessionStorage.Add s
          ∧ (acceptSessionBuild w env input).result = some
              { Result := SessionBuildResultType.SessionBuildResultSucceeded
                Session := some s
                FailingReason := "" })) := by
  have hv := sessionForBuild_variables env input
  cases hl : input.Application.ObjectsToHashMap.lookup input.Checkout with
  | none =>
    rw [accept_checkout_unknown w env input hadm hl]
    exact ⟨_, rfl, rfl, rfl, rfl, rfl, rfl, Or.inl ⟨hv, rfl, rfl, by
      intro r hr hs
      cases hr
      cases hs⟩⟩
  | some checkout =>
    cases hp : env.getFreePort (sessionForBuild env input).GetConfiguration.Port with
    | none =>
      rw [accept_no_port w env input checkout hadm hl hp]
      exact ⟨_, rfl, rfl, rfl, rfl, rfl, rfl, Or.inl ⟨hv, rfl, rfl, by
        intro r hr hs
        cases hr
        cases hs⟩⟩
    | some freePort =>
      cases hc : input.Application.CommitMap.lookup checkout with
      | none =>
        rw [accept_commit_missing w env input checkout freePort hadm hl hp hc]
        exact ⟨_, rfl, rfl, rfl, rfl, rfl, rfl, Or.inl ⟨hv, rfl, rfl, by
          intro r hr
          cases hr⟩⟩
      | some commit =>
        by_cases hd : input.PreviousSession.isSome = true
            ∨ w.sessionStorage.GetAliveApplicationSessionByCheckout checkout
                input.Application = none
        · rw [accept_built w env input checkout commit freePort hadm hl hp hc hd]
          exact ⟨_, rfl, builtSession_uuid _ _ _ _ _, builtSession_startupRetries _ _ _ _ _,
            builtSession_application _ _ _ _ _, builtSession_name _ _ _ _ _,
            builtSession_checkout _ _ _ _ _,
            Or.inr ⟨builtSession_variables _ _ _ _ _, rfl, rfl, rfl⟩⟩
        · rw [not_or] at hd
          obtain ⟨hd1, hd2⟩ := hd
          have hn : input.PreviousSession = none := by
            cases h : input.PreviousSession with
            | none => rfl
            | some p => rw [h] at hd1; exact absurd rfl hd1
          obtain ⟨e, he⟩ := Option.ne_none_iff_exists'.mp hd2
          rw [accept_dedup w env input checkout commit freePort e hadm hl hp hc hn he]
          exact ⟨_, rfl, rfl, rfl, rfl, rfl, rfl, Or.inl ⟨hv, rfl, rfl, fun _ _ _ => hn⟩⟩


/-! ### `ReplaceAll` and `Contains` -/

theorem containsChars_append (sub rest : List Char) :
    containsChars sub (sub ++ rest) = true := by
  cases h : sub ++ rest with
  | nil =>
    have : sub = [] := (List.append_eq_nil.mp h).1
    simp [containsChars, this]
  | cons c cs =>
    have hp : sub.isPrefixOf (c :: cs) = true := by
      rw [← h, List.isPrefixOf_iff_prefix]
      exact List.prefix_append _ _
    simp [containsChars, hp]

theorem containsChars_cons (sub l : List Char) (c : Char)
    (h : containsChars sub l = true) : containsChars sub (c :: l) = true := by
  simp [containsChars, h]

theorem replaceAllFrom_contains (old new : List Char) (hold : old ≠ []) (s : List Char)
    (h : containsChars old s = true) :
    containsChars new (replaceAllFrom old new 0 s) = true := by
  induction s with
  | nil =>
    cases old with
    | nil => exact absurd rfl hold
    | cons a as => simp [containsChars] at h
  | cons c cs ih =>
    by_cases hp : old.isPrefixOf (c :: cs) = true
    · simp only [replaceAllFrom, hp, if_true]
      exact containsChars_append _ _
    · simp only [replaceAllFrom, hp]
      simp only [containsChars, hp, Bool.false_or] at h
      exact containsChars_cons _ _ _ (ih h)

theorem replaceAll_contains (s old new : String) (hold : old.data ≠ [])
    (h : Contains s old = true) : Contains (ReplaceAll s old new) new = true := by
  unfold ReplaceAll
  rw [if_neg hold]
  exact replaceAllFrom_contains old.data new.data hold s.data h


/-! ## C6: recycling -/

theorem sessionForBuild_fresh_fields (env : BuildEnvironment) (input : SessionBuildInput)
    (h : input.PreviousSession = none
      ∨ ∃ p, input.PreviousSession = some p
        ∧ ¬ (p.killReason = KillReasonBuildFailed
          ∨ p.killReason = KillReasonHealthcheckFailed)) :
    (sessionForBuild env input).UUID = env.newUUID
      ∧ (sessionForBuild env input).startupRetries = 0
      ∧ (sessionForBuild env input).GetConfiguration.Port
          = input.Application.GetConfiguration.Port := by
  rcases h with h | ⟨p, hp, hk⟩
  · rw [sessionForBuild_none env input h]
    exact ⟨rfl, rfl, rfl⟩
  · rw [sessionForBuild_other env input p hp hk]
    split
    · exact ⟨rfl, rfl, rfl⟩
    · exact ⟨rfl, rfl, rfl⟩

/-- C6 (amended): for an admitted request whose previous session `p` has kill reason
build_failed or healthcheck_failed, the session `acceptSessionBuild` works on is the
previous session (same UUID, application, name and checkout) with `startupRetries` one
more than before.  When the checkout resolves, `getFreePort` answers a port for the port
configuration of the application of `p` and `CommitMap` holds the commit, that session is
built: it is returned in a Succeeded result, added to the store and handed to
`buildSession`, and its variables are exactly the five freshly seeded entries.  When the
checkout is unknown or no port is free, the call returns Failed, builds nothing, leaves
the store as it was and leaves the recycled session without any variable.  For a request
without previous session, or whose previous session has any other kill reason, when the
checkout resolves, a port is free, `CommitMap` holds the commit and the deduplication
does not apply (there is a previous session, or no alive session of the application on
that commit), a session with the newly generated UUID and `startupRetries` 0 is built,
its variables being the seeded entries. -/
theorem acceptSessionBuild_recycles (w : SessionBuildWorker) (env : BuildEnvironment)
    (input : SessionBuildInput) (hadm : Admitted w input) :
    (∀ p, input.PreviousSession = some p →
      (p.killReason = KillReasonBuildFailed ∨ p.killReason = KillReasonHealthcheckFailed) →
      (∃ s, (acceptSessionBuild w env input).session = some s
        ∧ s.UUID = p.UUID
        ∧ s.startupRetries = p.startupRetries + 1
        ∧ s.Application = p.Application ∧ s.Name = p.Name ∧ s.Checkout = p.Checkout)
      ∧ (∀ checkout commit freePort,
          input.Application.ObjectsToHashMap.lookup input.Checkout = some checkout →
          env.getFreePort p.Application.GetConfiguration.Port = some freePort →
          input.Application.CommitMap.lookup checkout = some commit →
          ∃ s, (acceptSessionBuild w env input).building = some s
            ∧ (acceptSessionBuild w env input).session = some s
            ∧ (acceptSessionBuild w env input).result = some
                { Result := SessionBuildResultType.SessionBuildResultSucceeded
                  Session := some s
                  FailingReason := "" }
            ∧ (acceptSessionBuild w env input).sessionStorage = w.sessionStorage.Add s
            ∧ s.UUID = p.UUID
            ∧ s.startupRetries = p.startupRetries + 1
            ∧ s.Application = p.Application ∧ s.Name = p.Name ∧ s.Checkout = p.Checkout
            ∧ s.Variables = seededVariables s
            ∧ s.Variables = [("uuid", p.UUID), ("name", p.Name), ("port", Sprint freePort),
                ("target", ReplaceAll p.Application.Target portPlaceholder (Sprint freePort)),
                ("commit", checkout)])
      ∧ ((input.Application.ObjectsToHashMap.lookup input.Checkout = none
          ∨ env.getFreePort p.Application.GetConfiguration.Port = none) →
          (acceptSessionBuild w env input).building = none
            ∧ FailedResult (acceptSessionBuild w env input)
            ∧ (acceptSessionBuild w env input).sessionStorage = w.sessionStorage
            ∧ ∃ s, (acceptSessionBuild w env input).session = some s
              ∧ s.UUID = p.UUID
              ∧ s.startupRetries = p.startupRetries + 1
              ∧ s.Variables = []))
    ∧ ((input.PreviousSession = none
        ∨ ∃ p, input.PreviousSession = some p
          ∧ ¬ (p.killReason = KillReasonBuildFailed
            ∨ p.killReason = KillReasonHealthcheckFailed)) →
      ∀ checkout commit freePort,
        input.Application.ObjectsToHashMap.lookup input.Checkout = some checkout →
        env.getFreePort input.Application.GetConfiguration.Port = some freePort →
        input.Application.CommitMap.lookup checkout = some commit →
        (input.PreviousSession.isSome = true
          ∨ w.sessionStorage.GetAliveApplicationSessionByCheckout checkout input.Application
            = none) →
        ∃ s, (acceptSessionBuild w env input).building = some s
          ∧ (acceptSessionBuild w env input).session = some s
          ∧ (acceptSessionBuild w env input).result = some
              { Result := SessionBuildResultType.SessionBuildResultSucceeded
                Session := some s
                FailingReason := "" }
          ∧ (acceptSessionBuild w env input).sessionStorage = w.sessionStorage.Add s
          ∧ s.UUID = env.newUUID
          ∧ s.startupRetries = 0
          ∧ s.Variables = seededVariables s) := by
  refine ⟨?_, ?_⟩
  · intro p hp hk
    have h0 := sessionForBuild_recycle env input p hp hk
    have hport : (sessionForBuild env input).GetConfiguration.Port
        = p.Application.GetConfiguration.Port := by
      rw [h0]; rfl
    have huuid : (sessionForBuild env input).UUID = p.UUID := by rw [h0]; rfl
    have hretries : (sessionForBuild env input).startupRetries = p.startupRetries + 1 := by
      rw [h0]; rfl
    have happ : (sessionForBuild env input).Application = p.Application := by rw [h0]; rfl
    have hname : (sessionForBuild env input).Name = p.Name := by rw [h0]; rfl
    have hcheckout : (sessionForBuild env input).Checkout = p.Checkout := by rw [h0]; rfl
    refine ⟨?_, ?_, ?_⟩
    · obtain ⟨s, hs, h1, h2, h3, h4, h5, _⟩ := accept_session w env input hadm
      exact ⟨s, hs, h1.trans huuid, h2.trans hretries, h3.trans happ, h4.trans hname,
        h5.trans hcheckout⟩
    · intro checkout commit freePort hl hfree hc
      rw [← hport] at hfree
      rw [accept_built w env input checkout commit freePort hadm hl hfree hc
        (Or.inl (by rw [hp]; rfl))]
      have hv := builtSession_variables env input checkout commit freePort
      refine ⟨_, rfl, rfl, rfl, rfl, ?_, ?_, ?_, ?_, ?_, hv, ?_⟩
      · rw [builtSession_uuid, huuid]
      · rw [builtSession_startupRetries, hretries]
      · rw [builtSession_application, happ]
      · rw [builtSession_name, hname]
      · rw [builtSession_checkout, hcheckout]
      · rw [hv]
        simp only [seededVariables]
        rw [builtSession_uuid, huuid, builtSession_name, hname, builtSession_port,
          builtSession_target, builtSession_application, happ, builtSession_commitID]
    · intro hfail
      have hv := sessionForBuild_variables env input
      cases hl : input.Application.ObjectsToHashMap.lookup input.Checkout with
      | none =>
        rw [accept_checkout_unknown w env input hadm hl]
        exact ⟨rfl, ⟨_, rfl, rfl⟩, rfl, _, rfl, huuid, hretries, hv⟩
      | some checkout =>
        have hfree : env.getFreePort (sessionForBuild env input).GetConfiguration.Port
            = none := by
          rcases hfail with hfail | hfail
          · rw [hl] at hfail; cases hfail
          · rw [hport]; exact hfail
        rw [accept_no_port w env input checkout hadm hl hfree]
        exact ⟨rfl, ⟨_, rfl, rfl⟩, rfl, _, rfl, huuid, hretries, hv⟩
  · intro h checkout commit freePort hl hfree hc hd
    obtain ⟨huuid, hretries, hport⟩ := sessionForBuild_fresh_fields env input h
    rw [← hport] at hfree
    rw [accept_built w env input checkout commit freePort hadm hl hfree hc hd]
    refine ⟨_, rfl, rfl, rfl, rfl, ?_, ?_, builtSession_variables env input checkout commit
      freePort⟩
    · rw [builtSession_uuid, huuid]
    · rw [builtSession_startupRetries, hretries]

/-- Counterexample to C6 as stated: `recycleUnknownRequest` is admitted and its previous
session `failedSession` has kill reason build_failed, but its checkout is not a key of
`ObjectsToHashMap`: the call returns Failed, builds no session and adds none to the
store, and the recycled session is left without variables instead of the seeded entries.
Likewise `unknownRequest`, admitted and without previous session, builds no session
under the generated UUID, and `mainRequest` on a store that holds an alive session on
the commit of `main` is answered with that session and builds none. -/
theorem acceptSessionBuild_recycles_counterexample :
    Admitted emptyWorker recycleUnknownRequest
      ∧ recycleUnknownRequest.PreviousSession = some failedSession
      ∧ failedSession.killReason = KillReasonBuildFailed
      ∧ (acceptSessionBuild emptyWorker exampleEnvironment recycleUnknownRequest).building
          = none
      ∧ FailedResult (acceptSessionBuild emptyWorker exampleEnvironment recycleUnknownRequest)
      ∧ (acceptSessionBuild emptyWorker exampleEnvironment
          recycleUnknownRequest).sessionStorage = emptyWorker.sessionStorage
      ∧ (acceptSessionBuild emptyWorker exampleEnvironment recycleUnknownRequest).session.map
          (fun s => (s.UUID, s.startupRetries, s.Variables)) = some ("7f3a-0000", 2, [])
      ∧ Admitted emptyWorker unknownRequest
      ∧ unknownRequest.PreviousSession = none
      ∧ (acceptSessionBuild emptyWorker exampleEnvironment unknownRequest).building = none
      ∧ Admitted busyWorker mainRequest
      ∧ mainRequest.PreviousSession = none
      ∧ (acceptSessionBuild busyWorker exampleEnvironment mainRequest).building = none
      ∧ (acceptSessionBuild busyWorker exampleEnvironment mainRequest).sessionStorage
          = busyWorker.sessionStorage := by
  decide

/-- Witness of C6: `failedSession` is recycled for `main` (it is built under its own
UUID with two startup retries and the seeded variables, the stale variable gone), and
the request for `main` without previous session is built under the generated UUID. -/
theorem acceptSessionBuild_recycles_witness :
    Admitted emptyWorker recycleRequest
      ∧ (∃ s, (acceptSessionBuild emptyWorker exampleEnvironment recycleRequest).building
            = some s
          ∧ (acceptSessionBuild emptyWorker exampleEnvironment recycleRequest).session = some s
          ∧ (acceptSessionBuild emptyWorker exampleEnvironment recycleRequest).result = some
              { Result := SessionBuildResultType.SessionBuildResultSucceeded
                Session := some s
                FailingReason := "" }
          ∧ (acceptSessionBuild emptyWorker exampleEnvironment recycleRequest).sessionStorage
              = emptyWorker.sessionStorage.Add s
          ∧ s.UUID = failedSession.UUID
          ∧ s.startupRetries = failedSession.startupRetries + 1
          ∧ s.Application = failedSession.Application ∧ s.Name = failedSession.Name
          ∧ s.Checkout = failedSession.Checkout
          ∧ s.Variables = seededVariables s
          ∧ s.Variables = [("uuid", failedSession.UUID), ("name", failedSession.Name),
              ("port", Sprint 8080),
              ("target", ReplaceAll failedSession.Application.Target portPlaceholder
                (Sprint 8080)),
              ("commit", "abc123")])
      ∧ Admitted emptyWorker mainRequest
      ∧ (∃ s, (acceptSessionBuild emptyWorker exampleEnvironment mainRequest).building
            = some s
          ∧ (acceptSessionBuild emptyWorker exampleEnvironment mainRequest).session = some s
          ∧ (acceptSessionBuild emptyWorker exampleEnvironment mainRequest).result = some
              { Result := SessionBuildResultType.SessionBuildResultSucceeded
                Session := some s
                FailingReason := "" }
          ∧ (acceptSessionBuild emptyWorker exampleEnvironment mainRequest).sessionStorage
              = emptyWorker.sessionStorage.Add s
          ∧ s.UUID = exampleEnvironment.newUUID
          ∧ s.startupRetries = 0
          ∧ s.Variables = seededVariables s)
      ∧ (acceptSessionBuild emptyWorker exampleEnvironment recycleRequest).building.map
          (fun s => (s.UUID, s.startupRetries, s.Variables))
          = some ("7f3a-0000", 2,
              [("uuid", "7f3a-0000"), ("name", "testserver"), ("port", "8080"),
                ("target", "http://localhost:8080"), ("commit", "abc123")]) :=
  ⟨by decide,
    ((acceptSessionBuild_recycles emptyWorker exampleEnvironment recycleRequest
      (by decide)).1 failedSession rfl (Or.inl rfl)).2.1 "abc123" exampleCommit 8080
        (by decide) (by decide) (by decide),
    by decide,
    (acceptSessionBuild_recycles emptyWorker exampleEnvironment mainRequest (by decide)).2
      (Or.inl rfl) "abc123" exampleCommit 8080 (by decide) (by decide) (by decide)
      (Or.inr (by decide)),
    by decide⟩

/-! ## C7: the session of an accepted build -/

/-- C7: when `acceptSessionBuild` accepts a build without deduplication, that is when
it hands a session `s` to `buildSession`, `s` is the session returned and the one added
to the store, and it has Status starting, the port answered by `getFreePort`, the
CommitID `ObjectsToHashMap[Checkout]`, as Target the target template of its application
with every placeholder replaced by the decimal port (so the Target contains the port
when the template contains the placeholder), and as Variables exactly uuid, name, port,
target and commit bound to UUID, Name, decimal Port, Target and CommitID.  Its
application is the requested one, or the one of the recycled previous session. -/
theorem acceptSessionBuild_built_session (w : SessionBuildWorker) (env : BuildEnvironment) (input : SessionBuildInput)
    (s : Session) (h : (acceptSessionBuild w env input).building = some s) :
    (acceptSessionBuild w env input).result = some
        { Result := SessionBuildResultType.SessionBuildResultSucceeded
          Session := some s
          FailingReason := "" }
      ∧ (acceptSessionBuild w env input).sessionStorage = w.sessionStorage.Add s
      ∧ s ∈ (acceptSessionBuild w env input).sessionStorage.sessions
      ∧ s.Status = SessionStatusStarting
      ∧ env.getFreePort s.Application.Port = some s.Port
      ∧ input.Application.ObjectsToHashMap.lookup input.Checkout = some s.CommitID
      ∧ s.Target = ReplaceAll s.Application.Target portPlaceholder (Sprint s.Port)
      ∧ (Contains s.Application.Target portPlaceholder = true →
          Contains s.Target (Sprint s.Port) = true)
      ∧ s.Variables = seededVariables s
      ∧ s.Variables.get "uuid" = some s.UUID
      ∧ s.Variables.get "name" = some s.Name
      ∧ s.Variables.get "port" = some (Sprint s.Port)
      ∧ s.Variables.get "target" = some s.Target
      ∧ s.Variables.get "commit" = some s.CommitID
      ∧ (s.Application = input.Application
        ∨ ∃ p, input.PreviousSession = some p
          ∧ (p.killReason = KillReasonBuildFailed
            ∨ p.killReason = KillReasonHealthcheckFailed)
          ∧ s.Application = p.Application) := by
  rcases accept_cases w env input with ⟨_, hb⟩ | ⟨checkout, commit, freePort, _, hl, hp, _, _, heq⟩
  · rw [hb] at h; cases h
  · rw [heq] at h ⊢
    have hs : builtSession env input checkout commit freePort = s := by
      simpa using h
    have hv := builtSession_variables env input checkout commit freePort
    have ht := builtSession_target env input checkout commit freePort
    have hport := builtSession_port env input checkout commit freePort
    have hcommit := builtSession_commitID env input checkout commit freePort
    have happ := builtSession_application env input checkout commit freePort
    have hstatus := builtSession_status env input checkout commit freePort
    rw [hs] at hv ht hport hcommit happ hstatus ⊢
    rw [← hport] at ht
    refine ⟨rfl, rfl, ?_, hstatus, ?_, ?_, ht, ?_, hv, ?_, ?_, ?_, ?_, ?_, ?_⟩
    · simp [SessionStorage.Add]
    · rw [happ, hport]; exact hp
    · rw [hcommit]; exact hl
    · intro hc
      rw [ht]
      exact replaceAll_contains _ _ _ (by decide) hc
    · rw [hv]; rfl
    · rw [hv]; rfl
    · rw [hv]; rfl
    · rw [hv]; rfl
    · rw [hv]; rfl
    · rw [happ]
      exact sessionForBuild_application env input

/-- Witness of C7: the build of `featureRequest` next to `exampleSession`. -/
theorem acceptSessionBuild_built_session_witness :
    (acceptSessionBuild busyWorker exampleEnvironment featureRequest).building
        = some featureSession
      ∧ (acceptSessionBuild busyWorker exampleEnvironment featureRequest).result = some
        { Result := SessionBuildResultType.SessionBuildResultSucceeded
          Session := some featureSession
          FailingReason := "" }
      ∧ (acceptSessionBuild busyWorker exampleEnvironment featureRequest).sessionStorage
          = busyWorker.sessionStorage.Add featureSession
      ∧ featureSession ∈ (acceptSessionBuild busyWorker exampleEnvironment
          featureRequest).sessionStorage.sessions
      ∧ featureSession.Status = SessionStatusStarting
      ∧ exampleEnvironment.getFreePort featureSession.Application.Port
          = some featureSession.Port
      ∧ featureRequest.Application.ObjectsToHashMap.lookup featureRequest.Checkout
          = some featureSession.CommitID
      ∧ featureSession.Target
          = ReplaceAll featureSession.Application.Target portPlaceholder
              (Sprint featureSession.Port)
      ∧ Contains featureSession.Target (Sprint featureSession.Port) = true
      ∧ featureSession.Variables = seededVariables featureSession :=
  have h := acceptSessionBuild_built_session busyWorker exampleEnvironment featureRequest
    featureSession (by decide)
  ⟨by decide, h.1, h.2.1, h.2.2.1, h.2.2.2.1, h.2.2.2.2.1, h.2.2.2.2.2.1, h.2.2.2.2.2.2.1,
    h.2.2.2.2.2.2.2.1 (by decide), h.2.2.2.2.2.2.2.2.1⟩

/-! ## C8: marking a session started -/

/-- C8: `MarkSessionAsStarted` sets Status to started and `startupRetries` to 0, sets
MaxAge to -1 when the Checkout of the session is in the watch list of its application
and to `Recycle.InactivityTimeout` otherwise, leaves UUID, Port, Target, CommitID,
Checkout, Variables, kill reason and application unchanged, and updates the store with
the session. -/
theorem MarkSessionAsStarted_fields (sessionStorage : SessionStorage) (session : Session) (now : Int) :
    (MarkSessionAsStarted sessionStorage session now).session.Status = SessionStatusStarted
      ∧ (MarkSessionAsStarted sessionStorage session now).session.startupRetries = 0
      ∧ (MarkSessionAsStarted sessionStorage session now).session.MaxAge
          = (if Watch.Contains session.Application.Watch session.Checkout = true then -1
             else session.Application.Recycle.InactivityTimeout)
      ∧ (MarkSessionAsStarted sessionStorage session now).session.UUID = session.UUID
      ∧ (MarkSessionAsStarted sessionStorage session now).session.Port = session.Port
      ∧ (MarkSessionAsStarted sessionStorage session now).session.Target = session.Target
      ∧ (MarkSessionAsStarted sessionStorage session now).session.CommitID = session.CommitID
      ∧ (MarkSessionAsStarted sessionStorage session now).session.Checkout = session.Checkout
      ∧ (MarkSessionAsStarted sessionStorage session now).session.Variables
          = session.Variables
      ∧ (MarkSessionAsStarted sessionStorage session now).session.killReason
          = session.killReason
      ∧ (MarkSessionAsStarted sessionStorage session now).session.Application
          = session.Application
      ∧ (MarkSessionAsStarted sessionStorage session now).sessionStorage
          = sessionStorage.Update (MarkSessionAsStarted sessionStorage session now).session := by
  unfold MarkSessionAsStarted
  by_cases hw : Watch.Contains session.Application.Watch session.Checkout = true
  · simp [hw, Session.SetStatus, Session.ResetStartupRetriesCount, Session.SetMaxAge]
  · by_cases ht : 0 < session.Application.Recycle.InactivityTimeout
    · simp [hw, ht, Session.SetStatus, Session.ResetStartupRetriesCount, Session.SetMaxAge,
        Session.GetMaxAge, startSessionInactivityTimer, Session.SetInactiveAt]
    · simp [hw, ht, Session.SetStatus, Session.ResetStartupRetriesCount, Session.SetMaxAge,
        Session.GetMaxAge, startSessionInactivityTimer, Session.SetInactiveAt]

/-! ## C9: the pin of a watched session -/

/-- C9, the code at the failing input: `exampleSession` is on the watched ref `main`;
`MarkSessionAsStarted` pins its MaxAge to -1, and the next `MarkAsBeingRequested`
overwrites the pin with the inactivity timeout of 60 seconds. -/
theorem MarkAsBeingRequested_unpins_watched_session :
    Watch.Contains exampleSession.Application.Watch exampleSession.Checkout = true
      ∧ (MarkSessionAsStarted busyWorker.sessionStorage exampleSession 0).session.MaxAge = -1
      ∧ ((MarkSessionAsStarted busyWorker.sessionStorage exampleSession
          0).session.MarkAsBeingRequested 5).MaxAge = 60 := by
  decide

/-! ## C10: a watched session is never reaped for inactivity -/

theorem mark_watched_timer (sessionStorage : SessionStorage) (session : Session) (now : Int)
    (hw : Watch.Contains session.Application.Watch session.Checkout = true) :
    (MarkSessionAsStarted sessionStorage session now).timerStarted = false := by
  unfold MarkSessionAsStarted
  simp [hw, Session.SetStatus, Session.ResetStartupRetriesCount]

theorem mark_keeps_watch (sessionStorage : SessionStorage) (session : Session) (now : Int) :
    (MarkSessionAsStarted sessionStorage session now).session.Application
        = session.Application
      ∧ (MarkSessionAsStarted sessionStorage session now).session.Checkout
        = session.Checkout := by
  unfold MarkSessionAsStarted
  by_cases hw : Watch.Contains session.Application.Watch session.Checkout = true
  · simp [hw, Session.SetStatus, Session.ResetStartupRetriesCount, Session.SetMaxAge]
  · by_cases ht : 0 < session.Application.Recycle.InactivityTimeout
    · simp [hw, ht, Session.SetStatus, Session.ResetStartupRetriesCount, Session.SetMaxAge,
        Session.GetMaxAge, startSessionInactivityTimer, Session.SetInactiveAt]
    · simp [hw, ht, Session.SetStatus, Session.ResetStartupRetriesCount, Session.SetMaxAge,
        Session.GetMaxAge, startSessionInactivityTimer, Session.SetInactiveAt]

theorem pinned_step (w : StartWorld) (p : Nat) (e : StartEvent) (h : Pinned w p) :
    Pinned (w.step e) p := by
  obtain ⟨⟨s, hs, hw⟩, ht, hq⟩ := h
  cases e with
  | start q now =>
    by_cases hqp : q = p
    · subst hqp
      have hf := mark_keeps_watch w.sessionStorage s now
      simp only [StartWorld.step, hs, mark_watched_timer w.sessionStorage s now hw]
      refine ⟨⟨(MarkSessionAsStarted w.sessionStorage s now).session, by simp, ?_⟩,
        by simpa using ht, hq⟩
      rw [hf.1, hf.2]
      exact hw
    · cases ho : w.objects q with
      | none => simp only [StartWorld.step, ho]; exact ⟨⟨s, hs, hw⟩, ht, hq⟩
      | some sq =>
        simp only [StartWorld.step, ho]
        refine ⟨⟨s, by simp [Function.update, Ne.symm hqp, hs], hw⟩, ?_, hq⟩
        split
        · simp [ht, Ne.symm hqp]
        · exact ht
  | tick q now =>
    by_cases hm : q ∈ w.timers
    · have hqp : q ≠ p := fun h => ht (h ▸ hm)
      cases ho : w.objects q with
      | none => simp only [StartWorld.step, hm, ho, if_true]; exact ⟨⟨s, hs, hw⟩, ht, hq⟩
      | some sq =>
        simp only [StartWorld.step, hm, ho, if_true]
        split
        · exact ⟨⟨s, hs, hw⟩, fun h => ht (List.mem_of_mem_erase h), hq⟩
        · exact ⟨⟨s, hs, hw⟩, fun h => ht (List.mem_of_mem_erase h),
            by simp [hq, Ne.symm hqp]⟩
        · exact ⟨⟨s, by simp [Function.update, Ne.symm hqp, hs], hw⟩, ht, hq⟩
    · simp only [StartWorld.step, hm, if_false]; exact ⟨⟨s, hs, hw⟩, ht, hq⟩
  | request q now =>
    by_cases hqp : q = p
    · subst hqp
      simp only [StartWorld.step, hs]
      exact ⟨⟨s.MarkAsBeingRequested now, by simp, hw⟩, ht, hq⟩
    · cases ho : w.objects q with
      | none => simp only [StartWorld.step, ho]; exact ⟨⟨s, hs, hw⟩, ht, hq⟩
      | some sq =>
        simp only [StartWorld.step, ho]
        exact ⟨⟨s, by simp [Function.update, Ne.symm hqp, hs], hw⟩, ht, hq⟩
  | status q st =>
    by_cases hqp : q = p
    · subst hqp
      simp only [StartWorld.step, hs]
      exact ⟨⟨s.SetStatus st, by simp, hw⟩, ht, hq⟩
    · cases ho : w.objects q with
      | none => simp only [StartWorld.step, ho]; exact ⟨⟨s, hs, hw⟩, ht, hq⟩
      | some sq =>
        simp only [StartWorld.step, ho]
        exact ⟨⟨s, by simp [Function.update, Ne.symm hqp, hs], hw⟩, ht, hq⟩

theorem pinned_run (events : List StartEvent) (w : StartWorld) (p : Nat) (h : Pinned w p) :
    Pinned (w.run events) p := by
  induction events generalizing w with
  | nil => exact h
  | cons e es ih => exact ih (w.step e) (pinned_step w p e h)

/-- C10: for a session whose Checkout is in the watch list of its application, with
no timer running and nothing enqueued for it, `MarkSessionAsStarted` starts no
inactivity timer, and after it no run of events of the start worker's world (ticks of
timers at any times, requests, status changes, further starts), however long, starts a
timer for the session or enqueues `DestroySession` for it; the inactivity timeout is
arbitrary. -/
theorem watched_session_never_destroyed (w : StartWorld) (p : Nat) (s : Session) (now : Int)
    (events : List StartEvent)
    (hobj : w.objects p = some s)
    (hwatch : Watch.Contains s.Application.Watch s.Checkout = true)
    (htimer : p ∉ w.timers) (hqueue : p ∉ w.destroyQueue) :
    (MarkSessionAsStarted w.sessionStorage s now).timerStarted = false
      ∧ (w.step (.start p now)).timers = w.timers
      ∧ p ∉ ((w.step (.start p now)).run events).timers
      ∧ p ∉ ((w.step (.start p now)).run events).destroyQueue := by
  have hp : Pinned w p := ⟨⟨s, hobj, hwatch⟩, htimer, hqueue⟩
  have hr := pinned_run events _ p (pinned_step w p (.start p now) hp)
  refine ⟨mark_watched_timer _ _ _ hwatch, ?_, hr.2.1, hr.2.2⟩
  simp [StartWorld.step, hobj, mark_watched_timer _ _ _ hwatch]

/-- Witness of C10: `exampleSession` at address 0 of `exampleWorld`, through
`exampleEvents`. -/
theorem watched_session_never_destroyed_witness :
    (MarkSessionAsStarted exampleWorld.sessionStorage exampleSession 0).timerStarted = false
      ∧ (exampleWorld.step (StartEvent.start 0 0)).timers = exampleWorld.timers
      ∧ 0 ∉ ((exampleWorld.step (StartEvent.start 0 0)).run exampleEvents).timers
      ∧ 0 ∉ ((exampleWorld.step (StartEvent.start 0 0)).run exampleEvents).destroyQueue :=
  watched_session_never_destroyed exampleWorld 0 exampleSession 0 exampleEvents rfl
    (by decide) (by decide) (by decide)

theorem mark_untimed (sessionStorage : SessionStorage) (session : Session) (now : Int)
    (h : Watch.Contains session.Application.Watch session.Checkout = true
      ∨ session.Application.Recycle.InactivityTimeout ≤ 0) :
    (MarkSessionAsStarted sessionStorage session now).timerStarted = false := by
  unfold MarkSessionAsStarted
  by_cases hw : Watch.Contains session.Application.Watch session.Checkout = true
  · simp [hw, Session.SetStatus, Session.ResetStartupRetriesCount]
  · have ht : ¬ 0 < session.Application.Recycle.InactivityTimeout :=
      not_lt.mpr (h.resolve_left hw)
    simp [hw, ht, Session.SetStatus, Session.ResetStartupRetriesCount, Session.SetMaxAge,
      Session.GetMaxAge]

theorem untimed_step (w : StartWorld) (p : Nat) (e : StartEvent) (h : Untimed w p) :
    Untimed (w.step e) p := by
  obtain ⟨⟨s, hs, hw⟩, ht, hq⟩ := h
  cases e with
  | start q now =>
    by_cases hqp : q = p
    · subst hqp
      have hf := mark_keeps_watch w.sessionStorage s now
      simp only [StartWorld.step, hs, mark_untimed w.sessionStorage s now hw]
      refine ⟨⟨(MarkSessionAsStarted w.sessionStorage s now).session, by simp, ?_⟩,
        by simpa using ht, hq⟩
      rw [hf.1, hf.2]
      exact hw
    · cases ho : w.objects q with
      | none => simp only [StartWorld.step, ho]; exact ⟨⟨s, hs, hw⟩, ht, hq⟩
      | some sq =>
        simp only [StartWorld.step, ho]
        refine ⟨⟨s, by simp [Function.update, Ne.symm hqp, hs], hw⟩, ?_, hq⟩
        split
        · simp [ht, Ne.symm hqp]
        · exact ht
  | tick q now =>
    by_cases hm : q ∈ w.timers
    · have hqp : q ≠ p := fun h => ht (h ▸ hm)
      cases ho : w.objects q with
      | none => simp only [StartWorld.step, hm, ho, if_true]; exact ⟨⟨s, hs, hw⟩, ht, hq⟩
      | some sq =>
        simp only [StartWorld.step, hm, ho, if_true]
        split
        · exact ⟨⟨s, hs, hw⟩, fun h => ht (List.mem_of_mem_erase h), hq⟩
        · exact ⟨⟨s, hs, hw⟩, fun h => ht (List.mem_of_mem_erase h),
            by simp [hq, Ne.symm hqp]⟩
        · exact ⟨⟨s, by simp [Function.update, Ne.symm hqp, hs], hw⟩, ht, hq⟩
    · simp only [StartWorld.step, hm, if_false]; exact ⟨⟨s, hs, hw⟩, ht, hq⟩
  | request q now =>
    by_cases hqp : q = p
    · subst hqp
      simp only [StartWorld.step, hs]
      exact ⟨⟨s.MarkAsBeingRequested now, by simp, hw⟩, ht, hq⟩
    · cases ho : w.objects q with
      | none => simp only [StartWorld.step, ho]; exact ⟨⟨s, hs, hw⟩, ht, hq⟩
      | some sq =>
        simp only [StartWorld.step, ho]
        exact ⟨⟨s, by simp [Function.update, Ne.symm hqp, hs], hw⟩, ht, hq⟩
  | status q st =>
    by_cases hqp : q = p
    · subst hqp
      simp only [StartWorld.step, hs]
      exact ⟨⟨s.SetStatus st, by simp, hw⟩, ht, hq⟩
    · cases ho : w.objects q with
      | none => simp only [StartWorld.step, ho]; exact ⟨⟨s, hs, hw⟩, ht, hq⟩
      | some sq =>
        simp only [StartWorld.step, ho]
        exact ⟨⟨s, by simp [Function.update, Ne.symm hqp, hs], hw⟩, ht, hq⟩

theorem untimed_run (events : List StartEvent) (w : StartWorld) (p : Nat) (h : Untimed w p) :
    Untimed (w.run events) p := by
  induction events generalizing w with
  | nil => exact h
  | cons e es ih => exact ih (w.step e) (untimed_step w p e h)

/-! ## C11: an inactivity timeout of 0 -/

/-- C11, amended: for an unwatched session of an application whose
`Recycle.InactivityTimeout` is 0, with no timer running and nothing enqueued for it,
`MarkSessionAsStarted` marks it started and starts no inactivity timer (line 44 starts
one only when the timeout is positive), so that no run of events of the start worker's
world, ticks at any times included, enqueues `DestroySession` for it. -/
theorem zero_timeout_session_never_destroyed (w : StartWorld) (p : Nat) (s : Session) (now : Int)
    (events : List StartEvent)
    (hobj : w.objects p = some s)
    (hunwatched : Watch.Contains s.Application.Watch s.Checkout = false)
    (hzero : s.Application.Recycle.InactivityTimeout = 0)
    (htimer : p ∉ w.timers) (hqueue : p ∉ w.destroyQueue) :
    (MarkSessionAsStarted w.sessionStorage s now).timerStarted = false
      ∧ (MarkSessionAsStarted w.sessionStorage s now).session.Status = SessionStatusStarted
      ∧ (w.step (.start p now)).timers = w.timers
      ∧ p ∉ ((w.step (.start p now)).run events).timers
      ∧ p ∉ ((w.step (.start p now)).run events).destroyQueue := by
  have hcond : Watch.Contains s.Application.Watch s.Checkout = true
      ∨ s.Application.Recycle.InactivityTimeout ≤ 0 := Or.inr (le_of_eq hzero)
  have hp : Untimed w p := ⟨⟨s, hobj, hcond⟩, htimer, hqueue⟩
  have hr := untimed_run events _ p (untimed_step w p (.start p now) hp)
  refine ⟨mark_untimed _ _ _ hcond, ?_, ?_, hr.2.1, hr.2.2⟩
  · unfold MarkSessionAsStarted
    simp [hunwatched, hzero, Session.SetStatus, Session.ResetStartupRetriesCount,
      Session.SetMaxAge, Session.GetMaxAge]
  · simp [StartWorld.step, hobj, mark_untimed _ _ _ hcond]

/-- Counterexample to C11 as stated: `idleSession` is unwatched and its application has
an inactivity timeout of 0; after it is marked started no timer runs, and neither the
first tick one second later nor any later tick enqueues `DestroySession`. -/
theorem zero_timeout_counterexample :
    Watch.Contains idleSession.Application.Watch idleSession.Checkout = false
      ∧ idleSession.Application.Recycle.InactivityTimeout = 0
      ∧ (idleWorld.step (StartEvent.start 0 0)).timers = []
      ∧ ((idleWorld.step (StartEvent.start 0 0)).step (StartEvent.tick 0 1)).destroyQueue = []
      ∧ ((idleWorld.step (StartEvent.start 0 0)).run
          [StartEvent.tick 0 1, StartEvent.tick 0 2, StartEvent.tick 0 1000]).destroyQueue
          = [] := by
  decide

/-- Witness of C11, amended: `idleSession` at address 0 of `idleWorld`. -/
theorem zero_timeout_session_never_destroyed_witness :
    (MarkSessionAsStarted idleWorld.sessionStorage idleSession 0).timerStarted = false
      ∧ (MarkSessionAsStarted idleWorld.sessionStorage idleSession 0).session.Status
          = SessionStatusStarted
      ∧ (idleWorld.step (StartEvent.start 0 0)).timers = idleWorld.timers
      ∧ 0 ∉ ((idleWorld.step (StartEvent.start 0 0)).run exampleEvents).timers
      ∧ 0 ∉ ((idleWorld.step (StartEvent.start 0 0)).run exampleEvents).destroyQueue :=
  zero_timeout_session_never_destroyed idleWorld 0 idleSession 0 exampleEvents rfl (by decide) (by decide) (by decide)
    (by decide)

/-! ## C12: one tick of the inactivity timer -/

theorem tick_step (w : StartWorld) (p : Nat) (s : Session) (now : Int)
    (hp : p ∈ w.timers) (hobj : w.objects p = some s) :
    w.step (.tick p now) =
      if s.Status ≠ SessionStatusStarted then { w with timers := w.timers.erase p }
      else if now > s.InactiveAt then
        { w with timers := w.timers.erase p, destroyQueue := w.destroyQueue ++ [p] }
      else { w with objects := Function.update w.objects p (some s.DecreaseMaxAge) } := by
  simp only [StartWorld.step, hp, hobj, if_true, inactivityTimerIteration, Session.GetStatus,
    Session.GetInactiveAt]
  by_cases h1 : s.Status = SessionStatusStarted
  · by_cases h2 : now > s.InactiveAt
    · simp [h1, h2]
    · simp [h1, h2]
  · simp [h1]

theorem tick_idle (w : StartWorld) (p : Nat) (now : Int) (hp : p ∉ w.timers) :
    w.step (.tick p now) = w := by
  simp only [StartWorld.step, if_neg hp]

/-- C12: one iteration of a running inactivity timer on session `s` does exactly one
of three things.  If the status is not started it stops and enqueues nothing.  If the
status is started and `now` is strictly after `InactiveAt` it enqueues `DestroySession`
once and stops.  Otherwise it decrements MaxAge by 1, changes nothing else and goes on.
So nothing is enqueued while `now <= InactiveAt`, and the outcome of the iteration does
not depend on MaxAge. -/
theorem timer_tick_cases (w : StartWorld) (p : Nat) (s : Session) (now : Int)
    (hp : p ∈ w.timers) (hobj : w.objects p = some s) :
    (s.Status ≠ SessionStatusStarted →
        (w.step (.tick p now)).destroyQueue = w.destroyQueue
        ∧ (w.step (.tick p now)).timers = w.timers.erase p
        ∧ (w.step (.tick p now)).objects = w.objects)
    ∧ (s.Status = SessionStatusStarted → now > s.InactiveAt →
        (w.step (.tick p now)).destroyQueue = w.destroyQueue ++ [p]
        ∧ (w.step (.tick p now)).timers = w.timers.erase p
        ∧ (w.step (.tick p now)).objects = w.objects)
    ∧ (s.Status = SessionStatusStarted → now ≤ s.InactiveAt →
        (w.step (.tick p now)).destroyQueue = w.destroyQueue
        ∧ (w.step (.tick p now)).timers = w.timers
        ∧ (w.step (.tick p now)).objects p = some { s with MaxAge := s.MaxAge - 1 }
        ∧ ∀ q, q ≠ p → (w.step (.tick p now)).objects q = w.objects q)
    ∧ (∀ age, (inactivityTimerIteration (s.SetMaxAge age) now).2
        = (inactivityTimerIteration s now).2) := by
  rw [tick_step w p s now hp hobj]
  refine ⟨?_, ?_, ?_, ?_⟩
  · intro h
    rw [if_pos h]
    exact ⟨rfl, rfl, rfl⟩
  · intro h1 h2
    rw [if_neg (not_not.mpr h1), if_pos h2]
    exact ⟨rfl, rfl, rfl⟩
  · intro h1 h2
    rw [if_neg (not_not.mpr h1), if_neg (not_lt.mpr h2)]
    refine ⟨rfl, rfl, by simp [Session.DecreaseMaxAge], ?_⟩
    intro q hq
    simp [Function.update, hq]
  · intro age
    simp only [inactivityTimerIteration, Session.GetStatus, Session.GetInactiveAt,
      Session.SetMaxAge]
    by_cases h1 : s.Status = SessionStatusStarted
    · by_cases h2 : now > s.InactiveAt
      · simp [h1, h2]
      · simp [h1, h2]
    · simp [h1]

/-- Witness of C12: the timer of the started `exampleSession` (InactiveAt 60) at time
61 and at time 60, and the timer of the starting `featureSession`. -/
theorem timer_tick_cases_witness :
    ((timerWorld.step (StartEvent.tick 0 61)).destroyQueue = timerWorld.destroyQueue ++ [0]
        ∧ (timerWorld.step (StartEvent.tick 0 61)).timers = timerWorld.timers.erase 0
        ∧ (timerWorld.step (StartEvent.tick 0 61)).objects = timerWorld.objects)
      ∧ ((timerWorld.step (StartEvent.tick 0 60)).destroyQueue = timerWorld.destroyQueue
        ∧ (timerWorld.step (StartEvent.tick 0 60)).timers = timerWorld.timers
        ∧ (timerWorld.step (StartEvent.tick 0 60)).objects 0
            = some { exampleSession with MaxAge := exampleSession.MaxAge - 1 }
        ∧ ∀ q, q ≠ 0 → (timerWorld.step (StartEvent.tick 0 60)).objects q
            = timerWorld.objects q)
      ∧ ((startingWorld.step (StartEvent.tick 0 61)).destroyQueue = startingWorld.destroyQueue
        ∧ (startingWorld.step (StartEvent.tick 0 61)).timers = startingWorld.timers.erase 0
        ∧ (startingWorld.step (StartEvent.tick 0 61)).objects = startingWorld.objects) :=
  ⟨(timer_tick_cases timerWorld 0 exampleSession 61 (by decide) rfl).2.1 rfl (by decide),
    (timer_tick_cases timerWorld 0 exampleSession 60 (by decide) rfl).2.2.1 rfl (by decide),
    (timer_tick_cases startingWorld 0 featureSession 61 (by decide) rfl).1 (by decide)⟩

/-! ## C13: a request refreshes the deadline -/

/-- The product `time.Second * time.Duration(n)` is `n` seconds when the nanoseconds of
`n` seconds fit in an `int64`. -/
theorem durationOfSeconds_eq (n : Int) (h : -9223372036 ≤ n ∧ n ≤ 9223372036) :
    durationOfSeconds n = Second * n := by
  have h63 : (2 : Int) ^ 63 = 9223372036854775808 := by norm_num
  have h64 : (2 : Int) ^ 64 = 18446744073709551616 := by norm_num
  unfold durationOfSeconds wrapInt64 Second
  rw [h63, h64]
  omega

/-- C13 (amended): `MarkAsBeingRequested` at time `now` leaves Status, kill reason,
`startupRetries`, Port and Variables unchanged and sets InactiveAt to `now` plus the
duration `time.Second * time.Duration(InactivityTimeout)`, an `int64` number of
nanoseconds.  When the nanoseconds of the timeout fit in an `int64` (a timeout between
-9223372036 and 9223372036 seconds) that instant is `now` plus InactivityTimeout
seconds, and an iteration of the timer at a time not after it does not enqueue
`DestroySession`. -/
theorem MarkAsBeingRequested_refreshes_deadline (session : Session) (now : Int) :
    (session.MarkAsBeingRequested now).Status = session.Status
      ∧ (session.MarkAsBeingRequested now).killReason = session.killReason
      ∧ (session.MarkAsBeingRequested now).startupRetries = session.startupRetries
      ∧ (session.MarkAsBeingRequested now).Port = session.Port
      ∧ (session.MarkAsBeingRequested now).Variables = session.Variables
      ∧ (session.MarkAsBeingRequested now).InactiveAt
        = now + durationOfSeconds session.Application.Recycle.InactivityTimeout
      ∧ (-9223372036 ≤ session.Application.Recycle.InactivityTimeout
          ∧ session.Application.Recycle.InactivityTimeout ≤ 9223372036 →
        (session.MarkAsBeingRequested now).InactiveAt
            = now + Second * session.Application.Recycle.InactivityTimeout
          ∧ (∀ t, t ≤ now + Second * session.Application.Recycle.InactivityTimeout →
              (inactivityTimerIteration (session.MarkAsBeingRequested now) t).2
                ≠ TimerStep.destroy)
          ∧ (∀ (w : StartWorld) (p : Nat) (t : Int), w.objects p = some session →
              t ≤ now + Second * session.Application.Recycle.InactivityTimeout →
              ((w.step (.request p now)).step (.tick p t)).destroyQueue
                = w.destroyQueue)) := by
  refine ⟨rfl, rfl, rfl, rfl, rfl, rfl, ?_⟩
  intro hrange
  have hd := durationOfSeconds_eq session.Application.Recycle.InactivityTimeout hrange
  have hat : (session.MarkAsBeingRequested now).InactiveAt
      = now + Second * session.Application.Recycle.InactivityTimeout := by
    rw [← hd]; rfl
  have hiter : ∀ t, t ≤ now + Second * session.Application.Recycle.InactivityTimeout →
      (inactivityTimerIteration (session.MarkAsBeingRequested now) t).2
        ≠ TimerStep.destroy := by
    intro t ht
    have hle : ¬ t > (session.MarkAsBeingRequested now).GetInactiveAt := by
      show ¬ t > (session.MarkAsBeingRequested now).InactiveAt
      rw [hat]; exact not_lt.mpr ht
    unfold inactivityTimerIteration
    by_cases h1 : (session.MarkAsBeingRequested now).GetStatus ≠ SessionStatusStarted
    · simp only [if_pos h1]
      decide
    · simp only [if_neg h1, if_neg hle]
      decide
  refine ⟨hat, hiter, ?_⟩
  intro w p t hobj ht
  have hreq : w.step (.request p now) =
      { w with
        objects := Function.update w.objects p (some (session.MarkAsBeingRequested now)) } := by
    simp [StartWorld.step, hobj]
  have htimers : (w.step (.request p now)).timers = w.timers := by rw [hreq]
  have hqueue : (w.step (.request p now)).destroyQueue = w.destroyQueue := by rw [hreq]
  have hobj1 : (w.step (.request p now)).objects p
      = some (session.MarkAsBeingRequested now) := by
    rw [hreq]; simp
  by_cases hp : p ∈ w.timers
  · rw [tick_step (w.step (.request p now)) p (session.MarkAsBeingRequested now) t
      (by rw [htimers]; exact hp) hobj1]
    have hle : ¬ t > (session.MarkAsBeingRequested now).InactiveAt := by
      rw [hat]; exact not_lt.mpr ht
    by_cases h1 : (session.MarkAsBeingRequested now).Status = SessionStatusStarted
    · rw [if_neg (not_not.mpr h1), if_neg hle]
      exact hqueue
    · rw [if_pos h1]
      exact hqueue
  · rw [tick_idle (w.step (.request p now)) p t (by rw [htimers]; exact hp), hqueue]

/-- Counterexample to C13 as stated: `longTimeoutSession` has an inactivity timeout of
10000000000 seconds, whose nanoseconds do not fit in an `int64`.  Requested at time 100
its InactiveAt is not 100 plus the timeout but an instant before the request, and the
iteration of the timer one nanosecond after the request enqueues `DestroySession`. -/
theorem MarkAsBeingRequested_deadline_counterexample :
    longTimeoutSession.Application.Recycle.InactivityTimeout = 10000000000
      ∧ (longTimeoutSession.MarkAsBeingRequested 100).InactiveAt
        = 100 - 8446744073709551616
      ∧ (longTimeoutSession.MarkAsBeingRequested 100).InactiveAt
        ≠ 100 + Second * longTimeoutSession.Application.Recycle.InactivityTimeout
      ∧ (101 : Int)
        ≤ 100 + Second * longTimeoutSession.Application.Recycle.InactivityTimeout
      ∧ (inactivityTimerIteration (longTimeoutSession.MarkAsBeingRequested 100) 101).2
        = TimerStep.destroy := by
  decide

/-- Witness of C13: `exampleSession` requested at time 100 with a timeout of 60
seconds: the tick 60 seconds later enqueues nothing, the tick one nanosecond after that
does. -/
theorem MarkAsBeingRequested_refreshes_deadline_witness :
    (exampleSession.MarkAsBeingRequested 100).InactiveAt = 60000000100
      ∧ (inactivityTimerIteration (exampleSession.MarkAsBeingRequested 100)
          60000000100).2 ≠ TimerStep.destroy
      ∧ ((timerWorld.step (StartEvent.request 0 100)).step
          (StartEvent.tick 0 60000000100)).destroyQueue = timerWorld.destroyQueue
      ∧ ((timerWorld.step (StartEvent.request 0 100)).step
          (StartEvent.tick 0 60000000101)).destroyQueue = [0] :=
  ⟨((MarkAsBeingRequested_refreshes_deadline exampleSession 100).2.2.2.2.2.2
      (by decide)).1,
    ((MarkAsBeingRequested_refreshes_deadline exampleSession 100).2.2.2.2.2.2
      (by decide)).2.1 60000000100 (by decide),
    ((MarkAsBeingRequested_refreshes_deadline exampleSession 100).2.2.2.2.2.2
      (by decide)).2.2 timerWorld 0 60000000100 rfl (by decide),
    by decide⟩

/-! ## C14: status changes and the state machine -/

/-- C14, amended: `Session.SetStatus` and `MarkSessionAsStarted` do not check the state
machine: whatever the current status of the session, `SetStatus` leaves it with the
requested status and `MarkSessionAsStarted` leaves it with status started. -/
theorem status_changes_are_unchecked (session : Session) (status : SessionStatus) (sessionStorage : SessionStorage)
    (now : Int) :
    (session.SetStatus status).Status = status
      ∧ (MarkSessionAsStarted sessionStorage session now).session.Status
          = SessionStatusStarted := by
  refine ⟨rfl, ?_⟩
  unfold MarkSessionAsStarted
  by_cases hw : Watch.Contains session.Application.Watch session.Checkout = true
  · simp [hw, Session.SetStatus, Session.ResetStartupRetriesCount, Session.SetMaxAge]
  · by_cases ht : 0 < session.Application.Recycle.InactivityTimeout
    · simp [hw, ht, Session.SetStatus, Session.ResetStartupRetriesCount, Session.SetMaxAge,
        Session.GetMaxAge, startSessionInactivityTimer, Session.SetInactiveAt]
    · simp [hw, ht, Session.SetStatus, Session.ResetStartupRetriesCount, Session.SetMaxAge,
        Session.GetMaxAge, startSessionInactivityTimer, Session.SetInactiveAt]

/-- Counterexample to C14 as stated: from each of the terminal statuses stopped,
start_failed and stop_failed, which have no edge to started, `SetStatus` or
`MarkSessionAsStarted` moves the session back to started. -/
theorem status_changes_counterexample :
    stoppedSession.Status = SessionStatusStopped
      ∧ (SessionStatusStopped, SessionStatusStarted) ∉ statusEdges
      ∧ (stoppedSession.SetStatus SessionStatusStarted).Status = SessionStatusStarted
      ∧ (MarkSessionAsStarted emptyWorker.sessionStorage stoppedSession 0).session.Status
          = SessionStatusStarted
      ∧ failedSession.Status = SessionStatusStartFailed
      ∧ (SessionStatusStartFailed, SessionStatusStarted) ∉ statusEdges
      ∧ (MarkSessionAsStarted emptyWorker.sessionStorage failedSession 0).session.Status
          = SessionStatusStarted
      ∧ (SessionStatusStopFailed, SessionStatusStarted) ∉ statusEdges
      ∧ ((stoppedSession.SetStatus SessionStatusStopFailed).SetStatus
          SessionStatusStarted).Status = SessionStatusStarted := by
  decide

/-! ## The build goroutine: `execCommands`, `execWarmups` and `buildSession` -/

/-! ### the events of a build -/

theorem commandsOf_append (a b : List BuildEvent) :
    commandsOf (a ++ b) = commandsOf a ++ commandsOf b := by
  simp [commandsOf, List.filterMap_append]

theorem commandsOf_nil : commandsOf [] = [] := rfl

theorem commandsOf_command (c : Command) (l : List BuildEvent) :
    commandsOf (BuildEvent.command c :: l) = c :: commandsOf l := rfl

theorem commandsOf_healthcheck (l : List BuildEvent) :
    commandsOf (BuildEvent.healthcheck :: l) = commandsOf l := rfl

/-! ### the loop of `execCommands` -/

theorem loop_nil (conf : ApplicationConfiguration) (hs : Bool) (st : ExecState) :
    execCommandsLoop conf [] hs st = { healthcheckingStarted := hs, err := none, state := st } :=
  rfl

theorem loop_canceled (conf : ApplicationConfiguration) (c : Command) (r : CommandRun)
    (rest : List (Command × CommandRun)) (hs : Bool) (st : ExecState)
    (h : r.ctxDone = true) :
    execCommandsLoop conf ((c, r) :: rest) hs st
      = { healthcheckingStarted := hs, err := some BuildError.Canceled, state := st } := by
  simp [execCommandsLoop, h]

theorem loop_wrong_state (conf : ApplicationConfiguration) (c : Command) (r : CommandRun)
    (rest : List (Command × CommandRun)) (hs : Bool) (st : ExecState)
    (h : r.ctxDone = false)
    (hstatus : r.status ≠ SessionStatusStarting ∧ r.status ≠ SessionStatusStarted) :
    execCommandsLoop conf ((c, r) :: rest) hs st
      = { healthcheckingStarted := hs, err := some BuildError.ErrWrongSessionState
          state := { st with session := st.session.SetStatus r.status } } := by
  simp [execCommandsLoop, h, Session.SetStatus, Session.GetStatus, hstatus.1, hstatus.2]

theorem live_status (r : CommandRun) (h : r.Live) :
    ¬ (r.status ≠ SessionStatusStarting ∧ r.status ≠ SessionStatusStarted) := by
  rintro ⟨h1, h2⟩
  rcases h.2 with h | h
  · exact h1 h
  · exact h2 h

theorem loop_fatal (conf : ApplicationConfiguration) (c : Command) (r : CommandRun)
    (rest : List (Command × CommandRun)) (hs : Bool) (st : ExecState) (message : String)
    (hl : r.Live) (he : r.err = some message) (hc : c.ContinueOnError = false) :
    execCommandsLoop conf ((c, r) :: rest) hs st
      = { healthcheckingStarted := hs, err := some (BuildError.other message)
          state := { st with
            session := st.session.SetStatus r.status
            events := st.events ++ [BuildEvent.command c] } } := by
  have hs' := live_status r hl
  simp only [Session.SetStatus, Session.GetStatus] at hs' ⊢
  simp [execCommandsLoop, hl.1, Session.SetStatus, Session.GetStatus, hs', he, hc]

theorem loop_tolerated_failure (conf : ApplicationConfiguration) (c : Command)
    (r : CommandRun) (rest : List (Command × CommandRun)) (hs : Bool) (st : ExecState)
    (message : String)
    (hl : r.Live) (he : r.err = some message) (hc : c.ContinueOnError = true) :
    execCommandsLoop conf ((c, r) :: rest) hs st
      = execCommandsLoop conf rest hs
          { st with
            session := (st.session.SetStatus r.status).LogError message
            events := st.events ++ [BuildEvent.command c] } := by
  have hs' := live_status r hl
  simp [execCommandsLoop, hl.1, Session.SetStatus, Session.GetStatus, hs', he, hc]

theorem loop_success (conf : ApplicationConfiguration) (c : Command)
    (r : CommandRun) (rest : List (Command × CommandRun)) (hs : Bool) (st : ExecState)
    (hl : r.Live) (he : r.err = none) :
    execCommandsLoop conf ((c, r) :: rest) hs st
      = if (c.StartHealthchecking && !hs && decide (conf.Healthcheck ≠ {})) = true then
          execCommandsLoop conf rest true
            { session := st.session.SetStatus r.status
              sessionStorage := st.sessionStorage.Update (st.session.SetStatus r.status)
              events := st.events ++ [BuildEvent.command c] ++ [BuildEvent.healthcheck] }
        else
          execCommandsLoop conf rest hs
            { session := st.session.SetStatus r.status
              sessionStorage := st.sessionStorage.Update (st.session.SetStatus r.status)
              events := st.events ++ [BuildEvent.command c] } := by
  have hs' := live_status r hl
  simp [execCommandsLoop, hl.1, Session.SetStatus, Session.GetStatus, hs', he]

/-- The commands run by the loop are a prefix of the commands it is given. -/
theorem loop_commands_initial (conf : ApplicationConfiguration)
    (steps : List (Command × CommandRun)) (hs : Bool) (st : ExecState) :
    ∃ k, commandsOf (execCommandsLoop conf steps hs st).state.events
      = commandsOf st.events ++ (steps.take k).map Prod.fst := by
  induction steps generalizing hs st with
  | nil => exact ⟨0, by simp [loop_nil]⟩
  | cons p rest ih =>
    obtain ⟨c, r⟩ := p
    by_cases hctx : r.ctxDone = true
    · exact ⟨0, by rw [loop_canceled conf c r rest hs st hctx]; simp⟩
    have hctx' : r.ctxDone = false := by simpa using hctx
    by_cases hstatus : r.status ≠ SessionStatusStarting ∧ r.status ≠ SessionStatusStarted
    · exact ⟨0, by rw [loop_wrong_state conf c r rest hs st hctx' hstatus]; simp⟩
    have hl : r.Live := ⟨hctx', by
      by_contra hne
      rw [not_or] at hne
      exact hstatus hne⟩
    cases he : r.err with
    | some message =>
      by_cases hc : c.ContinueOnError = true
      · rw [loop_tolerated_failure conf c r rest hs st message hl he hc]
        obtain ⟨k, hk⟩ := ih hs _
        exact ⟨k + 1, by rw [hk]; simp [commandsOf_append, commandsOf_command, commandsOf_nil]⟩
      · have hc' : c.ContinueOnError = false := by simpa using hc
        rw [loop_fatal conf c r rest hs st message hl he hc']
        exact ⟨1, by simp [commandsOf_append, commandsOf_command, commandsOf_nil]⟩
    | none =>
      rw [loop_success conf c r rest hs st hl he]
      split
      · obtain ⟨k, hk⟩ := ih true _
        exact ⟨k + 1, by
          rw [hk]; simp [commandsOf_append, commandsOf_command, commandsOf_healthcheck, commandsOf_nil]⟩
      · obtain ⟨k, hk⟩ := ih hs _
        exact ⟨k + 1, by rw [hk]; simp [commandsOf_append, commandsOf_command, commandsOf_nil]⟩

/-- While every command is run and tolerated, the loop runs them all and returns no
error. -/
theorem loop_tolerated (conf : ApplicationConfiguration)
    (steps : List (Command × CommandRun)) (hs : Bool) (st : ExecState)
    (h : ∀ p ∈ steps, p.2.Live ∧ Tolerated p) :
    (execCommandsLoop conf steps hs st).err = none
      ∧ commandsOf (execCommandsLoop conf steps hs st).state.events
        = commandsOf st.events ++ steps.map Prod.fst := by
  induction steps generalizing hs st with
  | nil => simp [loop_nil]
  | cons p rest ih =>
    obtain ⟨c, r⟩ := p
    have hp := h (c, r) (List.mem_cons_self _ _)
    have hrest : ∀ p ∈ rest, p.2.Live ∧ Tolerated p :=
      fun p hp => h p (List.mem_cons_of_mem _ hp)
    cases he : r.err with
    | some message =>
      have hc : c.ContinueOnError = true := hp.2 (by simp [he])
      rw [loop_tolerated_failure conf c r rest hs st message hp.1 he hc]
      obtain ⟨h1, h2⟩ := ih hs _ hrest
      exact ⟨h1, by rw [h2]; simp [commandsOf_append, commandsOf_command, commandsOf_nil]⟩
    | none =>
      rw [loop_success conf c r rest hs st hp.1 he]
      split
      · obtain ⟨h1, h2⟩ := ih true _ hrest
        exact ⟨h1, by
          rw [h2]; simp [commandsOf_append, commandsOf_command, commandsOf_healthcheck, commandsOf_nil]⟩
      · obtain ⟨h1, h2⟩ := ih hs _ hrest
        exact ⟨h1, by rw [h2]; simp [commandsOf_append, commandsOf_command, commandsOf_nil]⟩

/-- The loop over `pre ++ post` goes on with `post` when `pre` returns no error. -/
theorem loop_append (conf : ApplicationConfiguration)
    (pre post : List (Command × CommandRun)) (hs : Bool) (st : ExecState)
    (h : (execCommandsLoop conf pre hs st).err = none) :
    execCommandsLoop conf (pre ++ post) hs st
      = execCommandsLoop conf post (execCommandsLoop conf pre hs st).healthcheckingStarted
          (execCommandsLoop conf pre hs st).state := by
  induction pre generalizing hs st with
  | nil => simp [loop_nil]
  | cons p rest ih =>
    obtain ⟨c, r⟩ := p
    by_cases hctx : r.ctxDone = true
    · rw [loop_canceled conf c r rest hs st hctx] at h; cases h
    have hctx' : r.ctxDone = false := by simpa using hctx
    by_cases hstatus : r.status ≠ SessionStatusStarting ∧ r.status ≠ SessionStatusStarted
    · rw [loop_wrong_state conf c r rest hs st hctx' hstatus] at h; cases h
    have hl : r.Live := ⟨hctx', by
      by_contra hne
      rw [not_or] at hne
      exact hstatus hne⟩
    cases he : r.err with
    | some message =>
      by_cases hc : c.ContinueOnError = true
      · rw [loop_tolerated_failure conf c r rest hs st message hl he hc] at h ⊢
        rw [List.cons_append, loop_tolerated_failure conf c r (rest ++ post) hs st message hl
          he hc]
        exact ih hs _ h
      · have hc' : c.ContinueOnError = false := by simpa using hc
        rw [loop_fatal conf c r rest hs st message hl he hc'] at h; cases h
    | none =>
      rw [loop_success conf c r rest hs st hl he] at h ⊢
      rw [List.cons_append, loop_success conf c r (rest ++ post) hs st hl he]
      split
      · rename_i hcond
        rw [if_pos hcond] at h
        exact ih true _ h
      · rename_i hcond
        rw [if_neg hcond] at h
        exact ih hs _ h

/-- With every command run, the loop returns no error exactly when every failure is
tolerated. -/
theorem loop_no_error_iff (conf : ApplicationConfiguration)
    (steps : List (Command × CommandRun)) (hs : Bool) (st : ExecState)
    (h : ∀ p ∈ steps, p.2.Live) :
    (execCommandsLoop conf steps hs st).err = none ↔ ∀ p ∈ steps, Tolerated p := by
  induction steps generalizing hs st with
  | nil => simp [loop_nil]
  | cons p rest ih =>
    obtain ⟨c, r⟩ := p
    have hl := h (c, r) (List.mem_cons_self _ _)
    have hrest : ∀ p ∈ rest, p.2.Live := fun p hp => h p (List.mem_cons_of_mem _ hp)
    cases he : r.err with
    | some message =>
      by_cases hc : c.ContinueOnError = true
      · rw [loop_tolerated_failure conf c r rest hs st message hl he hc, ih hs _ hrest]
        simp [Tolerated, he, hc]
      · have hc' : c.ContinueOnError = false := by simpa using hc
        rw [loop_fatal conf c r rest hs st message hl he hc']
        simp [Tolerated, he, hc']
    | none =>
      rw [loop_success conf c r rest hs st hl he]
      split
      · rw [ih true _ hrest]; simp [Tolerated, he]
      · rw [ih hs _ hrest]; simp [Tolerated, he]

/-! ### the paths of `buildSession` -/

theorem buildSession_filesystem_error (w : SessionBuildWorker) (run : BuildRun)
    (session : Session) (message : String) (h : run.filesystem.Err = some message) :
    buildSession w run session =
      { session :=
          (({ session with Folder := run.filesystem.CommitFolder }).LogError
            ("Could not build session commit structure: " ++ message)).SetKillReason
            KillReasonBuildFailed
        sessionStorage := w.sessionStorage
        events := [BuildEvent.filesystem, BuildEvent.clean SessionStatusStartFailed] } := by
  unfold buildSession
  simp only [h]
  rfl

theorem buildSession_commands_error (w : SessionBuildWorker) (run : BuildRun)
    (session : Session) (err : BuildError) (hfs : run.filesystem.Err = none)
    (h : (buildCommands w run session).err = some err) :
    buildSession w run session =
      failBuild err "Commands: it has been killed by the user, right?"
        (buildCommands w run session).state := by
  unfold buildCommands commandSteps buildStart at h
  unfold buildSession
  simp only [hfs, h]
  rfl

theorem buildSession_warmups_error (w : SessionBuildWorker) (run : BuildRun)
    (session : Session) (err : BuildError) (hfs : run.filesystem.Err = none)
    (hc : (buildCommands w run session).err = none)
    (h : (buildWarmups w run session).err = some err) :
    buildSession w run session =
      failBuild err "Warmup: it has been killed by the user, right?"
        (buildWarmups w run session).state := by
  unfold buildWarmups at h ⊢
  by_cases hu : session.GetConfiguration.Warmup.URLs.length > 0
  · rw [if_pos hu] at h ⊢
    unfold warmupSteps at h
    unfold buildCommands commandSteps buildStart at hc h
    unfold buildSession
    simp only [hfs, hc, hu, if_true, h]
    rfl
  · rw [if_neg hu] at h
    cases h

theorem buildSession_completed (w : SessionBuildWorker) (run : BuildRun)
    (session : Session) (hfs : run.filesystem.Err = none)
    (hc : (buildCommands w run session).err = none)
    (h : (buildWarmups w run session).err = none) :
    buildSession w run session =
      handoff session.GetConfiguration (buildCommands w run session).healthcheckingStarted
        run.statusAtHandoff (buildWarmups w run session).state := by
  unfold buildWarmups at h ⊢
  by_cases hu : session.GetConfiguration.Warmup.URLs.length > 0
  · rw [if_pos hu] at h ⊢
    unfold warmupSteps at h
    unfold buildCommands commandSteps buildStart at hc h
    unfold buildSession
    simp only [hfs, hc, hu, if_true, h]
    rfl
  · rw [if_neg hu]
    unfold buildCommands commandSteps buildStart at hc
    unfold buildSession
    simp only [hfs, hc, hu, if_false]
    rfl

/-! ### what the loops add to the events and leave of the kill reason -/

/-- The loop of `execCommands` only adds events of commands and of the healthcheck
hand-over, and does not touch the kill reason. -/
theorem loop_events (conf : ApplicationConfiguration)
    (steps : List (Command × CommandRun)) (hs : Bool) (st : ExecState) :
    (∃ new, (execCommandsLoop conf steps hs st).state.events = st.events ++ new
      ∧ ∀ e ∈ new, (∃ c, e = BuildEvent.command c) ∨ e = BuildEvent.healthcheck)
    ∧ (execCommandsLoop conf steps hs st).state.session.killReason
        = st.session.killReason := by
  induction steps generalizing hs st with
  | nil => exact ⟨⟨[], by simp [execCommandsLoop], by simp⟩, rfl⟩
  | cons p rest ih =>
    obtain ⟨c, r⟩ := p
    simp only [execCommandsLoop]
    split
    · exact ⟨⟨[], by simp, by simp⟩, rfl⟩
    · split
      · exact ⟨⟨[], by simp, by simp⟩, rfl⟩
      · split
        · split
          · exact ⟨⟨[BuildEvent.command c], rfl, by simp⟩, rfl⟩
          · obtain ⟨⟨new, h1, h2⟩, h3⟩ := ih hs
              { st with
                session := (st.session.SetStatus r.status).LogError ‹String›
                events := st.events ++ [BuildEvent.command c] }
            refine ⟨⟨BuildEvent.command c :: new, ?_, ?_⟩, ?_⟩
            · rw [h1]; simp
            · intro e he
              rcases List.mem_cons.mp he with he | he
              · exact Or.inl ⟨c, he⟩
              · exact h2 e he
            · rw [h3]; rfl
        · split
          · obtain ⟨⟨new, h1, h2⟩, h3⟩ := ih true
              { session := st.session.SetStatus r.status
                sessionStorage := st.sessionStorage.Update (st.session.SetStatus r.status)
                events := st.events ++ [BuildEvent.command c] ++ [BuildEvent.healthcheck] }
            refine ⟨⟨BuildEvent.command c :: BuildEvent.healthcheck :: new, ?_, ?_⟩, ?_⟩
            · rw [h1]; simp
            · intro e he
              rcases List.mem_cons.mp he with he | he
              · exact Or.inl ⟨c, he⟩
              · rcases List.mem_cons.mp he with he | he
                · exact Or.inr he
                · exact h2 e he
            · rw [h3]; rfl
          · obtain ⟨⟨new, h1, h2⟩, h3⟩ := ih hs
              { session := st.session.SetStatus r.status
                sessionStorage := st.sessionStorage.Update (st.session.SetStatus r.status)
                events := st.events ++ [BuildEvent.command c] }
            refine ⟨⟨BuildEvent.command c :: new, ?_, ?_⟩, ?_⟩
            · rw [h1]; simp
            · intro e he
              rcases List.mem_cons.mp he with he | he
              · exact Or.inl ⟨c, he⟩
              · exact h2 e he
            · rw [h3]; rfl

/-- `execWarmup` does not touch the kill reason. -/
theorem execWarmupLoop_killReason (warmup : Warmup) (warmups : Warmups)
    (attempts : Nat → WarmupAttempt) (n : Nat) :
    ∀ (retryCount : Int) (i : Nat) (session : Session),
      (warmups.MaxRetries - retryCount).toNat = n →
      (execWarmupLoop warmup warmups attempts retryCount i session).session.killReason
        = session.killReason := by
  induction n using Nat.strong_induction_on with
  | _ n ih =>
    intro retryCount i session hn
    rw [execWarmupLoop]
    simp only
    split
    · rfl
    · rfl
    · split
      · rfl
      · rename_i hlt
        rw [ih _ (by omega) (retryCount + 1) (i + 1) _ rfl]
        rfl
    · split
      · split
        · rfl
        · rename_i hlt
          rw [ih _ (by omega) (retryCount + 1) (i + 1) _ rfl]
          rfl
      · rfl

theorem execWarmup_killReason (session : Session) (warmup : Warmup) (warmups : Warmups)
    (attempts : Nat → WarmupAttempt) :
    (execWarmup session warmup warmups attempts).session.killReason = session.killReason :=
  execWarmupLoop_killReason warmup warmups attempts _ 0 0 session rfl

theorem logWarmupFailure_killReason (result : WarmupResult) :
    (logWarmupFailure result).killReason = result.session.killReason := by
  unfold logWarmupFailure
  split
  · split <;> rfl
  · rfl

theorem warmupsLoop_canceled (warmups : Warmups) (u : Warmup) (r : WarmupRun)
    (rest : List (Warmup × WarmupRun)) (st : ExecState) (h : r.ctxDone = true) :
    execWarmupsLoop warmups ((u, r) :: rest) st
      = { err := some BuildError.Canceled, state := st } := by
  simp [execWarmupsLoop, h]

theorem warmupsLoop_wrong_state (warmups : Warmups) (u : Warmup) (r : WarmupRun)
    (rest : List (Warmup × WarmupRun)) (st : ExecState) (h : r.ctxDone = false)
    (hstatus : r.status ≠ SessionStatusStarting ∧ r.status ≠ SessionStatusStarted) :
    execWarmupsLoop warmups ((u, r) :: rest) st
      = { err := some BuildError.ErrWrongSessionState
          state := { st with session := st.session.SetStatus r.status } } := by
  simp [execWarmupsLoop, h, Session.SetStatus, Session.GetStatus, hstatus.1, hstatus.2]

theorem warmupsLoop_live_step (warmups : Warmups) (u : Warmup) (r : WarmupRun)
    (rest : List (Warmup × WarmupRun)) (st : ExecState) (hl : r.Live) :
    execWarmupsLoop warmups ((u, r) :: rest) st
      = execWarmupsLoop warmups rest
          { st with
            session :=
              logWarmupFailure (execWarmup (st.session.SetStatus r.status) u warmups r.attempts)
            events := st.events ++ [BuildEvent.warmup u] } := by
  have hstatus : ¬ (r.status ≠ SessionStatusStarting ∧ r.status ≠ SessionStatusStarted) := by
    rintro ⟨h1, h2⟩
    rcases hl.2 with h | h
    · exact h1 h
    · exact h2 h
  simp [execWarmupsLoop, hl.1, Session.SetStatus, Session.GetStatus, hstatus]

theorem warmupRun_cases (r : WarmupRun) :
    r.ctxDone = true
    ∨ (r.ctxDone = false
      ∧ r.status ≠ SessionStatusStarting ∧ r.status ≠ SessionStatusStarted)
    ∨ r.Live := by
  by_cases hctx : r.ctxDone = true
  · exact Or.inl hctx
  have hctx' : r.ctxDone = false := by simpa using hctx
  by_cases hstatus : r.status ≠ SessionStatusStarting ∧ r.status ≠ SessionStatusStarted
  · exact Or.inr (Or.inl ⟨hctx', hstatus⟩)
  · exact Or.inr (Or.inr ⟨hctx', by
      by_contra hne
      rw [not_or] at hne
      exact hstatus hne⟩)

/-- The loop of `execWarmups` only adds events of warmups and does not touch the kill
reason. -/
theorem warmupsLoop_events (warmups : Warmups) (steps : List (Warmup × WarmupRun))
    (st : ExecState) :
    (∃ new, (execWarmupsLoop warmups steps st).state.events = st.events ++ new
      ∧ ∀ e ∈ new, ∃ u, e = BuildEvent.warmup u)
    ∧ (execWarmupsLoop warmups steps st).state.session.killReason
        = st.session.killReason := by
  induction steps generalizing st with
  | nil => exact ⟨⟨[], by simp [execWarmupsLoop], by simp⟩, rfl⟩
  | cons p rest ih =>
    obtain ⟨u, r⟩ := p
    rcases warmupRun_cases r with h | ⟨h, hstatus⟩ | hl
    · rw [warmupsLoop_canceled warmups u r rest st h]
      exact ⟨⟨[], by simp, by simp⟩, rfl⟩
    · rw [warmupsLoop_wrong_state warmups u r rest st h hstatus]
      exact ⟨⟨[], by simp, by simp⟩, rfl⟩
    · rw [warmupsLoop_live_step warmups u r rest st hl]
      obtain ⟨⟨new, h1, h2⟩, h3⟩ := ih
        { st with
          session :=
            logWarmupFailure (execWarmup (st.session.SetStatus r.status) u warmups r.attempts)
          events := st.events ++ [BuildEvent.warmup u] }
      refine ⟨⟨BuildEvent.warmup u :: new, ?_, ?_⟩, ?_⟩
      · rw [h1]; simp
      · intro e he
        rcases List.mem_cons.mp he with he | he
        · exact ⟨u, he⟩
        · exact h2 e he
      · rw [h3]
        show (logWarmupFailure _).killReason = _
        rw [logWarmupFailure_killReason, execWarmup_killReason]
        rfl

/-- With every warmup run, the loop of `execWarmups` returns no error and runs every
warmup, in order. -/
theorem warmupsLoop_live (warmups : Warmups) (steps : List (Warmup × WarmupRun))
    (st : ExecState) (h : ∀ p ∈ steps, p.2.Live) :
    (execWarmupsLoop warmups steps st).err = none
      ∧ warmupsOf (execWarmupsLoop warmups steps st).state.events
        = warmupsOf st.events ++ steps.map Prod.fst := by
  induction steps generalizing st with
  | nil => simp [execWarmupsLoop]
  | cons p rest ih =>
    obtain ⟨u, r⟩ := p
    have hl := h (u, r) (List.mem_cons_self _ _)
    have hrest : ∀ p ∈ rest, p.2.Live := fun p hp => h p (List.mem_cons_of_mem _ hp)
    rw [warmupsLoop_live_step warmups u r rest st hl]
    obtain ⟨h1, h2⟩ := ih _ hrest
    refine ⟨h1, ?_⟩
    rw [h2]
    simp [warmupsOf, List.filterMap_append]

/-! ### the events by kind -/

theorem cleansOf_append (a b : List BuildEvent) :
    cleansOf (a ++ b) = cleansOf a ++ cleansOf b := by
  simp [cleansOf, List.filterMap_append]

theorem warmupsOf_append (a b : List BuildEvent) :
    warmupsOf (a ++ b) = warmupsOf a ++ warmupsOf b := by
  simp [warmupsOf, List.filterMap_append]

/-- Events of commands and of the healthcheck hand-over hold no clean, no warmup and
no start. -/
theorem command_events_kinds (new : List BuildEvent)
    (h : ∀ e ∈ new, (∃ c, e = BuildEvent.command c) ∨ e = BuildEvent.healthcheck) :
    cleansOf new = [] ∧ warmupsOf new = [] ∧ new.count BuildEvent.start = 0 := by
  induction new with
  | nil => exact ⟨rfl, rfl, rfl⟩
  | cons e rest ih =>
    obtain ⟨h1, h2, h3⟩ := ih (fun e he => h e (List.mem_cons_of_mem _ he))
    rcases h e (List.mem_cons_self _ _) with ⟨c, hc⟩ | hc
    · subst hc
      exact ⟨h1, h2, by rw [List.count_cons_of_ne (by simp)]; exact h3⟩
    · subst hc
      exact ⟨h1, h2, by rw [List.count_cons_of_ne (by simp)]; exact h3⟩

/-- Events of warmups hold no clean, no command, no start and no healthcheck
hand-over. -/
theorem warmup_events_kinds (new : List BuildEvent)
    (h : ∀ e ∈ new, ∃ u, e = BuildEvent.warmup u) :
    cleansOf new = [] ∧ commandsOf new = [] ∧ new.count BuildEvent.start = 0
      ∧ new.count BuildEvent.healthcheck = 0 := by
  induction new with
  | nil => exact ⟨rfl, rfl, rfl, rfl⟩
  | cons e rest ih =>
    obtain ⟨h1, h2, h3, h4⟩ := ih (fun e he => h e (List.mem_cons_of_mem _ he))
    obtain ⟨u, hu⟩ := h e (List.mem_cons_self _ _)
    subst hu
    exact ⟨h1, h2, by rw [List.count_cons_of_ne (by simp)]; exact h3,
      by rw [List.count_cons_of_ne (by simp)]; exact h4⟩

/-! ### `failBuild` and `handoff` -/

theorem failBuild_events (err : BuildError) (trace : String) (st : ExecState) :
    (failBuild err trace st).events
      = st.events ++ [BuildEvent.clean SessionStatusStartFailed] := rfl

theorem failBuild_killReason_set (err : BuildError) (trace : String) (st : ExecState)
    (h : st.session.killReason ≠ KillReasonNone) :
    (failBuild err trace st).session.killReason = st.session.killReason := by
  unfold failBuild abortHandler
  by_cases he : err = BuildError.ErrWrongSessionState
  · simp [he, h, Session.GetKillReason, Session.LogTrace, Session.LogError,
      Session.SetKillReason]
  · simp [he, h, Session.GetKillReason, Session.LogError, Session.SetKillReason]

theorem failBuild_killReason_wrong_state (trace : String) (st : ExecState)
    (h : st.session.killReason = KillReasonNone) :
    (failBuild BuildError.ErrWrongSessionState trace st).session.killReason
      = KillReasonStopped := by
  have hne : ¬ KillReasonStopped = KillReasonNone := by decide
  unfold failBuild abortHandler
  simp [h, hne, Session.GetKillReason, Session.LogError, Session.SetKillReason]

theorem failBuild_killReason_other (err : BuildError) (trace : String) (st : ExecState)
    (he : err ≠ BuildError.ErrWrongSessionState)
    (h : st.session.killReason = KillReasonNone) :
    (failBuild err trace st).session.killReason = KillReasonBuildFailed := by
  unfold failBuild abortHandler
  simp [he, h, Session.GetKillReason, Session.LogError, Session.SetKillReason]

theorem handoff_events (conf : ApplicationConfiguration) (hs : Bool)
    (status : SessionStatus) (st : ExecState) :
    (handoff conf hs status st).events
      = st.events ++
        (if conf.Healthcheck = {} then
          (if status ≠ SessionStatusStarted then [BuildEvent.start] else [])
        else (if hs = true then [] else [BuildEvent.healthcheck])) := by
  unfold handoff
  by_cases hc : conf.Healthcheck = {}
  · by_cases hst : status = SessionStatusStarted
    · simp [hc, hst, Session.SetStatus]
    · simp [hc, hst, Session.SetStatus]
  · cases hs <;> simp [hc]

/-! ### the calls made by `buildSession` -/

theorem buildCommands_events (w : SessionBuildWorker) (run : BuildRun) (session : Session) :
    (∃ new, (buildCommands w run session).state.events = BuildEvent.filesystem :: new
      ∧ ∀ e ∈ new, (∃ c, e = BuildEvent.command c) ∨ e = BuildEvent.healthcheck)
    ∧ (buildCommands w run session).state.session.killReason = session.killReason := by
  obtain ⟨⟨new, h1, h2⟩, h3⟩ := loop_events session.GetConfiguration
    (commandSteps run session) false (buildStart w run session)
  exact ⟨⟨new, h1, h2⟩, h3⟩

theorem buildWarmups_events (w : SessionBuildWorker) (run : BuildRun) (session : Session) :
    (∃ new, (buildWarmups w run session).state.events
        = (buildCommands w run session).state.events ++ new
      ∧ ∀ e ∈ new, ∃ u, e = BuildEvent.warmup u)
    ∧ (buildWarmups w run session).state.session.killReason = session.killReason := by
  have hk := (buildCommands_events w run session).2
  unfold buildWarmups
  split
  · obtain ⟨⟨new, h1, h2⟩, h3⟩ := warmupsLoop_events session.GetConfiguration.Warmup
      (warmupSteps run session) (buildCommands w run session).state
    exact ⟨⟨new, h1, h2⟩, by rw [← hk]; exact h3⟩
  · exact ⟨⟨[], by simp, by simp⟩, hk⟩

/-- The outcome of `execCommands` when the first command that is not tolerated fails. -/
theorem buildCommands_fatal (w : SessionBuildWorker) (run : BuildRun) (session : Session)
    (pre post : List (Command × CommandRun)) (c : Command) (r : CommandRun)
    (message : String)
    (hsteps : commandSteps run session = pre ++ (c, r) :: post)
    (hpre : ∀ p ∈ pre, p.2.Live ∧ Tolerated p)
    (hl : r.Live) (he : r.err = some message) (hc : c.ContinueOnError = false) :
    (buildCommands w run session).err = some (BuildError.other message)
      ∧ ∃ before, (buildCommands w run session).state.events
          = before ++ [BuildEvent.command c]
        ∧ commandsOf before = pre.map Prod.fst
        ∧ cleansOf before = [] ∧ warmupsOf before = []
        ∧ before.count BuildEvent.start = 0 := by
  obtain ⟨h1, h2⟩ := loop_tolerated session.GetConfiguration pre false
    (buildStart w run session) hpre
  obtain ⟨⟨new, h3, h4⟩, _⟩ := loop_events session.GetConfiguration pre false
    (buildStart w run session)
  obtain ⟨h5, h6, h7⟩ := command_events_kinds new h4
  unfold buildCommands execCommands
  rw [hsteps, loop_append session.GetConfiguration pre ((c, r) :: post) false _ h1,
    loop_fatal session.GetConfiguration c r post _ _ message hl he hc]
  refine ⟨rfl, _, rfl, ?_, ?_, ?_, ?_⟩
  · rw [h2]; rfl
  · rw [h3, cleansOf_append, h5]; rfl
  · rw [h3, warmupsOf_append, h6]; rfl
  · rw [h3, List.count_append, h7]; rfl

theorem aborted_killReason (w : SessionBuildWorker) (run : BuildRun) (session : Session)
    (err : BuildError) (h : AbortedWith w run session err) :
    ∃ trace st, buildSession w run session = failBuild err trace st
      ∧ st.session.killReason = session.killReason
      ∧ cleansOf st.events = [] ∧ st.events.count BuildEvent.start = 0 := by
  obtain ⟨hfs, h⟩ := h
  obtain ⟨⟨new, h1, h2⟩, hk⟩ := buildCommands_events w run session
  obtain ⟨h3, _, h4⟩ := command_events_kinds new h2
  have hc1 : cleansOf (buildCommands w run session).state.events = [] := by
    rw [h1]
    show cleansOf ([BuildEvent.filesystem] ++ new) = []
    rw [cleansOf_append, h3]; rfl
  have hc2 : (buildCommands w run session).state.events.count BuildEvent.start = 0 := by
    rw [h1, List.count_cons_of_ne (by simp)]; exact h4
  rcases h with h | ⟨hc, h⟩
  · exact ⟨_, _, buildSession_commands_error w run session err hfs h, hk, hc1, hc2⟩
  · obtain ⟨⟨new', h5, h6⟩, hk'⟩ := buildWarmups_events w run session
    obtain ⟨h7, _, h8, _⟩ := warmup_events_kinds new' h6
    refine ⟨_, _, buildSession_warmups_error w run session err hfs hc h, hk', ?_, ?_⟩
    · rw [h5, cleansOf_append, hc1, h7]; rfl
    · rw [h5, List.count_append, hc2, h8]

theorem commandRun_cases (r : CommandRun) :
    r.ctxDone = true
    ∨ (r.ctxDone = false
      ∧ r.status ≠ SessionStatusStarting ∧ r.status ≠ SessionStatusStarted)
    ∨ r.Live := by
  unfold CommandRun.Live
  by_cases h1 : r.ctxDone = true
  · exact Or.inl h1
  · have h1 : r.ctxDone = false := by simpa using h1
    by_cases h2 : r.status = SessionStatusStarting
    · exact Or.inr (Or.inr ⟨h1, Or.inl h2⟩)
    · by_cases h3 : r.status = SessionStatusStarted
      · exact Or.inr (Or.inr ⟨h1, Or.inr h3⟩)
      · exact Or.inr (Or.inl ⟨h1, h2, h3⟩)

/-- A call of the loop of `execCommands` that returns no error has run every step with
a live context and a permitted status, and no step failed fatally. -/
theorem loop_no_error_live (conf : ApplicationConfiguration)
    (steps : List (Command × CommandRun)) :
    ∀ (hs : Bool) (st : ExecState), (execCommandsLoop conf steps hs st).err = none →
      ∀ p ∈ steps, p.2.Live ∧ Tolerated p := by
  induction steps with
  | nil => intro hs st _ p hp; cases hp
  | cons head rest ih =>
    obtain ⟨c, r⟩ := head
    intro hs st h
    rcases commandRun_cases r with hctx | ⟨hctx, hstatus⟩ | hl
    · rw [loop_canceled conf c r rest hs st hctx] at h; cases h
    · rw [loop_wrong_state conf c r rest hs st hctx hstatus] at h; cases h
    · cases he : r.err with
      | some message =>
        cases hc : c.ContinueOnError with
        | false => rw [loop_fatal conf c r rest hs st message hl he hc] at h; cases h
        | true =>
          rw [loop_tolerated_failure conf c r rest hs st message hl he hc] at h
          intro p hp
          rcases List.mem_cons.1 hp with rfl | hp
          · exact ⟨hl, fun _ => hc⟩
          · exact ih _ _ h p hp
      | none =>
        rw [loop_success conf c r rest hs st hl he] at h
        intro p hp
        rcases List.mem_cons.1 hp with rfl | hp
        · exact ⟨hl, fun hne => absurd he hne⟩
        · split at h
          · exact ih _ _ h p hp
          · exact ih _ _ h p hp

/-- The number of `HealthcheckSession` requests of the loop of `execCommands`: one when
the flag `healthcheckingStarted` goes from false to true, none otherwise; the flag is
never reset, and stays as it is when no healthcheck is configured or no step starts
healthchecking. -/
theorem loop_healthchecks (conf : ApplicationConfiguration)
    (steps : List (Command × CommandRun)) :
    ∀ (hs : Bool) (st : ExecState),
      ((execCommandsLoop conf steps hs st).state.events.count BuildEvent.healthcheck
          + (if hs = true then 1 else 0)
        = st.events.count BuildEvent.healthcheck
          + (if (execCommandsLoop conf steps hs st).healthcheckingStarted = true
              then 1 else 0))
      ∧ (hs = true → (execCommandsLoop conf steps hs st).healthcheckingStarted = true)
      ∧ (conf.Healthcheck = {} →
          (execCommandsLoop conf steps hs st).healthcheckingStarted = hs)
      ∧ ((∀ p ∈ steps, ¬ StartsHealthcheck p) →
          (execCommandsLoop conf steps hs st).healthcheckingStarted = hs) := by
  induction steps with
  | nil => intro hs st; exact ⟨rfl, fun h => h, fun _ => rfl, fun _ => rfl⟩
  | cons head rest ih =>
    obtain ⟨c, r⟩ := head
    intro hs st
    rcases commandRun_cases r with hctx | ⟨hctx, hstatus⟩ | hl
    · rw [loop_canceled conf c r rest hs st hctx]
      exact ⟨rfl, fun h => h, fun _ => rfl, fun _ => rfl⟩
    · rw [loop_wrong_state conf c r rest hs st hctx hstatus]
      exact ⟨rfl, fun h => h, fun _ => rfl, fun _ => rfl⟩
    · cases he : r.err with
      | some message =>
        cases hc : c.ContinueOnError with
        | false =>
          rw [loop_fatal conf c r rest hs st message hl he hc]
          refine ⟨?_, fun h => h, fun _ => rfl, fun _ => rfl⟩
          simp [List.count_append]
        | true =>
          rw [loop_tolerated_failure conf c r rest hs st message hl he hc]
          obtain ⟨h1, h2, h3, h4⟩ := ih hs
            { st with
              session := (st.session.SetStatus r.status).LogError message
              events := st.events ++ [BuildEvent.command c] }
          refine ⟨?_, h2, h3, fun h => h4 (fun p hp => h p (List.mem_cons_of_mem _ hp))⟩
          rw [h1]; simp [List.count_append]
      | none =>
        rw [loop_success conf c r rest hs st hl he]
        split
        · rename_i hcond
          have hcond : c.StartHealthchecking = true ∧ hs = false
              ∧ conf.Healthcheck ≠ {} := by
            simpa [and_assoc] using hcond
          obtain ⟨hflag, hhs, hconf⟩ := hcond
          obtain ⟨h1, h2, _, _⟩ := ih true
            { session := st.session.SetStatus r.status
              sessionStorage := st.sessionStorage.Update (st.session.SetStatus r.status)
              events := st.events ++ [BuildEvent.command c] ++ [BuildEvent.healthcheck] }
          have h2 := h2 rfl
          refine ⟨?_, fun _ => h2, fun h => absurd h hconf,
            fun h => absurd ⟨hflag, he⟩ (h (c, r) (List.mem_cons_self _ _))⟩
          rw [h2] at h1 ⊢
          rw [hhs]
          simp [List.count_append] at h1 ⊢
          omega
        · obtain ⟨h1, h2, h3, h4⟩ := ih hs
            { session := st.session.SetStatus r.status
              sessionStorage := st.sessionStorage.Update (st.session.SetStatus r.status)
              events := st.events ++ [BuildEvent.command c] }
          refine ⟨?_, h2, h3, fun h => h4 (fun p hp => h p (List.mem_cons_of_mem _ hp))⟩
          rw [h1]; simp [List.count_append]

/-- The events of a completed build: the filesystem request, the events of the
commands, the events of the warmups and the events of the hand-off. -/
theorem completed_events (w : SessionBuildWorker) (run : BuildRun) (session : Session)
    (h : Completed w run session) :
    ∃ cmds warms, (buildCommands w run session).state.events = BuildEvent.filesystem :: cmds
      ∧ (∀ e ∈ cmds, (∃ c, e = BuildEvent.command c) ∨ e = BuildEvent.healthcheck)
      ∧ (∀ e ∈ warms, ∃ u, e = BuildEvent.warmup u)
      ∧ (buildWarmups w run session).state.events = BuildEvent.filesystem :: cmds ++ warms
      ∧ (buildSession w run session).events
        = BuildEvent.filesystem :: cmds ++ warms ++
          (if session.GetConfiguration.Healthcheck = {} then
            (if run.statusAtHandoff ≠ SessionStatusStarted then [BuildEvent.start] else [])
          else (if (buildCommands w run session).healthcheckingStarted = true then []
            else [BuildEvent.healthcheck])) := by
  obtain ⟨hfs, hc, hw⟩ := h
  obtain ⟨⟨cmds, h1, h2⟩, _⟩ := buildCommands_events w run session
  obtain ⟨⟨warms, h3, h4⟩, _⟩ := buildWarmups_events w run session
  refine ⟨cmds, warms, h1, h2, h4, by rw [h3, h1], ?_⟩
  rw [buildSession_completed w run session hfs hc hw, handoff_events, h3, h1]

/-- A call of the loop of `execWarmups` that returns no error has run every step with a
live context and a permitted status. -/
theorem warmupsLoop_no_error_live (warmups : Warmups)
    (steps : List (Warmup × WarmupRun)) :
    ∀ (st : ExecState), (execWarmupsLoop warmups steps st).err = none →
      ∀ p ∈ steps, p.2.Live := by
  induction steps with
  | nil => intro st _ p hp; cases hp
  | cons head rest ih =>
    obtain ⟨u, r⟩ := head
    intro st h
    rcases warmupRun_cases r with hctx | ⟨hctx, hstatus⟩ | hl
    · rw [warmupsLoop_canceled warmups u r rest st hctx] at h; cases h
    · rw [warmupsLoop_wrong_state warmups u r rest st hctx hstatus] at h; cases h
    · rw [warmupsLoop_live_step warmups u r rest st hl] at h
      intro p hp
      rcases List.mem_cons.1 hp with rfl | hp
      · exact hl
      · exact ih _ h p hp

/-- A completed build has run every warmup of the configuration, in order. -/
theorem completed_warmups (w : SessionBuildWorker) (run : BuildRun) (session : Session)
    (h : Completed w run session) :
    warmupsOf (buildWarmups w run session).state.events
      = (warmupSteps run session).map Prod.fst := by
  obtain ⟨_, _, hw⟩ := h
  obtain ⟨⟨cmds, h1, h2⟩, _⟩ := buildCommands_events w run session
  have h3 : warmupsOf (buildCommands w run session).state.events = [] := by
    rw [h1]
    show warmupsOf ([BuildEvent.filesystem] ++ cmds) = []
    rw [warmupsOf_append, (command_events_kinds cmds h2).2.1]; rfl
  unfold buildWarmups at hw ⊢
  by_cases hlen : session.GetConfiguration.Warmup.URLs.length > 0
  · rw [if_pos hlen] at hw ⊢
    have hlive := warmupsLoop_no_error_live session.GetConfiguration.Warmup
      (warmupSteps run session) (buildCommands w run session).state hw
    have h4 := (warmupsLoop_live session.GetConfiguration.Warmup
      (warmupSteps run session) (buildCommands w run session).state hlive).2
    rw [h3] at h4
    exact h4
  · rw [if_neg hlen]
    have hnil : session.GetConfiguration.Warmup.URLs = [] := by
      cases hl : session.GetConfiguration.Warmup.URLs with
      | nil => rfl
      | cons a l => rw [hl] at hlen; simp at hlen
    show warmupsOf (buildCommands w run session).state.events = _
    rw [h3]
    unfold warmupSteps
    rw [hnil]
    rfl

/-- The flag `healthcheckingStarted` returned to `buildSession` tells whether
`execCommands` requested a healthcheck. -/
theorem buildCommands_healthchecks (w : SessionBuildWorker) (run : BuildRun)
    (session : Session) :
    ((buildCommands w run session).state.events.count BuildEvent.healthcheck
        = if (buildCommands w run session).healthcheckingStarted = true then 1 else 0)
    ∧ (session.GetConfiguration.Healthcheck = {} →
        (buildCommands w run session).healthcheckingStarted = false)
    ∧ ((∀ p ∈ commandSteps run session, ¬ StartsHealthcheck p) →
        (buildCommands w run session).healthcheckingStarted = false) := by
  obtain ⟨h1, _, h3, h4⟩ := loop_healthchecks session.GetConfiguration
    (commandSteps run session) false (buildStart w run session)
  refine ⟨?_, h3, h4⟩
  have h1 : (buildCommands w run session).state.events.count BuildEvent.healthcheck + 0
      = 0 + (if (buildCommands w run session).healthcheckingStarted = true then 1 else 0) :=
    h1
  omega

/-- The events of `execCommands` up to the first successful command flagged
`StartHealthchecking`, when a healthcheck is configured and the commands complete. -/
theorem buildCommands_first_healthcheck (w : SessionBuildWorker) (run : BuildRun)
    (session : Session) (pre post : List (Command × CommandRun)) (c : Command)
    (r : CommandRun)
    (hconf : session.GetConfiguration.Healthcheck ≠ {})
    (herr : (buildCommands w run session).err = none)
    (hsteps : commandSteps run session = pre ++ (c, r) :: post)
    (hpre : ∀ p ∈ pre, ¬ StartsHealthcheck p)
    (hstart : StartsHealthcheck (c, r)) :
    ∃ before after, (buildCommands w run session).state.events
        = before ++ [BuildEvent.command c, BuildEvent.healthcheck] ++ after
      ∧ commandsOf before = pre.map Prod.fst
      ∧ before.count BuildEvent.healthcheck = 0 := by
  have hlive := loop_no_error_live session.GetConfiguration (commandSteps run session)
    false (buildStart w run session) herr
  rw [hsteps] at hlive
  have hprelive : ∀ p ∈ pre, p.2.Live ∧ Tolerated p :=
    fun p hp => hlive p (List.mem_append_left _ hp)
  have hl : r.Live := (hlive (c, r) (List.mem_append_right _ (List.mem_cons_self _ _))).1
  obtain ⟨h1, h2⟩ := loop_tolerated session.GetConfiguration pre false
    (buildStart w run session) hprelive
  obtain ⟨h3, _, _, h4⟩ := loop_healthchecks session.GetConfiguration pre false
    (buildStart w run session)
  have h4 := h4 hpre
  rw [h4] at h3
  have h3 : (execCommandsLoop session.GetConfiguration pre false
      (buildStart w run session)).state.events.count BuildEvent.healthcheck + 0 = 0 + 0 := h3
  obtain ⟨hflag, he⟩ := hstart
  have hflag : c.StartHealthchecking = true := hflag
  have he : r.err = none := he
  have hcond : (c.StartHealthchecking && !false
      && decide (session.GetConfiguration.Healthcheck ≠ {})) = true := by
    simp [hflag, hconf]
  obtain ⟨⟨after, h5, _⟩, _⟩ := loop_events session.GetConfiguration post true
    { session := (execCommandsLoop session.GetConfiguration pre false
          (buildStart w run session)).state.session.SetStatus r.status
      sessionStorage := (execCommandsLoop session.GetConfiguration pre false
          (buildStart w run session)).state.sessionStorage.Update
            ((execCommandsLoop session.GetConfiguration pre false
              (buildStart w run session)).state.session.SetStatus r.status)
      events := (execCommandsLoop session.GetConfiguration pre false
          (buildStart w run session)).state.events ++ [BuildEvent.command c]
            ++ [BuildEvent.healthcheck] }
  refine ⟨(execCommandsLoop session.GetConfiguration pre false
      (buildStart w run session)).state.events, after, ?_, ?_, by omega⟩
  · unfold buildCommands execCommands
    rw [hsteps, loop_append session.GetConfiguration pre ((c, r) :: post) false _ h1, h4,
      loop_success session.GetConfiguration c r post false _ hl he, if_pos hcond, h5]
    simp
  · rw [h2]; rfl

theorem handoff_killReason (conf : ApplicationConfiguration) (hs : Bool)
    (status : SessionStatus) (st : ExecState) :
    (handoff conf hs status st).session.killReason = st.session.killReason := by
  unfold handoff
  by_cases hconf : conf.Healthcheck = {}
  · simp only [if_pos hconf]
    rfl
  · simp only [if_neg hconf]
    cases hs <;> rfl

/-! ## C15: the order and the errors of `execCommands` -/

/-- C15: for every list of start commands and every pattern of outcomes, the commands
executed by `execCommands` are a prefix of the configured commands, in order; when the
first command that fails with `ContinueOnError` false is reached (the steps before it
being live and tolerated), its error is returned and the commands executed are exactly
those up to it; and while every step is live (context not done, status starting or
started) no error is returned exactly when every failing command has `ContinueOnError`
true, in which case every command has been executed. -/
theorem execCommands_order_and_errors (conf : ApplicationConfiguration) (steps : List (Command × CommandRun))
    (st : ExecState) :
    (∃ k, commandsOf (execCommands conf steps st).state.events
        = commandsOf st.events ++ (steps.take k).map Prod.fst)
    ∧ (∀ pre c r post message, steps = pre ++ (c, r) :: post →
        (∀ p ∈ pre, p.2.Live ∧ Tolerated p) →
        r.Live → r.err = some message → c.ContinueOnError = false →
        (execCommands conf steps st).err = some (BuildError.other message)
          ∧ commandsOf (execCommands conf steps st).state.events
            = commandsOf st.events ++ pre.map Prod.fst ++ [c])
    ∧ ((∀ p ∈ steps, p.2.Live) →
        ((execCommands conf steps st).err = none ↔ ∀ p ∈ steps, Tolerated p)
        ∧ ((execCommands conf steps st).err = none →
            commandsOf (execCommands conf steps st).state.events
              = commandsOf st.events ++ steps.map Prod.fst)) := by
  unfold execCommands
  refine ⟨loop_commands_initial conf steps false st, ?_, ?_⟩
  · intro pre c r post message hsteps hpre hl he hc
    obtain ⟨h1, h2⟩ := loop_tolerated conf pre false st hpre
    rw [hsteps, loop_append conf pre ((c, r) :: post) false st h1,
      loop_fatal conf c r post _ _ message hl he hc]
    exact ⟨rfl, by simp [commandsOf_append, commandsOf_command, commandsOf_nil, h2]⟩
  · intro hlive
    refine ⟨loop_no_error_iff conf steps false st hlive, ?_⟩
    intro herr
    have htol := (loop_no_error_iff conf steps false st hlive).mp herr
    exact (loop_tolerated conf steps false st (fun p hp => ⟨hlive p hp, htol p hp⟩)).2

/-- Witness of C15: the three commands of `buildApplication` when the second one
(`lintCommand`, tolerated) fails, and when the first one (`installCommand`) fails. -/
theorem execCommands_order_and_errors_witness :
    ((execCommands buildApplication.GetConfiguration
          (commandSteps lintFailsRun buildingSession) exampleExecState).err = none
        ∧ commandsOf (execCommands buildApplication.GetConfiguration
            (commandSteps lintFailsRun buildingSession) exampleExecState).state.events
          = [installCommand, lintCommand, serveCommand])
      ∧ ((execCommands buildApplication.GetConfiguration
          (commandSteps installFailsRun buildingSession) exampleExecState).err
            = some (BuildError.other "exit status 1")
        ∧ commandsOf (execCommands buildApplication.GetConfiguration
            (commandSteps installFailsRun buildingSession) exampleExecState).state.events
          = [installCommand]) :=
  ⟨⟨((execCommands_order_and_errors buildApplication.GetConfiguration
        (commandSteps lintFailsRun buildingSession) exampleExecState).2.2
          (by decide)).1.2 (by decide),
      ((execCommands_order_and_errors buildApplication.GetConfiguration
        (commandSteps lintFailsRun buildingSession) exampleExecState).2.2
          (by decide)).2
        (((execCommands_order_and_errors buildApplication.GetConfiguration
          (commandSteps lintFailsRun buildingSession) exampleExecState).2.2
            (by decide)).1.2 (by decide))⟩,
    (execCommands_order_and_errors buildApplication.GetConfiguration
      (commandSteps installFailsRun buildingSession) exampleExecState).2.1
        [] installCommand failedRun [(lintCommand, {}), (serveCommand, {})]
        "exit status 1" rfl (by decide) (by decide) rfl rfl⟩

/-! ## C16: a build that fails before the hand-off -/

/-- C16: when the filesystem worker returns an error, `buildSession` enqueues
`CleanSession` with `start_failed` once and nothing else, runs no command and no warmup,
and the kill reason is `build_failed`; when a start command fails with `ContinueOnError`
false, the events end with that command followed by one `CleanSession` with
`start_failed`, which is the only one, no `StartSession` is enqueued, no warmup runs,
a kill reason None becomes `build_failed` and another kill reason is kept. -/
theorem buildSession_failure_cleans_once (w : SessionBuildWorker) (run : BuildRun) (session : Session) :
    (∀ message, run.filesystem.Err = some message →
      (buildSession w run session).events
          = [BuildEvent.filesystem, BuildEvent.clean SessionStatusStartFailed]
        ∧ commandsOf (buildSession w run session).events = []
        ∧ warmupsOf (buildSession w run session).events = []
        ∧ (buildSession w run session).session.killReason = KillReasonBuildFailed)
    ∧ (run.filesystem.Err = none →
      ∀ pre c r post message, commandSteps run session = pre ++ (c, r) :: post →
        (∀ p ∈ pre, p.2.Live ∧ Tolerated p) →
        r.Live → r.err = some message → c.ContinueOnError = false →
        (∃ before, (buildSession w run session).events
            = before ++ [BuildEvent.command c, BuildEvent.clean SessionStatusStartFailed]
          ∧ commandsOf before = pre.map Prod.fst)
        ∧ cleansOf (buildSession w run session).events = [SessionStatusStartFailed]
        ∧ (buildSession w run session).events.count BuildEvent.start = 0
        ∧ warmupsOf (buildSession w run session).events = []
        ∧ (session.killReason = KillReasonNone →
            (buildSession w run session).session.killReason = KillReasonBuildFailed)
        ∧ (session.killReason ≠ KillReasonNone →
            (buildSession w run session).session.killReason = session.killReason)) := by
  refine ⟨?_, ?_⟩
  · intro message hfs
    rw [buildSession_filesystem_error w run session message hfs]
    exact ⟨rfl, rfl, rfl, rfl⟩
  · intro hfs pre c r post message hsteps hpre hl he hc
    obtain ⟨herr, before, hev, hcmd, hclean, hwarm, hstart⟩ :=
      buildCommands_fatal w run session pre post c r message hsteps hpre hl he hc
    have hk := (buildCommands_events w run session).2
    rw [buildSession_commands_error w run session _ hfs herr]
    refine ⟨⟨before, ?_, hcmd⟩, ?_, ?_, ?_, ?_, ?_⟩
    · rw [failBuild_events, hev]; simp
    · rw [failBuild_events, hev, cleansOf_append, cleansOf_append, hclean]; rfl
    · rw [failBuild_events, hev, List.count_append, List.count_append, hstart]; rfl
    · rw [failBuild_events, hev, warmupsOf_append, warmupsOf_append, hwarm]; rfl
    · intro hnone
      exact failBuild_killReason_other _ _ _ (by simp) (by rw [hk]; exact hnone)
    · intro hset
      rw [failBuild_killReason_set _ _ _ (by rw [hk]; exact hset), hk]

/-- Witness of C16: the build of `buildingSession` when the filesystem worker fails and
when `installCommand` fails. -/
theorem buildSession_failure_cleans_once_witness :
    ((buildSession emptyWorker filesystemFailsRun buildingSession).events
          = [BuildEvent.filesystem, BuildEvent.clean SessionStatusStartFailed]
        ∧ (buildSession emptyWorker filesystemFailsRun buildingSession).session.killReason
          = KillReasonBuildFailed)
      ∧ (cleansOf (buildSession emptyWorker installFailsRun buildingSession).events
          = [SessionStatusStartFailed]
        ∧ (buildSession emptyWorker installFailsRun buildingSession).events.count
            BuildEvent.start = 0
        ∧ (buildSession emptyWorker installFailsRun buildingSession).session.killReason
          = KillReasonBuildFailed) :=
  ⟨⟨((buildSession_failure_cleans_once emptyWorker filesystemFailsRun buildingSession).1
        "clone failed" rfl).1,
      ((buildSession_failure_cleans_once emptyWorker filesystemFailsRun buildingSession).1
        "clone failed" rfl).2.2.2⟩,
    ((buildSession_failure_cleans_once emptyWorker installFailsRun buildingSession).2 rfl
        [] installCommand failedRun [(lintCommand, {}), (serveCommand, {})]
        "exit status 1" rfl (by decide) (by decide) rfl rfl).2.1,
    ((buildSession_failure_cleans_once emptyWorker installFailsRun buildingSession).2 rfl
        [] installCommand failedRun [(lintCommand, {}), (serveCommand, {})]
        "exit status 1" rfl (by decide) (by decide) rfl rfl).2.2.1,
    ((buildSession_failure_cleans_once emptyWorker installFailsRun buildingSession).2 rfl
        [] installCommand failedRun [(lintCommand, {}), (serveCommand, {})]
        "exit status 1" rfl (by decide) (by decide) rfl rfl).2.2.2.2.1 rfl⟩

/-! ## C17: the kill reason of an aborted build -/

/-- C17 (amended): when `execCommands` or `execWarmups` returns an error, `buildSession`
enqueues `CleanSession` with `start_failed` once and no `StartSession`; a kill reason
that is set is kept; a kill reason None becomes Stopped when the error is
`ErrWrongSessionState` and `build_failed` for every other error.  A context that is done
when a command is about to run aborts the build with `context.Canceled`, a status outside
starting and started aborts it with `ErrWrongSessionState`. -/
theorem buildSession_abort_kill_reason (w : SessionBuildWorker) (run : BuildRun) (session : Session) :
    (∀ err, AbortedWith w run session err →
      cleansOf (buildSession w run session).events = [SessionStatusStartFailed]
        ∧ (buildSession w run session).events.count BuildEvent.start = 0
        ∧ (session.killReason ≠ KillReasonNone →
            (buildSession w run session).session.killReason = session.killReason)
        ∧ (session.killReason = KillReasonNone → err = BuildError.ErrWrongSessionState →
            (buildSession w run session).session.killReason = KillReasonStopped)
        ∧ (session.killReason = KillReasonNone → err ≠ BuildError.ErrWrongSessionState →
            (buildSession w run session).session.killReason = KillReasonBuildFailed))
    ∧ (run.filesystem.Err = none →
      ∀ pre c r post, commandSteps run session = pre ++ (c, r) :: post →
        (∀ p ∈ pre, p.2.Live ∧ Tolerated p) →
        (r.ctxDone = true → AbortedWith w run session BuildError.Canceled)
        ∧ (r.ctxDone = false →
            r.status ≠ SessionStatusStarting ∧ r.status ≠ SessionStatusStarted →
            AbortedWith w run session BuildError.ErrWrongSessionState))
    ∧ (∀ err trace st, st.session.killReason ≠ KillReasonNone →
        (failBuild err trace st).session.killReason = st.session.killReason) := by
  refine ⟨?_, ?_, fun err trace st h => failBuild_killReason_set err trace st h⟩
  · intro err h
    obtain ⟨trace, st, heq, hk, hclean, hstart⟩ := aborted_killReason w run session err h
    rw [heq]
    refine ⟨?_, ?_, ?_, ?_, ?_⟩
    · rw [failBuild_events, cleansOf_append, hclean]; rfl
    · rw [failBuild_events, List.count_append, hstart]; rfl
    · intro hset
      rw [failBuild_killReason_set _ _ _ (by rw [hk]; exact hset), hk]
    · intro hnone he
      rw [he]
      exact failBuild_killReason_wrong_state _ _ (by rw [hk]; exact hnone)
    · intro hnone he
      exact failBuild_killReason_other _ _ _ he (by rw [hk]; exact hnone)
  · intro hfs pre c r post hsteps hpre
    obtain ⟨h1, _⟩ := loop_tolerated session.GetConfiguration pre false
      (buildStart w run session) hpre
    refine ⟨?_, ?_⟩
    · intro hctx
      refine ⟨hfs, Or.inl ?_⟩
      unfold buildCommands execCommands
      rw [hsteps, loop_append session.GetConfiguration pre ((c, r) :: post) false _ h1,
        loop_canceled session.GetConfiguration c r post _ _ hctx]
    · intro hctx hstatus
      refine ⟨hfs, Or.inl ?_⟩
      unfold buildCommands execCommands
      rw [hsteps, loop_append session.GetConfiguration pre ((c, r) :: post) false _ h1,
        loop_wrong_state session.GetConfiguration c r post _ _ hctx hstatus]

/-- Witness of C17: the session of the build of `buildingSession` is found stopping when
the second command is about to run. -/
theorem buildSession_abort_kill_reason_witness :
    cleansOf (buildSession emptyWorker stoppingRun buildingSession).events
        = [SessionStatusStartFailed]
      ∧ (buildSession emptyWorker stoppingRun buildingSession).session.killReason
        = KillReasonStopped
      ∧ AbortedWith emptyWorker canceledRun buildingSession BuildError.Canceled :=
  ⟨((buildSession_abort_kill_reason emptyWorker stoppingRun buildingSession).1
      BuildError.ErrWrongSessionState (by decide)).1,
    ((buildSession_abort_kill_reason emptyWorker stoppingRun buildingSession).1
      BuildError.ErrWrongSessionState (by decide)).2.2.2.1 rfl rfl,
    ((buildSession_abort_kill_reason emptyWorker canceledRun buildingSession).2.1 rfl
      [(installCommand, {})] lintCommand { ctxDone := true } [(serveCommand, {})]
      rfl (by decide)).1 rfl⟩

/-- Counterexample to C17 as stated: the context of the build of `buildingSession`,
whose kill reason is None, is done when the second command is about to run;
`execCommands` returns `context.Canceled` and the kill reason becomes `build_failed`,
not Stopped. -/
theorem buildSession_canceled_counterexample :
    buildingSession.killReason = KillReasonNone
      ∧ (canceledRun.commands 1).ctxDone = true
      ∧ (buildCommands emptyWorker canceledRun buildingSession).err
        = some BuildError.Canceled
      ∧ (buildSession emptyWorker canceledRun buildingSession).session.killReason
        = KillReasonBuildFailed
      ∧ (buildSession emptyWorker canceledRun buildingSession).session.killReason
        ≠ KillReasonStopped := by
  decide

/-! ## C18: the hand-off of a completed build -/

/-- C18: for a build whose commands and warmups complete: without healthcheck in the
configuration no `HealthcheckSession` is enqueued and `StartSession` is enqueued once
when the status read at the hand-off is not started, and not otherwise; with a
healthcheck `HealthcheckSession` is enqueued exactly once and `StartSession` never,
the request follows immediately the first successful command flagged
`StartHealthchecking`, and is the last event when there is no such command; no
`CleanSession` is enqueued. -/
theorem buildSession_handoff (w : SessionBuildWorker) (run : BuildRun) (session : Session)
    (h : Completed w run session) :
    (session.GetConfiguration.Healthcheck = {} →
      (buildSession w run session).events.count BuildEvent.healthcheck = 0
        ∧ (buildSession w run session).events.count BuildEvent.start
          = if run.statusAtHandoff ≠ SessionStatusStarted then 1 else 0)
    ∧ (session.GetConfiguration.Healthcheck ≠ {} →
      (buildSession w run session).events.count BuildEvent.healthcheck = 1
        ∧ (buildSession w run session).events.count BuildEvent.start = 0
        ∧ (∀ pre c r post, commandSteps run session = pre ++ (c, r) :: post →
            (∀ p ∈ pre, ¬ StartsHealthcheck p) → StartsHealthcheck (c, r) →
            ∃ before after, (buildSession w run session).events
                = before ++ [BuildEvent.command c, BuildEvent.healthcheck] ++ after
              ∧ commandsOf before = pre.map Prod.fst
              ∧ before.count BuildEvent.healthcheck = 0)
        ∧ ((∀ p ∈ commandSteps run session, ¬ StartsHealthcheck p) →
            ∃ before, (buildSession w run session).events
                = before ++ [BuildEvent.healthcheck]
              ∧ commandsOf before = (commandSteps run session).map Prod.fst
              ∧ warmupsOf before = (warmupSteps run session).map Prod.fst))
    ∧ cleansOf (buildSession w run session).events = [] := by
  obtain ⟨cmds, warms, hcmds, hk1, hk2, hwev, hev⟩ := completed_events w run session h
  obtain ⟨hfs, hc, hw⟩ := h
  obtain ⟨hcl1, hwa1, hst1⟩ := command_events_kinds cmds hk1
  obtain ⟨hcl2, hco2, hst2, hhc2⟩ := warmup_events_kinds warms hk2
  obtain ⟨hcount, hnoconf, hnostart⟩ := buildCommands_healthchecks w run session
  rw [hcmds, List.count_cons_of_ne (by simp)] at hcount
  refine ⟨?_, ?_, ?_⟩
  · intro hconf
    rw [hnoconf hconf] at hcount
    have hcount : List.count BuildEvent.healthcheck cmds = 0 := by simpa using hcount
    rw [hev, if_pos hconf]
    refine ⟨?_, ?_⟩
    · rw [List.count_append, List.count_append, List.count_cons_of_ne (by simp), hcount,
        hhc2]
      by_cases hs : run.statusAtHandoff ≠ SessionStatusStarted
      · rw [if_pos hs]; rfl
      · rw [if_neg hs]; rfl
    · rw [List.count_append, List.count_append, List.count_cons_of_ne (by simp), hst1,
        hst2]
      by_cases hs : run.statusAtHandoff ≠ SessionStatusStarted
      · rw [if_pos hs, if_pos hs]; rfl
      · rw [if_neg hs, if_neg hs]; rfl
  · intro hconf
    refine ⟨?_, ?_, ?_, ?_⟩
    · rw [hev, if_neg hconf, List.count_append, List.count_append,
        List.count_cons_of_ne (by simp), hcount, hhc2]
      by_cases hs : (buildCommands w run session).healthcheckingStarted = true
      · rw [if_pos hs, if_pos hs]; rfl
      · rw [if_neg hs, if_neg hs]; rfl
    · rw [hev, if_neg hconf, List.count_append, List.count_append,
        List.count_cons_of_ne (by simp), hst1, hst2]
      by_cases hs : (buildCommands w run session).healthcheckingStarted = true
      · rw [if_pos hs]; rfl
      · rw [if_neg hs]; rfl
    · intro pre c r post hsteps hpre hstart
      obtain ⟨before, after, h1, h2, h3⟩ :=
        buildCommands_first_healthcheck w run session pre post c r hconf hc hsteps hpre
          hstart
      refine ⟨before, after ++ warms ++
          (if (buildCommands w run session).healthcheckingStarted = true then []
            else [BuildEvent.healthcheck]), ?_, h2, h3⟩
      rw [hev, if_neg hconf, ← hcmds, h1]
      simp
    · intro hno
      have hlive := loop_no_error_live session.GetConfiguration (commandSteps run session)
        false (buildStart w run session) hc
      have hall := (loop_tolerated session.GetConfiguration (commandSteps run session)
        false (buildStart w run session) hlive).2
      have hall : commandsOf (buildCommands w run session).state.events
          = (commandSteps run session).map Prod.fst := by
        rw [show (buildCommands w run session).state.events
          = (execCommandsLoop session.GetConfiguration (commandSteps run session) false
              (buildStart w run session)).state.events from rfl, hall]
        rfl
      refine ⟨BuildEvent.filesystem :: cmds ++ warms, ?_, ?_, ?_⟩
      · rw [hev, if_neg hconf, hnostart hno]; simp
      · rw [commandsOf_append, hco2, ← hcmds, hall]; simp
      · rw [← hwev]
        exact completed_warmups w run session ⟨hfs, hc, hw⟩
  · rw [hev, cleansOf_append, cleansOf_append]
    show cleansOf ([BuildEvent.filesystem] ++ cmds) ++ cleansOf warms ++ _ = []
    rw [cleansOf_append, hcl1, hcl2]
    split <;> split <;> rfl

/-- Witness of C18: the completed build of `buildingSession`, whose application has a
healthcheck and whose third command is flagged `StartHealthchecking`. -/
theorem buildSession_handoff_witness :
    (buildSession emptyWorker smoothRun buildingSession).events.count
        BuildEvent.healthcheck = 1
      ∧ (buildSession emptyWorker smoothRun buildingSession).events.count
        BuildEvent.start = 0
      ∧ ∃ before after, (buildSession emptyWorker smoothRun buildingSession).events
          = before ++ [BuildEvent.command serveCommand, BuildEvent.healthcheck] ++ after
        ∧ commandsOf before = [installCommand, lintCommand]
        ∧ before.count BuildEvent.healthcheck = 0 :=
  ⟨((buildSession_handoff emptyWorker smoothRun buildingSession (by decide)).2.1
      (by decide)).1,
    ((buildSession_handoff emptyWorker smoothRun buildingSession (by decide)).2.1
      (by decide)).2.1,
    ((buildSession_handoff emptyWorker smoothRun buildingSession (by decide)).2.1
      (by decide)).2.2.1 [(installCommand, {}), (lintCommand, {})] serveCommand {} []
        rfl (by decide) (by decide)⟩

/-! ## C19: warmups never fail the build -/

/-- C19: whatever the answers to the warmup requests, `execWarmups` returns no error and
runs every warmup when at each step the context is not done and the status is starting or
started; `buildSession` then completes, reaches the hand-off and enqueues no
`CleanSession`. -/
theorem execWarmups_never_fails (w : SessionBuildWorker) (run : BuildRun)
    (session : Session) (conf : ApplicationConfiguration)
    (steps : List (Warmup × WarmupRun)) (st : ExecState)
    (h : ∀ p ∈ steps, p.2.Live) :
    (execWarmups conf steps st).err = none
      ∧ warmupsOf (execWarmups conf steps st).state.events
        = warmupsOf st.events ++ steps.map Prod.fst
      ∧ (run.filesystem.Err = none → (buildCommands w run session).err = none →
          (∀ p ∈ warmupSteps run session, p.2.Live) →
          Completed w run session
            ∧ buildSession w run session
              = handoff session.GetConfiguration
                  (buildCommands w run session).healthcheckingStarted run.statusAtHandoff
                  (buildWarmups w run session).state
            ∧ cleansOf (buildSession w run session).events = []
            ∧ (buildSession w run session).session.killReason = session.killReason) := by
  refine ⟨(warmupsLoop_live conf.Warmup steps st h).1,
    (warmupsLoop_live conf.Warmup steps st h).2, ?_⟩
  intro hfs hc hlive
  have hw : (buildWarmups w run session).err = none := by
    unfold buildWarmups
    split
    · exact (warmupsLoop_live session.GetConfiguration.Warmup (warmupSteps run session)
        (buildCommands w run session).state hlive).1
    · rfl
  have hdone : Completed w run session := ⟨hfs, hc, hw⟩
  obtain ⟨cmds, warms, _, hk1, hk2, _, hev⟩ := completed_events w run session hdone
  refine ⟨hdone, buildSession_completed w run session hfs hc hw, ?_, ?_⟩
  · rw [hev, cleansOf_append, cleansOf_append]
    show cleansOf ([BuildEvent.filesystem] ++ cmds) ++ cleansOf warms ++ _ = []
    rw [cleansOf_append, (command_events_kinds cmds hk1).1,
      (warmup_events_kinds warms hk2).1]
    split <;> split <;> rfl
  · rw [buildSession_completed w run session hfs hc hw, handoff_killReason]
    exact (buildWarmups_events w run session).2

/-- Witness of C19: the build of `warmingSession`, whose warmup URL is answered with
status code 0 instead of 200 at every attempt. -/
theorem execWarmups_never_fails_witness :
    (execWarmups warmupApplication.GetConfiguration
        (warmupSteps smoothRun warmingSession)
        (buildCommands emptyWorker smoothRun warmingSession).state).err = none
      ∧ Completed emptyWorker smoothRun warmingSession
      ∧ cleansOf (buildSession emptyWorker smoothRun warmingSession).events = [] :=
  ⟨(execWarmups_never_fails emptyWorker smoothRun warmingSession
      warmupApplication.GetConfiguration (warmupSteps smoothRun warmingSession)
      (buildCommands emptyWorker smoothRun warmingSession).state (by decide)).1,
    ((execWarmups_never_fails emptyWorker smoothRun warmingSession
      warmupApplication.GetConfiguration (warmupSteps smoothRun warmingSession)
      (buildCommands emptyWorker smoothRun warmingSession).state (by decide)).2.2
        rfl (by decide) (by decide)).1,
    ((execWarmups_never_fails emptyWorker smoothRun warmingSession
      warmupApplication.GetConfiguration (warmupSteps smoothRun warmingSession)
      (buildCommands emptyWorker smoothRun warmingSession).state (by decide)).2.2
        rfl (by decide) (by decide)).2.2.1⟩

/-! ## The maps of the fetch worker -/

theorem lookup_mapSet_self {β : Type} (m : List (String × β)) (k : String) (x : β) :
    (mapSet m k x).lookup k = some x := by
  induction m with
  | nil => simp [mapSet, List.lookup]
  | cons head rest ih =>
    obtain ⟨k', x'⟩ := head
    unfold mapSet
    by_cases h : k' = k
    · simp [h, List.lookup]
    · have h' : (k == k') = false := by simpa using fun e => h e.symm
      simp only [if_neg h, List.lookup, h']
      exact ih

theorem lookup_mapSet_ne {β : Type} (m : List (String × β)) (k k' : String) (x : β)
    (h : k' ≠ k) : (mapSet m k x).lookup k' = m.lookup k' := by
  induction m with
  | nil =>
    have h' : (k' == k) = false := by simpa using h
    simp [mapSet, List.lookup, h']
  | cons head rest ih =>
    obtain ⟨k'', x''⟩ := head
    unfold mapSet
    by_cases h1 : k'' = k
    · subst h1
      have h' : (k' == k'') = false := by simpa using h
      simp [List.lookup, h']
    · simp only [if_neg h1, List.lookup]
      split
      · rfl
      · exact ih

/-- The map obtained from `m` by the assignments of `regs`, in order. -/
theorem lookup_foldl_mapSet (regs : List (String × String)) :
    ∀ (m : List (String × String)) (name : String),
      (regs.foldl (fun m p => mapSet m p.1 p.2) m).lookup name
        = match lastRegistered regs name with
          | some hash => some hash
          | none => m.lookup name := by
  induction regs using List.reverseRecOn with
  | nil => intro m name; simp [lastRegistered, List.lookup]
  | append_singleton regs p ih =>
    intro m name
    obtain ⟨k, x⟩ := p
    rw [List.foldl_append]
    simp only [List.foldl_cons, List.foldl_nil]
    unfold lastRegistered
    rw [List.reverse_append]
    simp only [List.reverse_cons, List.reverse_nil, List.nil_append, List.singleton_append,
      List.lookup]
    by_cases h : name = k
    · subst h
      simp [lookup_mapSet_self]
    · have h' : (name == k) = false := by simpa using h
      rw [lookup_mapSet_ne _ _ _ _ h, h']
      exact ih m name

theorem lastRegistered_append (xs ys : List (String × String)) (name : String) :
    lastRegistered (xs ++ ys) name
      = match lastRegistered ys name with
        | some hash => some hash
        | none => lastRegistered xs name := by
  induction ys using List.reverseRecOn with
  | nil => simp [lastRegistered, List.lookup]
  | append_singleton ys p ih =>
    obtain ⟨k, x⟩ := p
    unfold lastRegistered at ih ⊢
    rw [← List.append_assoc, List.reverse_append, List.reverse_append ys]
    simp only [List.reverse_cons, List.reverse_nil, List.nil_append, List.singleton_append,
      List.lookup]
    by_cases h : name = k
    · subst h; simp
    · have h' : (name == k) = false := by simpa using h
      rw [h']
      exact ih

/-- A name whose later registrations, if any, give the same hash. -/
theorem lastRegistered_agree (regs : List (String × String)) (name hash : String)
    (h : ∀ p ∈ regs, p.1 = name → p.2 = hash) :
    lastRegistered regs name = none ∨ lastRegistered regs name = some hash := by
  induction regs using List.reverseRecOn with
  | nil => left; rfl
  | append_singleton regs p ih =>
    obtain ⟨k, x⟩ := p
    rw [lastRegistered_append]
    by_cases hk : name = k
    · right
      have hx : x = hash := h (k, x) (by simp) hk.symm
      subst hk
      simp [lastRegistered, List.lookup, hx]
    · have h' : (name == k) = false := by simpa using hk
      have hlast : lastRegistered [(k, x)] name = none := by
        simp [lastRegistered, List.lookup, h']
      rw [hlast]
      exact ih (fun p hp => h p (List.mem_append_left _ hp))

/-- A registration is the last one of its name when the later registrations of the
name give the same hash. -/
theorem lastRegistered_of_mem (pre cur later : List (String × String))
    (name hash : String) (hmem : (name, hash) ∈ cur)
    (hcur : ∀ p ∈ cur, p.1 = name → p.2 = hash)
    (hlater : ∀ p ∈ later, p.1 = name → p.2 = hash) :
    lastRegistered (pre ++ cur ++ later) name = some hash := by
  have hc : lastRegistered (pre ++ cur) name = some hash := by
    rw [lastRegistered_append]
    have : lastRegistered cur name = some hash := by
      rcases lastRegistered_agree cur name hash hcur with h | h
      · exfalso
        unfold lastRegistered at h
        rw [List.lookup_eq_none_iff] at h
        exact absurd (h (name, hash) (List.mem_reverse.2 hmem)) (by simp)
      · exact h
    rw [this]
  rw [lastRegistered_append]
  rcases lastRegistered_agree later name hash hlater with h | h
  · rw [h]; exact hc
  · rw [h]

theorem hasPrefix_append (p b : String) : HasPrefix (p ++ b) p = true := by
  unfold HasPrefix
  rw [String.data_append]
  simp [List.isPrefixOf_iff_prefix]

theorem trimLeading_append (p b : String) : trimLeading (p ++ b) p = b := by
  unfold trimLeading
  rw [String.data_append, List.drop_left]

theorem hasPrefix_split (s p : String) (h : HasPrefix s p = true) :
    s = p ++ trimLeading s p := by
  unfold HasPrefix at h
  unfold trimLeading
  rw [List.isPrefixOf_iff_prefix] at h
  obtain ⟨t, ht⟩ := h
  apply String.ext
  rw [String.data_append, ← ht, List.drop_left]

theorem registerHash_objects (watch : List String) (st : FetchState)
    (refName hash : String) :
    (registerHash watch st refName hash).objectsToHashMap
      = mapSet st.objectsToHashMap refName hash := by
  unfold registerHash
  dsimp only
  split
  · split <;> rfl
  · rfl

theorem registerHash_branches (watch : List String) (st : FetchState)
    (refName hash : String) :
    (registerHash watch st refName hash).appBranches = st.appBranches := by
  unfold registerHash
  dsimp only
  split
  · split <;> rfl
  · rfl

theorem checkObjectExists_objects (st : FetchState) (hash : String) :
    (checkObjectExists st hash).objectsToHashMap = st.objectsToHashMap
      ∧ (checkObjectExists st hash).appBranches = st.appBranches := by
  unfold checkObjectExists
  split <;> exact ⟨rfl, rfl⟩

/-- The effect of the callback of `branches.ForEach` on `objectsToHashMap`. -/
theorem branchCallback_objects (repo : Repository) (watch : List String)
    (st : FetchState) (ref : Reference) :
    (branchCallback repo watch st ref).1.objectsToHashMap
      = (branchRegistrations ref).foldl (fun m p => mapSet m p.1 p.2)
          st.objectsToHashMap := by
  unfold branchCallback branchRegistrations
  by_cases hp : HasPrefix ref.Name refPrefix = true
  · simp only [hp, Bool.not_true, Bool.false_eq_true, if_false, if_true, List.foldl_cons,
      List.foldl_nil]
    cases repo.CommitObject ref.Hash <;>
      simp only [(checkObjectExists_objects _ _).1, registerHash_objects]
  · have hp' : HasPrefix ref.Name refPrefix = false := by simpa using hp
    simp [hp']

/-- The callback of `branches.ForEach` returns an error only when the commit of a
reference under `refs/heads/` cannot be read. -/
theorem branchCallback_ok (repo : Repository) (watch : List String)
    (st : FetchState) (ref : Reference)
    (h : HasPrefix ref.Name refPrefix = true → repo.CommitObject ref.Hash ≠ none) :
    (branchCallback repo watch st ref).2 = false := by
  unfold branchCallback
  by_cases hp : HasPrefix ref.Name refPrefix = true
  · simp only [hp, Bool.not_true, Bool.false_eq_true, if_false]
    cases hc : repo.CommitObject ref.Hash with
    | none => exact absurd hc (h hp)
    | some commit => rfl
  · have hp' : HasPrefix ref.Name refPrefix = false := by simpa using hp
    simp [hp']

/-- The effect of the callback of `branches.ForEach` on `appBranches`. -/
theorem branchCallback_branches (repo : Repository) (watch : List String)
    (st : FetchState) (ref : Reference) :
    (branchCallback repo watch st ref).1.appBranches
      = if HasPrefix ref.Name refPrefix = true then
          match repo.CommitObject ref.Hash with
          | some commit =>
            mapSet st.appBranches (trimLeading ref.Name refPrefix)
              { Name := trimLeading ref.Name refPrefix
                Hash := ref.Hash
                Author := commit.Author
                Message := commit.Message }
          | none => st.appBranches
        else st.appBranches := by
  unfold branchCallback
  by_cases hp : HasPrefix ref.Name refPrefix = true
  · simp only [hp, Bool.not_true, Bool.false_eq_true, if_false, if_true]
    cases repo.CommitObject ref.Hash <;>
      simp only [(checkObjectExists_objects _ _).2, registerHash_branches]
  · have hp' : HasPrefix ref.Name refPrefix = false := by simpa using hp
    simp [hp']

/-- When every commit can be read, `branches.ForEach` visits every reference. -/
theorem forEachBranch_readable (repo : Repository) (watch : List String)
    (branches : List Reference) :
    ∀ (st : FetchState),
      (∀ ref ∈ branches,
        HasPrefix ref.Name refPrefix = true → repo.CommitObject ref.Hash ≠ none) →
      forEachBranch repo watch branches st
        = branches.foldl (fun st ref => (branchCallback repo watch st ref).1) st := by
  induction branches with
  | nil => intro st _; rfl
  | cons ref rest ih =>
    intro st h
    unfold forEachBranch
    simp only [branchCallback_ok repo watch st ref (h ref (List.mem_cons_self _ _)),
      Bool.false_eq_true, if_false, List.foldl_cons]
    exact ih _ (fun r hr => h r (List.mem_cons_of_mem _ hr))

theorem foldl_branches_objects (repo : Repository) (watch : List String)
    (branches : List Reference) :
    ∀ (st : FetchState),
      (branches.foldl (fun st ref => (branchCallback repo watch st ref).1) st).objectsToHashMap
        = (branches.flatMap branchRegistrations).foldl (fun m p => mapSet m p.1 p.2)
            st.objectsToHashMap := by
  induction branches with
  | nil => intro st; rfl
  | cons ref rest ih =>
    intro st
    rw [List.foldl_cons, ih, branchCallback_objects, List.flatMap_cons, List.foldl_append]

theorem tagCallback_objects (watch : List String) (st : FetchState) (ref : Reference) :
    (tagCallback watch st ref).objectsToHashMap
        = (tagRegistrations ref).foldl (fun m p => mapSet m p.1 p.2) st.objectsToHashMap
      ∧ (tagCallback watch st ref).appBranches = st.appBranches := by
  unfold tagCallback tagRegistrations
  by_cases hp : HasPrefix ref.Name tagPrefix = true
  · simp only [hp, Bool.not_true, Bool.false_eq_true, if_false, if_true, List.foldl_cons,
      List.foldl_nil]
    simp only [(checkObjectExists_objects _ _).1, (checkObjectExists_objects _ _).2,
      registerHash_objects, registerHash_branches, and_self]
  · have hp' : HasPrefix ref.Name tagPrefix = false := by simpa using hp
    simp [hp']

theorem foldl_tags_objects (watch : List String) (tags : List Reference) :
    ∀ (st : FetchState),
      (tags.foldl (tagCallback watch) st).objectsToHashMap
          = (tags.flatMap tagRegistrations).foldl (fun m p => mapSet m p.1 p.2)
              st.objectsToHashMap
        ∧ (tags.foldl (tagCallback watch) st).appBranches = st.appBranches := by
  induction tags with
  | nil => intro st; exact ⟨rfl, rfl⟩
  | cons ref rest ih =>
    intro st
    rw [List.foldl_cons, (ih _).1, (ih _).2, (tagCallback_objects watch st ref).1,
      (tagCallback_objects watch st ref).2, List.flatMap_cons, List.foldl_append]
    exact ⟨rfl, rfl⟩

theorem logCallback_objects (watch : List String) (st : FetchState) (commit : Commit) :
    (logCallback watch st commit).objectsToHashMap
        = mapSet st.objectsToHashMap commit.Hash commit.Hash
      ∧ (logCallback watch st commit).appBranches = st.appBranches := by
  unfold logCallback
  exact ⟨registerHash_objects _ _ _ _, registerHash_branches _ _ _ _⟩

theorem foldl_logs_objects (watch : List String) (logs : List Commit) :
    ∀ (st : FetchState),
      (logs.foldl (logCallback watch) st).objectsToHashMap
          = (logs.map (fun commit => (commit.Hash, commit.Hash))).foldl
              (fun m p => mapSet m p.1 p.2) st.objectsToHashMap
        ∧ (logs.foldl (logCallback watch) st).appBranches = st.appBranches := by
  induction logs with
  | nil => intro st; exact ⟨rfl, rfl⟩
  | cons commit rest ih =>
    intro st
    rw [List.foldl_cons, (ih _).1, (ih _).2, (logCallback_objects watch st commit).1,
      (logCallback_objects watch st commit).2]
    exact ⟨rfl, rfl⟩

theorem lookup_foldl_mapSet_nil (regs : List (String × String)) (name : String) :
    (regs.foldl (fun m p => mapSet m p.1 p.2) []).lookup name
      = lastRegistered regs name := by
  rw [lookup_foldl_mapSet]
  cases lastRegistered regs name <;> rfl

/-- The references after a branch do not touch its entry of `appBranches` when they
have other names. -/
theorem foldl_branches_keep (repo : Repository) (watch : List String) (b : String)
    (post : List Reference) :
    ∀ (st : FetchState),
      (∀ r ∈ post, r.Name ≠ refPrefix ++ b) →
      (post.foldl (fun st ref => (branchCallback repo watch st ref).1) st).appBranches.lookup b
        = st.appBranches.lookup b := by
  induction post with
  | nil => intro st _; rfl
  | cons r rest ih =>
    intro st h
    rw [List.foldl_cons, ih _ (fun x hx => h x (List.mem_cons_of_mem _ hx)),
      branchCallback_branches]
    by_cases hp : HasPrefix r.Name refPrefix = true
    · rw [if_pos hp]
      cases repo.CommitObject r.Hash with
      | none => rfl
      | some commit =>
        have hne : b ≠ trimLeading r.Name refPrefix := by
          intro hb
          apply h r (List.mem_cons_self _ _)
          rw [hb]
          exact hasPrefix_split r.Name refPrefix hp
        exact lookup_mapSet_ne _ _ _ _ hne
    · rw [if_neg hp]

/-- The entry of `appBranches` for a branch whose commit can be read. -/
theorem foldl_branches_entry (repo : Repository) (watch : List String) (b : String)
    (pre post : List Reference) (ref : Reference) (commit : Commit) (st : FetchState)
    (hname : ref.Name = refPrefix ++ b)
    (hcommit : repo.CommitObject ref.Hash = some commit)
    (hpost : ∀ r ∈ post, r.Name ≠ ref.Name) :
    ((pre ++ ref :: post).foldl
        (fun st ref => (branchCallback repo watch st ref).1) st).appBranches.lookup b
      = some { Name := b, Hash := ref.Hash, Author := commit.Author
               Message := commit.Message } := by
  rw [List.foldl_append, List.foldl_cons,
    foldl_branches_keep repo watch b post _ (fun r hr => by rw [← hname]; exact hpost r hr),
    branchCallback_branches, hname, hasPrefix_append, if_pos rfl, trimLeading_append]
  simp only [hcommit]
  exact lookup_mapSet_self _ _ _

/-- The state of a fetch that reads the whole repository. -/
theorem readRepository_some (repo : Repository) (watch : List String)
    (branches tags : List Reference) (logs : List Commit)
    (ht : repo.Tags = some tags) (hl : repo.Log = some logs)
    (hcommits : ∀ ref ∈ branches,
      HasPrefix ref.Name refPrefix = true → repo.CommitObject ref.Hash ≠ none) :
    ∃ st, readRepository repo watch branches = some st
      ∧ (∀ name, st.objectsToHashMap.lookup name
          = lastRegistered (registrations branches tags logs) name)
      ∧ st.appBranches
        = (branches.foldl (fun st ref => (branchCallback repo watch st ref).1)
            {}).appBranches := by
  unfold readRepository
  simp only [ht, hl]
  refine ⟨_, rfl, ?_, ?_⟩
  · intro name
    rw [(foldl_logs_objects watch logs _).1, (foldl_tags_objects watch tags _).1,
      forEachBranch_readable repo watch branches _ hcommits, foldl_branches_objects,
      ← List.foldl_append, ← List.foldl_append, ← List.append_assoc]
    exact lookup_foldl_mapSet_nil (registrations branches tags logs) name
  · rw [(foldl_logs_objects watch logs _).2, (foldl_tags_objects watch tags _).2,
      forEachBranch_readable repo watch branches _ hcommits]

theorem watchLoop_application (env : FetchEnvironment) (application : Application)
    (appName : String) (results : List (String × String)) :
    ∀ (out : FetchOutcome),
      (watchLoop env application appName results out).application = out.application := by
  induction results with
  | nil => intro out; rfl
  | cons head rest ih =>
    obtain ⟨ref, hash⟩ := head
    intro out
    unfold watchLoop
    dsimp only
    split
    · split
      · rw [ih]
      · rw [ih]
    · rw [ih]

/-- A fetch that reads the whole repository swaps the maps of the application. -/
theorem fetch_swaps (w : SessionBuildWorker) (env : FetchEnvironment)
    (application : Application) (watchObjects : Bool) (repo : Repository)
    (branches : List Reference) (st : FetchState)
    (hauth : env.authErr = false) (hrepo : env.repo = some repo)
    (hb : repo.Branches = some branches)
    (hst : readRepository repo application.Watch branches = some st) :
    ∃ out, FetchApplicationRemote w env application watchObjects = some out
      ∧ out.application = swapMaps application st := by
  unfold FetchApplicationRemote
  simp only [hauth, hrepo, hb, hst, Bool.false_eq_true, if_false]
  cases watchObjects with
  | false => exact ⟨_, rfl, rfl⟩
  | true => exact ⟨_, rfl, watchLoop_application _ _ _ _ _⟩

/-! ## C20: the names registered by a fetch -/

/-- C20 (amended): a fetch in which the repository answers every read (branches, the
commit of every branch, tags, log) completes and swaps the maps; afterwards
`ObjectsToHashMap` maps every name to the hash registered last under it, the
registrations being those of the branches, then of the tags, then of the commits of the
log.  Hence for a branch reference `refs/heads/<b>` with hash `h`, each of `<b>`,
`origin/<b>` and `refs/heads/<b>` is mapped to `h` unless a later branch, a tag or a
commit of the log registers that name with another hash, and `Branches[<b>]` exists with
hash `h` when no later reference has the same name; for a tag reference `refs/tags/<t>`
with hash `h`, each of `<t>` and `refs/tags/<t>` is mapped to `h` unless a later tag or
a commit of the log registers that name with another hash. -/
theorem FetchApplicationRemote_registers_refs (w : SessionBuildWorker)
    (env : FetchEnvironment) (application : Application) (watchObjects : Bool)
    (repo : Repository) (branches tags : List Reference) (logs : List Commit)
    (hauth : env.authErr = false) (hrepo : env.repo = some repo)
    (hb : repo.Branches = some branches) (ht : repo.Tags = some tags)
    (hl : repo.Log = some logs)
    (hcommits : ∀ ref ∈ branches,
      HasPrefix ref.Name refPrefix = true → repo.CommitObject ref.Hash ≠ none) :
    ∃ out, FetchApplicationRemote w env application watchObjects = some out
      ∧ (∀ name, out.application.ObjectsToHashMap.lookup name
          = lastRegistered (registrations branches tags logs) name)
      ∧ (∀ pre ref post b, branches = pre ++ ref :: post → ref.Name = refPrefix ++ b →
          (∀ name ∈ [b, "origin/" ++ b, refPrefix ++ b],
            (∀ p ∈ post.flatMap branchRegistrations ++ tags.flatMap tagRegistrations
                ++ logs.map (fun commit => (commit.Hash, commit.Hash)),
              p.1 = name → p.2 = ref.Hash) →
            out.application.ObjectsToHashMap.lookup name = some ref.Hash)
          ∧ ((∀ r ∈ post, r.Name ≠ ref.Name) →
              ∃ branch, out.application.Branches.lookup b = some branch
                ∧ branch.Name = b ∧ branch.Hash = ref.Hash))
      ∧ (∀ pre ref post t, tags = pre ++ ref :: post → ref.Name = tagPrefix ++ t →
          ∀ name ∈ [t, tagPrefix ++ t],
            (∀ p ∈ post.flatMap tagRegistrations
                ++ logs.map (fun commit => (commit.Hash, commit.Hash)),
              p.1 = name → p.2 = ref.Hash) →
            out.application.ObjectsToHashMap.lookup name = some ref.Hash) := by
  obtain ⟨st, hst, hobjects, hbranches⟩ :=
    readRepository_some repo application.Watch branches tags logs ht hl hcommits
  obtain ⟨out, hout, happ⟩ :=
    fetch_swaps w env application watchObjects repo branches st hauth hrepo hb hst
  have hmap : out.application.ObjectsToHashMap = st.objectsToHashMap := by rw [happ]; rfl
  have hbr : out.application.Branches = st.appBranches := by rw [happ]; rfl
  refine ⟨out, hout, fun name => by rw [hmap]; exact hobjects name, ?_, ?_⟩
  · intro pre ref post b hsplit hname
    refine ⟨?_, ?_⟩
    · intro name hmem hlater
      rw [hmap, hobjects name]
      have hregs : registrations branches tags logs
          = pre.flatMap branchRegistrations ++ branchRegistrations ref
            ++ (post.flatMap branchRegistrations ++ tags.flatMap tagRegistrations
              ++ logs.map (fun commit => (commit.Hash, commit.Hash))) := by
        unfold registrations
        rw [hsplit, List.flatMap_append, List.flatMap_cons]
        simp only [List.append_assoc]
      have hcur : branchRegistrations ref
          = [(b, ref.Hash), ("origin/" ++ b, ref.Hash), (refPrefix ++ b, ref.Hash)] := by
        unfold branchRegistrations
        rw [hname, hasPrefix_append, if_pos rfl, trimLeading_append]
      rw [hregs]
      apply lastRegistered_of_mem _ _ _ name ref.Hash
      · rw [hcur]
        simp only [List.mem_cons, List.mem_singleton, List.not_mem_nil, or_false] at hmem
        rcases hmem with h | h | h <;> rw [h] <;> simp
      · intro p hp _
        rw [hcur] at hp
        simp only [List.mem_cons, List.mem_singleton, List.not_mem_nil, or_false] at hp
        rcases hp with h | h | h <;> rw [h]
      · exact hlater
    · intro hpost
      have hstarts : HasPrefix ref.Name refPrefix = true := by
        rw [hname]; exact hasPrefix_append _ _
      have href : ref ∈ branches := by rw [hsplit]; simp
      cases hc : repo.CommitObject ref.Hash with
      | none => exact absurd hc (hcommits ref href hstarts)
      | some commit =>
        refine ⟨{ Name := b, Hash := ref.Hash, Author := commit.Author
                  Message := commit.Message }, ?_, rfl, rfl⟩
        rw [hbr, hbranches, hsplit]
        exact foldl_branches_entry repo application.Watch b pre post ref commit _ hname hc
          hpost
  · intro pre ref post t hsplit hname name hmem hlater
    rw [hmap, hobjects name]
    have hregs : registrations branches tags logs
        = (branches.flatMap branchRegistrations ++ pre.flatMap tagRegistrations)
          ++ tagRegistrations ref
          ++ (post.flatMap tagRegistrations
            ++ logs.map (fun commit => (commit.Hash, commit.Hash))) := by
      unfold registrations
      rw [hsplit, List.flatMap_append, List.flatMap_cons]
      simp only [List.append_assoc]
    have hcur : tagRegistrations ref = [(t, ref.Hash), (tagPrefix ++ t, ref.Hash)] := by
      unfold tagRegistrations
      rw [hname, hasPrefix_append, if_pos rfl, trimLeading_append]
    rw [hregs]
    apply lastRegistered_of_mem _ _ _ name ref.Hash
    · rw [hcur]
      simp only [List.mem_cons, List.mem_singleton, List.not_mem_nil, or_false] at hmem
      rcases hmem with h | h <;> rw [h] <;> simp
    · intro p hp _
      rw [hcur] at hp
      simp only [List.mem_cons, List.mem_singleton, List.not_mem_nil, or_false] at hp
      rcases hp with h | h <;> rw [h]
    · exact hlater

/-- Counterexample to C20 as stated: `collisionRepository` has the branch reference
`refs/heads/v1` with head `def456` and the tag reference `refs/tags/v1` on `abc123`; the
fetch completes and `ObjectsToHashMap` maps `v1` to the hash of the tag, not to the head
of the branch. -/
theorem FetchApplicationRemote_collision_counterexample :
    collisionRepository.Branches = some [{ Name := "refs/heads/v1", Hash := "def456" }]
      ∧ (FetchApplicationRemote emptyWorker collisionFetchEnvironment exampleApplication
          false).map (fun out => out.application.ObjectsToHashMap.lookup "v1")
        = some (some "abc123")
      ∧ (FetchApplicationRemote emptyWorker collisionFetchEnvironment exampleApplication
          false).map (fun out => out.application.ObjectsToHashMap.lookup "v1")
        ≠ some (some "def456") := by
  decide

/-- Witness of C20: the fetch of `exampleRepository`; the branch `main` is registered
under its three names and the tag `v1` under its two names. -/
theorem FetchApplicationRemote_registers_refs_witness :
    ∃ out, FetchApplicationRemote emptyWorker exampleFetchEnvironment exampleApplication
        false = some out
      ∧ out.application.ObjectsToHashMap.lookup "main" = some "abc123"
      ∧ out.application.ObjectsToHashMap.lookup "origin/main" = some "abc123"
      ∧ out.application.ObjectsToHashMap.lookup "refs/heads/main" = some "abc123"
      ∧ (∃ branch, out.application.Branches.lookup "main" = some branch
          ∧ branch.Name = "main" ∧ branch.Hash = "abc123")
      ∧ out.application.ObjectsToHashMap.lookup "v1" = some "abc123"
      ∧ out.application.ObjectsToHashMap.lookup "refs/tags/v1" = some "abc123" := by
  obtain ⟨out, hout, _, hbranch, htag⟩ :=
    FetchApplicationRemote_registers_refs emptyWorker exampleFetchEnvironment
      exampleApplication false exampleRepository
      [{ Name := "refs/heads/main", Hash := "abc123" },
        { Name := "refs/heads/feature", Hash := "def456" }]
      [{ Name := "refs/tags/v1", Hash := "abc123" }] [featureCommit, exampleCommit]
      rfl rfl rfl rfl rfl (by decide)
  have hmain := hbranch [] { Name := "refs/heads/main", Hash := "abc123" }
    [{ Name := "refs/heads/feature", Hash := "def456" }] "main" rfl (by decide)
  have hv1 := htag [] { Name := "refs/tags/v1", Hash := "abc123" } [] "v1" rfl (by decide)
  exact ⟨out, hout, hmain.1 "main" (by decide) (by decide),
    hmain.1 "origin/main" (by decide) (by decide),
    hmain.1 "refs/heads/main" (by decide) (by decide),
    hmain.2 (by decide),
    hv1 "v1" (by decide) (by decide),
    hv1 "refs/tags/v1" (by decide) (by decide)⟩

/-! ## C24: alive statuses -/

/-- C24: `IsAlive` is false exactly for the statuses `start_failed`, `stop_failed` and
`stopped`; it is true for starting, started, stopping and degraded, and for every other
string. -/
theorem IsAlive_false_iff (status : SessionStatus) :
    (status.IsAlive = false
        ↔ status = SessionStatusStartFailed ∨ status = SessionStatusStopFailed
          ∨ status = SessionStatusStopped)
      ∧ (status.IsAlive = true
        ↔ ¬ (status = SessionStatusStartFailed ∨ status = SessionStatusStopFailed
          ∨ status = SessionStatusStopped))
      ∧ SessionStatusStarting.IsAlive = true ∧ SessionStatusStarted.IsAlive = true
      ∧ SessionStatusStopping.IsAlive = true ∧ SessionStatusDegraded.IsAlive = true
      ∧ SessionStatusStartFailed.IsAlive = false ∧ SessionStatusStopFailed.IsAlive = false
      ∧ SessionStatusStopped.IsAlive = false := by
  refine ⟨?_, ?_, by decide, by decide, by decide, by decide, by decide, by decide,
    by decide⟩
  · unfold SessionStatus.IsAlive
    by_cases h1 : status = SessionStatusStartFailed
    · simp [h1]
    · by_cases h2 : status = SessionStatusStopFailed
      · simp [h2]
      · by_cases h3 : status = SessionStatusStopped
        · simp [h3]
        · simp [h1, h2, h3]
  · unfold SessionStatus.IsAlive
    by_cases h1 : status = SessionStatusStartFailed
    · simp [h1]
    · by_cases h2 : status = SessionStatusStopFailed
      · simp [h2]
      · by_cases h3 : status = SessionStatusStopped
        · simp [h3]
        · simp [h1, h2, h3]

/-! ## C25: the requests of `execWarmup` -/

/-- The loop of `execWarmup` when every request from iteration `i` on fails: it stops at
the first iteration at which the incremented `retryCount` reaches `MaxRetries`. -/
theorem execWarmupLoop_all_fail (warmup : Warmup) (warmups : Warmups)
    (attempts : Nat → WarmupAttempt) (n : Nat) :
    ∀ (retryCount : Int) (i : Nat) (session : Session),
      (warmups.MaxRetries - retryCount).toNat = n →
      (∀ j, i ≤ j → (attempts j).Fails warmup) →
      (execWarmupLoop warmup warmups attempts retryCount i session).success = false
        ∧ ((execWarmupLoop warmup warmups attempts retryCount i session).requests : Int)
          = i + max 1 (warmups.MaxRetries - retryCount) := by
  induction n using Nat.strong_induction_on with
  | _ n ih =>
    intro retryCount i session hn hfail
    have hi := hfail i (Nat.le_refl i)
    rw [execWarmupLoop]
    simp only
    split
    · rename_i h; rw [h] at hi; exact absurd hi (by simp [WarmupAttempt.Fails])
    · rename_i h; rw [h] at hi; exact absurd hi (by simp [WarmupAttempt.Fails])
    · split
      · rename_i hge
        refine ⟨rfl, ?_⟩
        simp only [Nat.cast_add, Nat.cast_one]
        omega
      · rename_i hlt
        obtain ⟨h1, h2⟩ := ih _ (by omega) (retryCount + 1) (i + 1)
          (session.LogTrace ("Requesting warmup URL "
            ++ session.Variables.ApplyTo warmup.URL)
            |>.LogTrace _) rfl (fun j hj => hfail j (by omega))
        refine ⟨h1, ?_⟩
        rw [h2]
        simp only [Nat.cast_add, Nat.cast_one]
        omega
    · rename_i statusCode h
      rw [h] at hi
      have hne : statusCode ≠ warmup.Status := hi
      rw [if_pos hne]
      split
      · rename_i hge
        refine ⟨rfl, ?_⟩
        simp only [Nat.cast_add, Nat.cast_one]
        omega
      · rename_i hlt
        obtain ⟨h1, h2⟩ := ih _ (by omega) (retryCount + 1) (i + 1)
          (session.LogTrace ("Requesting warmup URL "
            ++ session.Variables.ApplyTo warmup.URL)
            |>.LogTrace _) rfl (fun j hj => hfail j (by omega))
        refine ⟨h1, ?_⟩
        rw [h2]
        simp only [Nat.cast_add, Nat.cast_one]
        omega

/-- The loop of `execWarmup` when the request of iteration `i + d` is the first to
return the expected status and the retries allow `d + 1` requests. -/
theorem execWarmupLoop_first_success (warmup : Warmup) (warmups : Warmups)
    (attempts : Nat → WarmupAttempt) (d : Nat) :
    ∀ (retryCount : Int) (i : Nat) (session : Session),
      (d : Int) + 1 ≤ max 1 (warmups.MaxRetries - retryCount) →
      (∀ j, i ≤ j → j < i + d → (attempts j).Fails warmup) →
      attempts (i + d) = WarmupAttempt.response warmup.Status →
      (execWarmupLoop warmup warmups attempts retryCount i session).success = true
        ∧ (execWarmupLoop warmup warmups attempts retryCount i session).requests
          = i + d + 1 := by
  induction d with
  | zero =>
    intro retryCount i session _ _ hok
    rw [execWarmupLoop]
    simp only [Nat.add_zero] at hok ⊢
    rw [hok]
    simp
  | succ d ih =>
    intro retryCount i session hbound hfail hok
    have hi := hfail i (Nat.le_refl i) (by omega)
    have hnext : attempts (i + 1 + d) = WarmupAttempt.response warmup.Status := by
      rw [← hok]; congr 1; omega
    rw [execWarmupLoop]
    simp only
    split
    · rename_i h; rw [h] at hi; exact absurd hi (by simp [WarmupAttempt.Fails])
    · rename_i h; rw [h] at hi; exact absurd hi (by simp [WarmupAttempt.Fails])
    · split
      · rename_i hge
        exfalso
        simp only [Nat.cast_add, Nat.cast_one] at hbound
        omega
      · rename_i hlt
        obtain ⟨h1, h2⟩ := ih (retryCount + 1) (i + 1)
          (session.LogTrace ("Requesting warmup URL "
            ++ session.Variables.ApplyTo warmup.URL)
            |>.LogTrace _)
          (by simp only [Nat.cast_add, Nat.cast_one] at hbound; omega)
          (fun j hj hj2 => hfail j (by omega) (by omega)) hnext
        exact ⟨h1, by rw [h2]; omega⟩
    · rename_i statusCode h
      rw [h] at hi
      have hne : statusCode ≠ warmup.Status := hi
      rw [if_pos hne]
      split
      · rename_i hge
        exfalso
        simp only [Nat.cast_add, Nat.cast_one] at hbound
        omega
      · rename_i hlt
        obtain ⟨h1, h2⟩ := ih (retryCount + 1) (i + 1)
          (session.LogTrace ("Requesting warmup URL "
            ++ session.Variables.ApplyTo warmup.URL)
            |>.LogTrace _)
          (by simp only [Nat.cast_add, Nat.cast_one] at hbound; omega)
          (fun j hj hj2 => hfail j (by omega) (by omega)) hnext
        exact ⟨h1, by rw [h2]; omega⟩

/-- The loop of `execWarmup` sends at most `max(1, MaxRetries - retryCount)` requests,
whatever they meet. -/
theorem execWarmupLoop_bound (warmup : Warmup) (warmups : Warmups)
    (attempts : Nat → WarmupAttempt) (n : Nat) :
    ∀ (retryCount : Int) (i : Nat) (session : Session),
      (warmups.MaxRetries - retryCount).toNat = n →
      ((execWarmupLoop warmup warmups attempts retryCount i session).requests : Int)
        ≤ i + max 1 (warmups.MaxRetries - retryCount) := by
  induction n using Nat.strong_induction_on with
  | _ n ih =>
    intro retryCount i session hn
    rw [execWarmupLoop]
    simp only
    split
    · simp only; omega
    · simp only; omega
    · split
      · simp only [Nat.cast_add, Nat.cast_one]; omega
      · rename_i hlt
        refine le_trans (ih _ (by omega) (retryCount + 1) (i + 1) _ rfl) ?_
        simp only [Nat.cast_add, Nat.cast_one]
        omega
    · split
      · split
        · simp only [Nat.cast_add, Nat.cast_one]; omega
        · rename_i hlt
          refine le_trans (ih _ (by omega) (retryCount + 1) (i + 1) _ rfl) ?_
          simp only [Nat.cast_add, Nat.cast_one]
          omega
      · simp only [Nat.cast_add, Nat.cast_one]; omega

/-- C25: `execWarmup` returns for every `MaxRetries` and every sequence of answers,
after at most `max(1, MaxRetries)` requests; when every request fails or returns a wrong
status code it returns failure after exactly `max(1, MaxRetries)` requests; when the
`k`-th request, `k` within that bound, is the first to return the expected status code,
it returns success after exactly `k` requests. -/
theorem execWarmup_requests (session : Session) (warmup : Warmup) (warmups : Warmups)
    (attempts : Nat → WarmupAttempt) :
    ((execWarmup session warmup warmups attempts).requests : Int)
        ≤ max 1 warmups.MaxRetries
      ∧ ((∀ i, (attempts i).Fails warmup) →
          (execWarmup session warmup warmups attempts).success = false
            ∧ ((execWarmup session warmup warmups attempts).requests : Int)
              = max 1 warmups.MaxRetries)
      ∧ (∀ k : Nat, 1 ≤ k → (k : Int) ≤ max 1 warmups.MaxRetries →
          (∀ i, i + 1 < k → (attempts i).Fails warmup) →
          attempts (k - 1) = WarmupAttempt.response warmup.Status →
          (execWarmup session warmup warmups attempts).success = true
            ∧ (execWarmup session warmup warmups attempts).requests = k) := by
  unfold execWarmup
  refine ⟨?_, ?_, ?_⟩
  · have h := execWarmupLoop_bound warmup warmups attempts _ 0 0 session rfl
    simpa using h
  · intro hfail
    obtain ⟨h1, h2⟩ := execWarmupLoop_all_fail warmup warmups attempts _ 0 0 session rfl
      (fun j _ => hfail j)
    exact ⟨h1, by simpa using h2⟩
  · intro k hk hbound hfail hok
    obtain ⟨h1, h2⟩ := execWarmupLoop_first_success warmup warmups attempts (k - 1) 0 0
      session (by simp only [sub_zero]; omega) (fun j _ hj => hfail j (by omega))
      (by rw [Nat.zero_add]; exact hok)
    exact ⟨h1, by rw [h2]; omega⟩

/-- Witness of C25: with `MaxRetries` 3 and every request answered 500, three requests
and failure; with `MaxRetries` 0, one request; with `MaxRetries` 3 and the second request
answered 200, success after two requests. -/
theorem execWarmup_requests_witness :
    ((execWarmup warmingSession exampleWarmup { MaxRetries := 3 } failingAttempts).success
          = false
        ∧ ((execWarmup warmingSession exampleWarmup { MaxRetries := 3 }
            failingAttempts).requests : Int) = 3)
      ∧ ((execWarmup warmingSession exampleWarmup { MaxRetries := 0 }
            failingAttempts).requests : Int) = 1
      ∧ ((execWarmup warmingSession exampleWarmup { MaxRetries := 3 }
            secondAttemptSucceeds).success = true
        ∧ (execWarmup warmingSession exampleWarmup { MaxRetries := 3 }
            secondAttemptSucceeds).requests = 2) :=
  ⟨(execWarmup_requests warmingSession exampleWarmup { MaxRetries := 3 }
      failingAttempts).2.1 (fun _ => (by decide : (WarmupAttempt.response 500).Fails exampleWarmup)),
    ((execWarmup_requests warmingSession exampleWarmup { MaxRetries := 0 }
      failingAttempts).2.1 (fun _ => (by decide : (WarmupAttempt.response 500).Fails exampleWarmup))).2,
    (execWarmup_requests warmingSession exampleWarmup { MaxRetries := 3 }
      secondAttemptSucceeds).2.2 2 (by decide) (by decide)
      (fun i hi => by
        have h0 : i = 0 := by omega
        subst h0
        decide)
      rfl⟩

/-! ## C21: the keys of `Branches` and of `ObjectsToHashMap` after a fetch -/

theorem lookup_mapSet_mono {β : Type} (m : List (String × β)) (k k' : String) (x : β)
    (h : m.lookup k' ≠ none) : (mapSet m k x).lookup k' ≠ none := by
  by_cases hk : k' = k
  · subst hk; rw [lookup_mapSet_self]; simp
  · rw [lookup_mapSet_ne _ _ _ _ hk]; exact h

theorem lastRegistered_ne_none (regs : List (String × String)) (name : String)
    (h : ∃ p ∈ regs, p.1 = name) : lastRegistered regs name ≠ none := by
  obtain ⟨p, hp, hname⟩ := h
  unfold lastRegistered
  intro hnone
  rw [List.lookup_eq_none_iff] at hnone
  exact absurd (hnone p (List.mem_reverse.2 hp)) (by simp [hname])

/-- The names registered by a list of registrations are keys of the map, and the keys
of the map stay keys. -/
theorem lookup_foldl_mapSet_ne_none (regs : List (String × String))
    (m : List (String × String)) (name : String)
    (h : m.lookup name ≠ none ∨ ∃ p ∈ regs, p.1 = name) :
    (regs.foldl (fun m p => mapSet m p.1 p.2) m).lookup name ≠ none := by
  rw [lookup_foldl_mapSet]
  cases hl : lastRegistered regs name with
  | some hash => simp
  | none =>
    rcases h with h | h
    · exact h
    · exact absurd hl (lastRegistered_ne_none regs name h)

/-- The callback of `branches.ForEach` keeps the keys of `appBranches` among the keys of
`objectsToHashMap`, and keeps the keys of `objectsToHashMap`. -/
theorem branchCallback_keys (repo : Repository) (watch : List String) (st : FetchState)
    (ref : Reference)
    (h : ∀ b, st.appBranches.lookup b ≠ none → st.objectsToHashMap.lookup b ≠ none) :
    (∀ b, (branchCallback repo watch st ref).1.appBranches.lookup b ≠ none →
        (branchCallback repo watch st ref).1.objectsToHashMap.lookup b ≠ none)
      ∧ (∀ name, st.objectsToHashMap.lookup name ≠ none →
        (branchCallback repo watch st ref).1.objectsToHashMap.lookup name ≠ none)
      ∧ (HasPrefix ref.Name refPrefix = true →
        (branchCallback repo watch st ref).1.objectsToHashMap.lookup ref.Name ≠ none) := by
  have hmono : ∀ name, st.objectsToHashMap.lookup name ≠ none →
      (branchCallback repo watch st ref).1.objectsToHashMap.lookup name ≠ none := by
    intro name hname
    rw [branchCallback_objects]
    exact lookup_foldl_mapSet_ne_none _ _ _ (Or.inl hname)
  refine ⟨?_, hmono, ?_⟩
  · intro b hb
    rw [branchCallback_branches] at hb
    by_cases hp : HasPrefix ref.Name refPrefix = true
    · rw [if_pos hp] at hb
      cases hc : repo.CommitObject ref.Hash with
      | none =>
        rw [hc] at hb
        exact hmono b (h b hb)
      | some commit =>
        rw [hc] at hb
        simp only at hb
        by_cases hbn : b = trimLeading ref.Name refPrefix
        · rw [branchCallback_objects]
          apply lookup_foldl_mapSet_ne_none
          right
          unfold branchRegistrations
          rw [if_pos hp]
          exact ⟨(trimLeading ref.Name refPrefix, ref.Hash), by simp, hbn.symm⟩
        · rw [lookup_mapSet_ne _ _ _ _ hbn] at hb
          exact hmono b (h b hb)
    · rw [if_neg hp] at hb
      exact hmono b (h b hb)
  · intro hp
    rw [branchCallback_objects]
    apply lookup_foldl_mapSet_ne_none
    right
    unfold branchRegistrations
    rw [if_pos hp]
    exact ⟨(ref.Name, ref.Hash), by simp, rfl⟩

/-- The iteration over the branches, whether or not it is stopped by an error, keeps the
keys of `appBranches` among the keys of `objectsToHashMap`, keeps the keys of
`objectsToHashMap`, and registers a name as soon as one reference is under
`refs/heads/`. -/
theorem forEachBranch_keys (repo : Repository) (watch : List String)
    (branches : List Reference) :
    ∀ (st : FetchState),
      (∀ b, st.appBranches.lookup b ≠ none → st.objectsToHashMap.lookup b ≠ none) →
      (∀ b, (forEachBranch repo watch branches st).appBranches.lookup b ≠ none →
          (forEachBranch repo watch branches st).objectsToHashMap.lookup b ≠ none)
        ∧ (∀ name, st.objectsToHashMap.lookup name ≠ none →
          (forEachBranch repo watch branches st).objectsToHashMap.lookup name ≠ none)
        ∧ ((∃ ref ∈ branches, HasPrefix ref.Name refPrefix = true) →
          ∃ name,
            (forEachBranch repo watch branches st).objectsToHashMap.lookup name ≠ none) := by
  induction branches with
  | nil =>
    intro st h
    exact ⟨h, fun _ hn => hn, fun ⟨_, hmem, _⟩ => absurd hmem (List.not_mem_nil _)⟩
  | cons ref rest ih =>
    intro st h
    obtain ⟨h1, h2, h3⟩ := branchCallback_keys repo watch st ref h
    obtain ⟨i1, i2, i3⟩ := ih (branchCallback repo watch st ref).1 h1
    unfold forEachBranch
    dsimp only
    by_cases hstop : (branchCallback repo watch st ref).2 = true
    · rw [if_pos hstop]
      have hp0 : HasPrefix ref.Name refPrefix = true := by
        by_contra hp0
        have hok := branchCallback_ok repo watch st ref (fun hp => absurd hp hp0)
        rw [hok] at hstop
        cases hstop
      exact ⟨h1, h2, fun _ => ⟨_, h3 hp0⟩⟩
    · rw [if_neg hstop]
      refine ⟨i1, fun name hn => i2 name (h2 name hn), ?_⟩
      rintro ⟨r, hr, hp⟩
      rcases List.mem_cons.1 hr with rfl | hr
      · exact ⟨_, i2 _ (h3 hp)⟩
      · exact i3 ⟨r, hr, hp⟩

/-- The state of a fetch whose reads of the tags and of the log succeed. -/
theorem readRepository_keys (repo : Repository) (watch : List String)
    (branches tags : List Reference) (logs : List Commit)
    (ht : repo.Tags = some tags) (hl : repo.Log = some logs) :
    ∃ st, readRepository repo watch branches = some st
      ∧ (∀ b, st.appBranches.lookup b ≠ none → st.objectsToHashMap.lookup b ≠ none)
      ∧ (((∃ ref ∈ branches, HasPrefix ref.Name refPrefix = true)
          ∨ (∃ ref ∈ tags, HasPrefix ref.Name tagPrefix = true) ∨ logs ≠ []) →
        st.objectsToHashMap ≠ []) := by
  unfold readRepository
  simp only [ht, hl]
  obtain ⟨h1, _, h3⟩ := forEachBranch_keys repo watch branches {}
    (fun b hb => absurd rfl hb)
  have hobjects : ∀ name,
      (logs.foldl (logCallback watch)
        (tags.foldl (tagCallback watch)
          (forEachBranch repo watch branches {}))).objectsToHashMap.lookup name
      = ((tags.flatMap tagRegistrations
            ++ logs.map (fun commit => (commit.Hash, commit.Hash))).foldl
          (fun m p => mapSet m p.1 p.2)
          (forEachBranch repo watch branches {}).objectsToHashMap).lookup name := by
    intro name
    rw [(foldl_logs_objects watch logs _).1, (foldl_tags_objects watch tags _).1,
      ← List.foldl_append]
  refine ⟨_, rfl, ?_, ?_⟩
  · intro b hb
    rw [(foldl_logs_objects watch logs _).2, (foldl_tags_objects watch tags _).2] at hb
    rw [hobjects]
    exact lookup_foldl_mapSet_ne_none _ _ _ (Or.inl (h1 b hb))
  · intro hsome
    have hname : ∃ name,
        (logs.foldl (logCallback watch)
          (tags.foldl (tagCallback watch)
            (forEachBranch repo watch branches {}))).objectsToHashMap.lookup name
          ≠ none := by
      rcases hsome with hbr | ⟨ref, href, hp⟩ | hlog
      · obtain ⟨name, hn⟩ := h3 hbr
        exact ⟨name, by rw [hobjects]; exact lookup_foldl_mapSet_ne_none _ _ _ (Or.inl hn)⟩
      · refine ⟨ref.Name, ?_⟩
        rw [hobjects]
        apply lookup_foldl_mapSet_ne_none
        right
        refine ⟨(ref.Name, ref.Hash), ?_, rfl⟩
        apply List.mem_append_left
        rw [List.mem_flatMap]
        refine ⟨ref, href, ?_⟩
        unfold tagRegistrations
        rw [if_pos hp]
        simp
      · cases logs with
        | nil => exact absurd rfl hlog
        | cons commit rest =>
          refine ⟨commit.Hash, ?_⟩
          rw [hobjects]
          apply lookup_foldl_mapSet_ne_none
          right
          exact ⟨(commit.Hash, commit.Hash), by simp, rfl⟩
    obtain ⟨name, hn⟩ := hname
    intro hnil
    rw [hnil] at hn
    exact hn rfl

/-- C21: after a fetch that swaps the maps of the application (the reads of the
branches, of the tags and of the log succeed), every key of `Branches` is a key of
`ObjectsToHashMap`, and `ObjectsToHashMap` is not empty when the repository has a
reference under `refs/heads/`, a reference under `refs/tags/` or a commit in the log. -/
theorem fetch_branch_keys_registered (w : SessionBuildWorker) (env : FetchEnvironment)
    (application : Application) (watchObjects : Bool) (repo : Repository)
    (branches tags : List Reference) (logs : List Commit)
    (hauth : env.authErr = false) (hrepo : env.repo = some repo)
    (hb : repo.Branches = some branches) (ht : repo.Tags = some tags)
    (hl : repo.Log = some logs) :
    ∃ out, FetchApplicationRemote w env application watchObjects = some out
      ∧ (∀ b, out.application.Branches.lookup b ≠ none →
          out.application.ObjectsToHashMap.lookup b ≠ none)
      ∧ (((∃ ref ∈ branches, HasPrefix ref.Name refPrefix = true)
          ∨ (∃ ref ∈ tags, HasPrefix ref.Name tagPrefix = true) ∨ logs ≠ []) →
        out.application.ObjectsToHashMap ≠ []) := by
  obtain ⟨st, hst, hkeys, hsome⟩ :=
    readRepository_keys repo application.Watch branches tags logs ht hl
  obtain ⟨out, hout, happ⟩ :=
    fetch_swaps w env application watchObjects repo branches st hauth hrepo hb hst
  have hmap : out.application.ObjectsToHashMap = st.objectsToHashMap := by rw [happ]; rfl
  have hbr : out.application.Branches = st.appBranches := by rw [happ]; rfl
  refine ⟨out, hout, ?_, ?_⟩
  · intro b hbranch
    rw [hmap]
    rw [hbr] at hbranch
    exact hkeys b hbranch
  · intro h
    rw [hmap]
    exact hsome h

/-- Witness of C21: the fetch of `exampleRepository`, which has two branches, a tag and
two commits in the log. -/
theorem fetch_branch_keys_registered_witness :
    ∃ out, FetchApplicationRemote emptyWorker exampleFetchEnvironment exampleApplication
        false = some out
      ∧ (∀ b, out.application.Branches.lookup b ≠ none →
          out.application.ObjectsToHashMap.lookup b ≠ none)
      ∧ out.application.ObjectsToHashMap ≠ [] := by
  obtain ⟨out, hout, hkeys, hsome⟩ :=
    fetch_branch_keys_registered emptyWorker exampleFetchEnvironment exampleApplication
      false exampleRepository
      [{ Name := "refs/heads/main", Hash := "abc123" },
        { Name := "refs/heads/feature", Hash := "def456" }]
      [{ Name := "refs/tags/v1", Hash := "abc123" }] [featureCommit, exampleCommit]
      rfl rfl rfl rfl rfl
  exact ⟨out, hout, hkeys, hsome (Or.inr (Or.inr (by decide)))⟩

/-! ## C26: the lookup of the commit in `acceptSessionBuild` -/

/-- C26, the code at the failing input: the branch `old` of `staleRepository` points to
the commit `000aaa`, which the log does not list.  After the fetch `ObjectsToHashMap`
resolves `old` to `000aaa`, `CommitMap` has no entry for `000aaa`, and
`acceptSessionBuild` for the checkout `old`, which finds the hash (line 136), panics on
the nil entry of `CommitMap` (line 158) instead of returning a result. -/
theorem acceptSessionBuild_commit_missing_after_fetch :
    (FetchApplicationRemote emptyWorker staleFetchEnvironment exampleApplication
        false).map
      (fun out =>
        (out.application.ObjectsToHashMap.lookup "old",
          out.application.CommitMap.lookup "000aaa",
          (acceptSessionBuild emptyWorker exampleEnvironment
            { Checkout := "old", Application := out.application
              PreviousSession := none }).result))
      = some (some "000aaa", none, none) := by
  decide

/-! ## C28: the effects of a failed `acceptSessionBuild` -/

/-- The three ways in which `acceptSessionBuild` returns a Failed result: the request is
denied at admission, before any session object is touched; or it is admitted and the
checkout is unknown or no port is free, after the session object has been prepared. -/
theorem accept_failed_cases (w : SessionBuildWorker) (env : BuildEnvironment)
    (input : SessionBuildInput) (h : FailedResult (acceptSessionBuild w env input)) :
    (acceptSessionBuild w env input).sessionStorage = w.sessionStorage
      ∧ (acceptSessionBuild w env input).building = none
      ∧ ((¬ Admitted w input ∧ (acceptSessionBuild w env input).session = none)
        ∨ (Admitted w input
          ∧ ((acceptSessionBuild w env input).session = some (sessionForBuild env input)
            ∨ (acceptSessionBuild w env input).session
              = some ((sessionForBuild env input).LogInfo
                  ("Creating session " ++ (sessionForBuild env input).UUID))))) := by
  by_cases hg : (w.sessionStorage.GetAllAliveSessions.length : Int)
      ≥ w.global.MaxConcurrentSessions
  · rw [accept_denied_global w env input hg]
    exact ⟨rfl, rfl, Or.inl ⟨fun hadm => absurd hadm.1 (not_lt.mpr hg), rfl⟩⟩
  by_cases ha : w.sessionStorage.AliveByApplicationCount input.Application
      ≥ input.Application.MaxConcurrentSessions
  · rw [accept_denied_application w env input hg ha]
    exact ⟨rfl, rfl, Or.inl ⟨fun hadm => absurd hadm.2 (not_lt.mpr ha), rfl⟩⟩
  have hadm : Admitted w input := ⟨not_le.mp hg, not_le.mp ha⟩
  cases hl : input.Application.ObjectsToHashMap.lookup input.Checkout with
  | none =>
    rw [accept_checkout_unknown w env input hadm hl]
    exact ⟨rfl, rfl, Or.inr ⟨hadm, Or.inl rfl⟩⟩
  | some checkout =>
    cases hp : env.getFreePort (sessionForBuild env input).GetConfiguration.Port with
    | none =>
      rw [accept_no_port w env input checkout hadm hl hp]
      exact ⟨rfl, rfl, Or.inr ⟨hadm, Or.inr rfl⟩⟩
    | some freePort =>
      exfalso
      obtain ⟨r, hr, hf⟩ := h
      cases hc : input.Application.CommitMap.lookup checkout with
      | none =>
        rw [accept_commit_missing w env input checkout freePort hadm hl hp hc] at hr
        cases hr
      | some commit =>
        cases hn : input.PreviousSession with
        | some p =>
          rw [accept_built w env input checkout commit freePort hadm hl hp hc
            (Or.inl (by rw [hn]; rfl))] at hr
          cases hr
          cases hf
        | none =>
          cases hd : w.sessionStorage.GetAliveApplicationSessionByCheckout checkout
              input.Application with
          | none =>
            rw [accept_built w env input checkout commit freePort hadm hl hp hc
              (Or.inr hd)] at hr
            cases hr
            cases hf
          | some existing =>
            rw [accept_dedup w env input checkout commit freePort existing hadm hl hp hc
              hn hd] at hr
            cases hr
            cases hf

/-- C28 (amended): whenever `acceptSessionBuild` returns a Failed result, the session
store is as before the call and no build is started; the previous session of the
request is as before the call when the request is denied at admission and when it does
not recycle the previous session; when an admitted request recycles its previous
session and then fails (unknown checkout, no free port), the previous session has been
rebuilt: its Variables are empty, its `startupRetries` is one more than before, its kill
reason is None and its status is starting. -/
theorem acceptSessionBuild_failure_effects (w : SessionBuildWorker)
    (env : BuildEnvironment) (input : SessionBuildInput)
    (h : FailedResult (acceptSessionBuild w env input)) :
    (acceptSessionBuild w env input).sessionStorage = w.sessionStorage
      ∧ (acceptSessionBuild w env input).building = none
      ∧ (¬ Admitted w input → previousSessionAfter w env input = input.PreviousSession)
      ∧ (input.recycling = false →
          previousSessionAfter w env input = input.PreviousSession)
      ∧ (∀ previous, input.PreviousSession = some previous → Admitted w input →
          input.recycling = true →
          ∃ after, previousSessionAfter w env input = some after
            ∧ after.Variables = []
            ∧ after.startupRetries = previous.startupRetries + 1
            ∧ after.killReason = KillReasonNone
            ∧ after.Status = SessionStatusStarting
            ∧ after.UUID = previous.UUID) := by
  obtain ⟨hstore, hbuilding, hcases⟩ := accept_failed_cases w env input h
  refine ⟨hstore, hbuilding, ?_, ?_, ?_⟩
  · intro hadm
    rcases hcases with ⟨_, hs⟩ | ⟨hadm', _⟩
    · unfold previousSessionAfter
      rw [hs]
      cases input.PreviousSession with
      | none => rfl
      | some previous => simp only; split <;> rfl
    · exact absurd hadm' hadm
  · intro hrec
    unfold previousSessionAfter
    cases input.PreviousSession with
    | none => rfl
    | some previous => simp only [hrec, Bool.false_eq_true, if_false]
  · intro previous hprev hadm hrec
    have hk : previous.killReason = KillReasonBuildFailed
        ∨ previous.killReason = KillReasonHealthcheckFailed := by
      unfold SessionBuildInput.recycling at hrec
      rw [hprev] at hrec
      simpa [Session.GetKillReason] using hrec
    have hsession := sessionForBuild_recycle env input previous hprev hk
    rcases hcases with ⟨hnot, _⟩ | ⟨_, hs | hs⟩
    · exact absurd hadm hnot
    · refine ⟨sessionForBuild env input, ?_, ?_⟩
      · unfold previousSessionAfter
        rw [hs]
        simp only [hprev, hrec, if_true]
      · rw [hsession]
        exact ⟨rfl, rfl, rfl, rfl, rfl⟩
    · refine ⟨(sessionForBuild env input).LogInfo
          ("Creating session " ++ (sessionForBuild env input).UUID), ?_, ?_⟩
      · unfold previousSessionAfter
        rw [hs]
        simp only [hprev, hrec, if_true]
      · rw [hsession]
        exact ⟨rfl, rfl, rfl, rfl, rfl⟩

/-- Counterexample to C28 as stated: `recycleRequest` carries `failedSession` (kill
reason `build_failed`, one startup retry, two variables) as previous session; with no
free port the call returns a Failed result, and the previous session is left with no
variable, two startup retries and the kill reason None. -/
theorem acceptSessionBuild_atomicity_counterexample :
    FailedResult (acceptSessionBuild emptyWorker noPortEnvironment recycleRequest)
      ∧ recycleRequest.PreviousSession = some failedSession
      ∧ failedSession.Variables = [("uuid", "7f3a-0000"), ("stale", "yes")]
      ∧ failedSession.startupRetries = 1
      ∧ failedSession.killReason = KillReasonBuildFailed
      ∧ (previousSessionAfter emptyWorker noPortEnvironment recycleRequest).map
          (fun s => (s.Variables, s.startupRetries, s.killReason))
        = some ([], 2, KillReasonNone) := by
  decide

/-- Witness of C28: `recycleRequest` fails for want of a free port. -/
theorem acceptSessionBuild_failure_effects_witness :
    (acceptSessionBuild emptyWorker noPortEnvironment recycleRequest).sessionStorage
        = emptyWorker.sessionStorage
      ∧ ∃ after,
          previousSessionAfter emptyWorker noPortEnvironment recycleRequest = some after
            ∧ after.Variables = []
            ∧ after.startupRetries = failedSession.startupRetries + 1
            ∧ after.killReason = KillReasonNone
            ∧ after.Status = SessionStatusStarting
            ∧ after.UUID = failedSession.UUID :=
  ⟨(acceptSessionBuild_failure_effects emptyWorker noPortEnvironment recycleRequest
      (by decide)).1,
    (acceptSessionBuild_failure_effects emptyWorker noPortEnvironment recycleRequest
      (by decide)).2.2.2.2 failedSession rfl (by decide) (by decide)⟩

/-! ## C22: the watch loop of the fetch worker -/

/-- The loop of `AssertApplicationEvents` after `k` expected events have been found,
`k` below the number of expected events: it does not panic, and it ends without timeout
on the last expected index exactly when the next events of the channel are the expected
events still to be found; the events it has then collected are those. -/
theorem assertLoop_spec (events : List ApplicationEventType) (ending : ChannelEnd)
    (ch : List ApplicationEvent) :
    ∀ (k : Nat) (gotEvents : List ApplicationEvent), k < events.length →
      ∃ state, assertLoop events ending ch ((k : Int) - 1) gotEvents = some state
        ∧ ((state.timeoutFired = false
            ∧ ¬ state.lastFoundIndex < (events.length : Int) - 1)
          ↔ (ch.map (fun ev => ev.EventType)).take (events.length - k) = events.drop k)
        ∧ ((state.timeoutFired = false
            ∧ ¬ state.lastFoundIndex < (events.length : Int) - 1)
          → state.gotEvents = gotEvents ++ ch.take (events.length - k)) := by
  induction ch with
  | nil =>
    intro k gotEvents hk
    have hdrop : events.drop k ≠ [] := by
      intro h
      have := congrArg List.length h
      simp at this
      omega
    cases ending with
    | closed =>
      refine ⟨_, rfl, ?_, ?_⟩
      · constructor
        · rintro ⟨_, h⟩; exact absurd (by show (k : Int) - 1 < _; omega) h
        · intro h
          simp only [List.map_nil, List.take_nil] at h
          exact absurd h.symm hdrop
      · rintro ⟨_, h⟩; exact absurd (by show (k : Int) - 1 < _; omega) h
    | silent =>
      refine ⟨_, rfl, ?_, ?_⟩
      · constructor
        · rintro ⟨h, _⟩; cases h
        · intro h
          simp only [List.map_nil, List.take_nil] at h
          exact absurd h.symm hdrop
      · rintro ⟨h, _⟩; cases h
  | cons ev rest ih =>
    intro k gotEvents hk
    have hidx : ((k : Int) - 1 + 1).toNat = k := by omega
    have hget : events[k]? = some events[k] := List.getElem?_eq_getElem hk
    have hdrop : events.drop k = events[k] :: events.drop (k + 1) :=
      List.drop_eq_getElem_cons hk
    have htake : events.length - k = (events.length - (k + 1)) + 1 := by omega
    rw [assertLoop]
    simp only [hidx, hget]
    by_cases hev : ev.EventType = events[k]
    · rw [if_pos hev]
      by_cases hlast : (k : Int) - 1 + 1 = (events.length : Int) - 1
      · rw [if_pos hlast]
        have hk1 : events.length - k = 1 := by omega
        have hnil : events.drop (k + 1) = [] := by
          apply List.drop_eq_nil_of_le; omega
        refine ⟨_, rfl, ?_, ?_⟩
        · constructor
          · intro _
            rw [hk1, hdrop, hnil]
            simp [hev]
          · intro _
            exact ⟨rfl, by show ¬ ((k : Int) - 1 + 1 < _); omega⟩
        · intro _
          rw [hk1]
          simp
      · rw [if_neg hlast]
        have hk' : k + 1 < events.length := by omega
        obtain ⟨state, hstate, hiff, hgot⟩ := ih (k + 1) (gotEvents ++ [ev]) hk'
        have hcast : ((k : Int) - 1 + 1) = ((k + 1 : Nat) : Int) - 1 := by
          push_cast; ring
        refine ⟨state, by rw [hcast]; exact hstate, ?_, ?_⟩
        · rw [hiff, htake, hdrop]
          simp only [List.map_cons, List.take_succ_cons, List.cons.injEq, hev, true_and]
        · intro h
          rw [hgot h, htake]
          simp
    · rw [if_neg hev]
      refine ⟨_, rfl, ?_, ?_⟩
      · constructor
        · rintro ⟨_, h⟩; exact absurd (by show (k : Int) - 1 < _; omega) h
        · intro h
          rw [htake, hdrop] at h
          simp only [List.map_cons, List.take_succ_cons, List.cons.injEq] at h
          exact absurd h.1 hev
      · rintro ⟨_, h⟩; exact absurd (by show (k : Int) - 1 < _; omega) h

/-- For a non-empty list of expected events, `AssertApplicationEvents` does not panic
and accepts a stream exactly when the first events of the stream, as many as expected,
are the expected ones in order; the events it returns are then these. -/
theorem AssertApplicationEvents_accepts_iff (ch : List ApplicationEvent)
    (ending : ChannelEnd) (events : List ApplicationEventType) (h : events ≠ []) :
    AssertApplicationEvents ch ending events ≠ none
      ∧ (Accepts ch ending events
        ↔ (ch.map (fun ev => ev.EventType)).take events.length = events)
      ∧ (∀ result, AssertApplicationEvents ch ending events = some result →
          result.failed = false → result.gotEvents = ch.take events.length) := by
  have hlen : 0 < events.length := List.length_pos.2 h
  obtain ⟨state, hstate, hiff, hgot⟩ := assertLoop_spec events ending ch 0 [] hlen
  have hstate' : assertLoop events ending ch (-1) [] = some state := by
    simpa using hstate
  simp only [Nat.sub_zero, List.drop_zero, List.nil_append] at hiff hgot
  unfold Accepts AssertApplicationEvents
  rw [hstate']
  simp only
  by_cases htf : state.timeoutFired = true
  · rw [if_pos htf]
    refine ⟨by simp, ?_, ?_⟩
    · rw [← hiff]
      constructor
      · rintro ⟨result, hr, hf⟩
        simp only [Option.some.injEq] at hr
        rw [← hr] at hf
        cases hf
      · rintro ⟨h1, _⟩
        rw [h1] at htf
        cases htf
    · intro result hr hf
      simp only [Option.some.injEq] at hr
      rw [← hr] at hf
      cases hf
  · have htf' : state.timeoutFired = false := by simpa using htf
    rw [if_neg htf]
    by_cases hlt : state.lastFoundIndex < (events.length : Int) - 1
    · rw [if_pos hlt]
      refine ⟨by simp, ?_, ?_⟩
      · rw [← hiff]
        constructor
        · rintro ⟨result, hr, hf⟩
          simp only [Option.some.injEq] at hr
          rw [← hr] at hf
          cases hf
        · rintro ⟨_, h2⟩
          exact absurd hlt h2
      · intro result hr hf
        simp only [Option.some.injEq] at hr
        rw [← hr] at hf
        cases hf
    · rw [if_neg hlt]
      refine ⟨by simp, ?_, ?_⟩
      · rw [← hiff]
        constructor
        · intro _
          exact ⟨htf', hlt⟩
        · intro _
          exact ⟨_, rfl, rfl⟩
      · intro result hr _
        simp only [Option.some.injEq] at hr
        rw [← hr]
        exact hgot ⟨htf', hlt⟩

/-- The test of the initialisation passes when the clone and the fetch succeed: the bus
carries the four expected events, in order, and the assertion returns them without
error. -/
theorem Test_ApplicationInit_passes :
    (initializeApplication {}).map (fun ev => ev.EventType) = initEvents
      ∧ Test_ApplicationInit {}
        = some { gotEvents := initializeApplication {}, failed := false }
      ∧ (Test_ApplicationInit { cloneErr := true }).map (fun r => r.failed) = some true
      ∧ (Test_ApplicationInit { fetchErr := true }).map (fun r => r.failed)
        = some true := by
  decide

/-- The empty list of expected events, which no caller passes, is outside the lists the
assertion handles: `AssertApplicationEvents` then panics on the index expression
`events[lastFoundIndex+1]` as soon as an event arrives, and calls `t.Error` when none
arrives before the timeout. -/
theorem AssertApplicationEvents_empty_expected :
    (([{ EventType := ApplicationEventTypeInitializationStarted }] :
          List ApplicationEvent).map (fun ev => ev.EventType)).take
        ([] : List ApplicationEventType).length = []
      ∧ AssertApplicationEvents [{ EventType := ApplicationEventTypeInitializationStarted }]
          ChannelEnd.silent [] = none
      ∧ AssertApplicationEvents [] ChannelEnd.silent []
        = some { gotEvents := [], failed := true } := by
  decide

/-- C23: when the clone and the fetch succeed, the initialisation of an application
emits exactly InitializationStarted, FetchStarted, FetchCompleted and
InitializationCompleted, in that order, so the first four events received on the bus are
the expected list whatever follows them, and `Test_ApplicationInit` returns them without
error.  For every stream (closed or silent after its events) and every non-empty list of
expected events, as the test passes, `AssertApplicationEvents` returns without panic and
accepts the stream exactly when its first `len(expected)` events are the expected ones in
order; the events it returns are then these. -/
theorem initialization_events_asserted (env : InitEnvironment) (ch : List ApplicationEvent)
    (ending : ChannelEnd) (events : List ApplicationEventType)
    (henv : env.cloneErr = false ∧ env.fetchErr = false) (h : events ≠ []) :
    (initializeApplication env).map (fun ev => ev.EventType)
        = [ApplicationEventType.InitializationStarted, ApplicationEventType.FetchStarted,
            ApplicationEventType.FetchCompleted, ApplicationEventType.InitializationCompleted]
      ∧ (∀ rest : List ApplicationEvent,
          ((initializeApplication env ++ rest).take 4).map (fun ev => ev.EventType)
              = initEvents
            ∧ Accepts (initializeApplication env ++ rest) ending initEvents)
      ∧ Test_ApplicationInit env
          = some { gotEvents := initializeApplication env, failed := false }
      ∧ AssertApplicationEvents ch ending events ≠ none
      ∧ (Accepts ch ending events
          ↔ (ch.map (fun ev => ev.EventType)).take events.length = events)
      ∧ (∀ result, AssertApplicationEvents ch ending events = some result →
          result.failed = false → result.gotEvents = ch.take events.length) := by
  obtain ⟨hpanic, hiff, hgot⟩ := AssertApplicationEvents_accepts_iff ch ending events h
  obtain ⟨cloneErr, fetchErr⟩ := env
  obtain ⟨hc, hf⟩ := henv
  simp only at hc hf
  subst hc hf
  refine ⟨by decide, ?_, by decide, hpanic, hiff, hgot⟩
  intro rest
  have hinit : initializeApplication { cloneErr := false, fetchErr := false }
      = [{ EventType := ApplicationEventTypeInitializationStarted },
          { EventType := ApplicationEventTypeFetchStarted },
          { EventType := ApplicationEventTypeFetchCompleted },
          { EventType := ApplicationEventTypeInitializationCompleted }] := by
    decide
  rw [hinit]
  refine ⟨rfl, ?_⟩
  exact (AssertApplicationEvents_accepts_iff _ ending initEvents (by decide)).2.1.2 rfl

/-- Witness of C23: the events of a successful initialisation, on a channel that stays
open, asserted against the four expected events. -/
theorem initialization_events_asserted_witness :
    (({} : InitEnvironment).cloneErr = false ∧ ({} : InitEnvironment).fetchErr = false)
      ∧ initEvents ≠ []
      ∧ (initializeApplication {}).map (fun ev => ev.EventType)
        = [ApplicationEventType.InitializationStarted, ApplicationEventType.FetchStarted,
            ApplicationEventType.FetchCompleted, ApplicationEventType.InitializationCompleted]
      ∧ (∀ rest : List ApplicationEvent,
          ((initializeApplication {} ++ rest).take 4).map (fun ev => ev.EventType)
              = initEvents
            ∧ Accepts (initializeApplication {} ++ rest) ChannelEnd.silent initEvents)
      ∧ Test_ApplicationInit {}
          = some { gotEvents := initializeApplication {}, failed := false }
      ∧ AssertApplicationEvents (initializeApplication {}) ChannelEnd.silent initEvents ≠ none
      ∧ (Accepts (initializeApplication {}) ChannelEnd.silent initEvents
          ↔ ((initializeApplication {}).map (fun ev => ev.EventType)).take initEvents.length
              = initEvents)
      ∧ (∀ result,
          AssertApplicationEvents (initializeApplication {}) ChannelEnd.silent initEvents
              = some result →
          result.failed = false →
            result.gotEvents = (initializeApplication {}).take initEvents.length) :=
  ⟨by decide, by decide,
    initialization_events_asserted {} (initializeApplication {}) ChannelEnd.silent initEvents
      (by decide) (by decide)⟩

/-! ## C27: `ApplyTo` and the order of the keys -/

/-- The scan of `ReplaceAll` copies a stretch of characters that differ from the first
character of `old`. -/
theorem replaceAllFrom_copy (c : Char) (old new : List Char) (t rest : List Char)
    (ht : ∀ x ∈ t, x ≠ c) :
    replaceAllFrom (c :: old) new 0 (t ++ rest)
      = t ++ replaceAllFrom (c :: old) new 0 rest := by
  induction t with
  | nil => rfl
  | cons x t ih =>
    have hx : x ≠ c := ht x (List.mem_cons_self _ _)
    have hne : (c == x) = false := by simpa using fun h => hx h.symm
    rw [List.cons_append, replaceAllFrom]
    simp only [List.isPrefixOf, hne, Bool.false_and, Bool.false_eq_true, if_false]
    rw [ih (fun y hy => ht y (List.mem_cons_of_mem _ hy))]
    rfl

/-- The scan of `ReplaceAll` drops the characters of a matched occurrence. -/
theorem replaceAllFrom_skip (old new : List Char) (xs rest : List Char) :
    replaceAllFrom old new xs.length (xs ++ rest) = replaceAllFrom old new 0 rest := by
  induction xs with
  | nil => rfl
  | cons x xs ih =>
    rw [List.length_cons, List.cons_append, replaceAllFrom]
    exact ih

/-- The scan of `ReplaceAll` replaces an occurrence of `old` at the front. -/
theorem replaceAllFrom_match (c : Char) (old new rest : List Char) :
    replaceAllFrom (c :: old) new 0 (c :: old ++ rest)
      = new ++ replaceAllFrom (c :: old) new 0 rest := by
  rw [List.cons_append, replaceAllFrom]
  have hp : (c :: old).isPrefixOf (c :: (old ++ rest)) = true := by
    rw [List.isPrefixOf_iff_prefix]
    exact ⟨rest, rfl⟩
  simp only [hp, if_true, List.length_cons, Nat.add_sub_cancel]
  rw [replaceAllFrom_skip]

/-- Two keys without closing brace that are followed by a closing brace at the same
place are equal. -/
theorem key_eq_of_isPrefixOf (k k' x y : List Char)
    (hk : ∀ c ∈ k, c ≠ '\x7d') (hk' : ∀ c ∈ k', c ≠ '\x7d')
    (h : (k ++ '\x7d' :: x).isPrefixOf (k' ++ '\x7d' :: y) = true) : k = k' := by
  induction k generalizing k' with
  | nil =>
    cases k' with
    | nil => rfl
    | cons c' k' =>
      exfalso
      simp only [List.nil_append, List.cons_append, List.isPrefixOf, Bool.and_eq_true,
        beq_iff_eq] at h
      exact hk' c' (List.mem_cons_self _ _) h.1.symm
  | cons c k ih =>
    cases k' with
    | nil =>
      exfalso
      simp only [List.nil_append, List.cons_append, List.isPrefixOf, Bool.and_eq_true,
        beq_iff_eq] at h
      exact hk c (List.mem_cons_self _ _) h.1
    | cons c' k' =>
      simp only [List.cons_append, List.isPrefixOf, Bool.and_eq_true, beq_iff_eq] at h
      rw [h.1, ih k' (fun x hx => hk x (List.mem_cons_of_mem _ hx))
        (fun x hx => hk' x (List.mem_cons_of_mem _ hx)) h.2]

theorem placeholder_data (key : String) :
    ("\x7b\x7b" ++ key ++ "\x7d\x7d").data
      = '\x7b' :: '\x7b' :: (key.data ++ ['\x7d', '\x7d']) := by
  rw [String.data_append, String.data_append]
  rfl

/-- The scan of `ReplaceAll` for the placeholder of `k` copies the placeholder of another
key. -/
theorem replaceAllFrom_other (k k' new rest : List Char)
    (hk : ∀ c ∈ k, c ≠ '\x7d')
    (hk' : ∀ c ∈ k', c ≠ '\x7b' ∧ c ≠ '\x7d') (hne : k' ≠ k) :
    replaceAllFrom ('\x7b' :: '\x7b' :: (k ++ ['\x7d', '\x7d'])) new 0
        ('\x7b' :: '\x7b' :: (k' ++ ['\x7d', '\x7d']) ++ rest)
      = '\x7b' :: '\x7b' :: (k' ++ ['\x7d', '\x7d'])
        ++ replaceAllFrom ('\x7b' :: '\x7b' :: (k ++ ['\x7d', '\x7d'])) new 0 rest := by
  have h0 : ('\x7b' :: '\x7b' :: (k ++ ['\x7d', '\x7d'])).isPrefixOf
      ('\x7b' :: ('\x7b' :: (k' ++ ['\x7d', '\x7d']) ++ rest)) = false := by
    cases hp : ('\x7b' :: '\x7b' :: (k ++ ['\x7d', '\x7d'])).isPrefixOf
        ('\x7b' :: ('\x7b' :: (k' ++ ['\x7d', '\x7d']) ++ rest)) with
    | false => rfl
    | true =>
      exfalso
      simp only [List.cons_append, List.isPrefixOf, beq_self_eq_true, Bool.true_and,
        List.append_assoc] at hp
      have hp' : (k ++ '\x7d' :: ['\x7d']).isPrefixOf (k' ++ '\x7d' :: ('\x7d' :: rest))
          = true := by
        simpa [List.append_assoc] using hp
      exact hne (key_eq_of_isPrefixOf k k' _ _ hk (fun c hc => (hk' c hc).2) hp').symm
  have h1 : ('\x7b' :: '\x7b' :: (k ++ ['\x7d', '\x7d'])).isPrefixOf
      ('\x7b' :: ((k' ++ ['\x7d', '\x7d']) ++ rest)) = false := by
    cases k' with
    | nil => rfl
    | cons c k' =>
      have hc : c ≠ '\x7b' := (hk' c (List.mem_cons_self _ _)).1
      have hb : ('\x7b' == c) = false := by simpa using fun h => hc h.symm
      simp [List.isPrefixOf, hb]
  have htail : ∀ x ∈ k' ++ ['\x7d', '\x7d'], x ≠ '\x7b' := by
    intro x hx
    rcases List.mem_append.1 hx with hx | hx
    · exact (hk' x hx).1
    · simp only [List.mem_cons, List.mem_singleton, List.not_mem_nil, or_false,
        or_self] at hx
      rw [hx]; decide
  rw [List.cons_append, replaceAllFrom]
  simp only [h0, Bool.false_eq_true, if_false]
  rw [List.cons_append, replaceAllFrom]
  simp only [h1, Bool.false_eq_true, if_false]
  rw [replaceAllFrom_copy _ _ _ _ _ htail]
  rfl

/-- The scan of `ReplaceAll` for the placeholder of a key on a template without stray
braces: the placeholders of the key are replaced and nothing else changes. -/
theorem replaceAllFrom_template (key value : String) (hkey : BraceFree key)
    (segs : List Segment) (hsegs : ∀ seg ∈ segs, seg.BraceFree) :
    replaceAllFrom ("\x7b\x7b" ++ key ++ "\x7d\x7d").data value.data 0
        (segs.flatMap Segment.chars)
      = (segs.map (Segment.substitute [(key, value)])).flatMap Segment.chars := by
  induction segs with
  | nil => rfl
  | cons seg rest ih =>
    have ih := ih (fun s hs => hsegs s (List.mem_cons_of_mem _ hs))
    have hseg := hsegs seg (List.mem_cons_self _ _)
    rw [List.flatMap_cons, List.map_cons, List.flatMap_cons, placeholder_data] at *
    cases seg with
    | text content =>
      have hcopy := replaceAllFrom_copy '\x7b' ('\x7b' :: (key.data ++ ['\x7d', '\x7d']))
        value.data content.data (rest.flatMap Segment.chars)
        (fun x hx => (hseg x hx).1)
      show replaceAllFrom _ _ 0 (content.data ++ _) = content.data ++ _
      rw [hcopy, ih]
    | placeholder k' =>
      by_cases hk : k' = key
      · subst hk
        have hsub : Segment.substitute [(k', value)] (Segment.placeholder k')
            = Segment.text value := by
          simp [Segment.substitute, List.lookup]
        rw [hsub]
        show replaceAllFrom _ _ 0 (("\x7b\x7b" ++ k' ++ "\x7d\x7d").data ++ _)
          = value.data ++ _
        rw [placeholder_data, replaceAllFrom_match, ih]
      · have hsub : Segment.substitute [(key, value)] (Segment.placeholder k')
            = Segment.placeholder k' := by
          have hb : (k' == key) = false := by simpa using hk
          simp [Segment.substitute, List.lookup, hb]
        rw [hsub]
        show replaceAllFrom _ _ 0 (("\x7b\x7b" ++ k' ++ "\x7d\x7d").data ++ _)
          = ("\x7b\x7b" ++ k' ++ "\x7d\x7d").data ++ _
        rw [placeholder_data]
        have hdata : k'.data ≠ key.data := fun h => hk (String.ext h)
        rw [replaceAllFrom_other key.data k'.data value.data _
          (fun c hc => (hkey c hc).2) (fun c hc => hseg c hc) hdata, ih]

/-- `ReplaceAll` of the placeholder of a key on a template without stray braces. -/
theorem ReplaceAll_template (key value : String) (hkey : BraceFree key)
    (segs : List Segment) (hsegs : ∀ seg ∈ segs, seg.BraceFree) :
    ReplaceAll (render segs) ("\x7b\x7b" ++ key ++ "\x7d\x7d") value
      = render (segs.map (Segment.substitute [(key, value)])) := by
  unfold ReplaceAll
  have hne : ("\x7b\x7b" ++ key ++ "\x7d\x7d").data ≠ [] := by
    rw [placeholder_data]; simp
  rw [if_neg hne]
  unfold render
  rw [replaceAllFrom_template key value hkey segs hsegs]

theorem mem_of_lookup (v : Variables) (key value : String)
    (h : v.lookup key = some value) : (key, value) ∈ v := by
  induction v with
  | nil => cases h
  | cons p v ih =>
    obtain ⟨k, x⟩ := p
    by_cases hk : key = k
    · subst hk
      simp only [List.lookup, beq_self_eq_true, Option.some.injEq] at h
      rw [h]
      exact List.mem_cons_self _ _
    · have hb : (key == k) = false := by simpa using hk
      simp only [List.lookup, hb] at h
      exact List.mem_cons_of_mem _ (ih h)

theorem substitute_placeholder (v : Variables) (key : String) :
    (Segment.placeholder key).substitute v
      = match v.lookup key with
        | some value => Segment.text value
        | none => Segment.placeholder key := rfl

theorem substitute_braceFree (v : Variables) (hv : ∀ p ∈ v, BraceFree p.2)
    (seg : Segment) (h : seg.BraceFree) : (seg.substitute v).BraceFree := by
  cases seg with
  | text content => exact h
  | placeholder key =>
    rw [substitute_placeholder]
    cases hl : v.lookup key with
    | none => exact h
    | some value => exact hv (key, value) (mem_of_lookup v key value hl)

theorem substitute_cons (key value : String) (v : Variables) (seg : Segment) :
    (seg.substitute [(key, value)]).substitute v = seg.substitute ((key, value) :: v) := by
  cases seg with
  | text content => rfl
  | placeholder k' =>
    by_cases hk : k' = key
    · subst hk
      simp [Segment.substitute, List.lookup]
    · have hb : (k' == key) = false := by simpa using hk
      simp [Segment.substitute, List.lookup, hb]

/-- `ApplyTo` on a template without stray braces, for keys and values without braces:
every placeholder of a key of `v` is replaced by the value of the key. -/
theorem ApplyTo_template (v : Variables) :
    ∀ (segs : List Segment), (∀ p ∈ v, BraceFree p.1 ∧ BraceFree p.2) →
      (∀ seg ∈ segs, seg.BraceFree) →
      v.ApplyTo (render segs) = render (segs.map (Segment.substitute v)) := by
  induction v with
  | nil =>
    intro segs _ _
    have hid : ∀ seg : Segment, seg.substitute [] = seg := by
      intro seg; cases seg <;> rfl
    have hmap : segs.map (Segment.substitute []) = segs := by
      conv_rhs => rw [← List.map_id segs]
      exact List.map_congr_left (fun s _ => hid s)
    rw [hmap]
    rfl
  | cons p v ih =>
    obtain ⟨key, value⟩ := p
    intro segs hv hsegs
    have hp := hv (key, value) (List.mem_cons_self _ _)
    have hrest : ∀ p ∈ v, BraceFree p.1 ∧ BraceFree p.2 :=
      fun p hp => hv p (List.mem_cons_of_mem _ hp)
    have hstep : Variables.ApplyTo ((key, value) :: v) (render segs)
        = Variables.ApplyTo v
            (ReplaceAll (render segs) ("\x7b\x7b" ++ key ++ "\x7d\x7d") value) := rfl
    rw [hstep, ReplaceAll_template key value hp.1 segs hsegs,
      ih _ hrest (fun seg hseg => by
        obtain ⟨s, hs, rfl⟩ := List.mem_map.1 hseg
        exact substitute_braceFree [(key, value)]
          (fun q hq => by rw [List.mem_singleton.1 hq]; exact hp.2) s (hsegs s hs)),
      List.map_map]
    congr 1
    apply List.map_congr_left
    intro seg _
    exact substitute_cons key value v seg

theorem lookup_eq_some_iff_mem (v : Variables) (hn : (v.map Prod.fst).Nodup)
    (key value : String) : v.lookup key = some value ↔ (key, value) ∈ v := by
  induction v with
  | nil => simp
  | cons p v ih =>
    obtain ⟨k, x⟩ := p
    rw [List.map_cons, List.nodup_cons] at hn
    by_cases hk : key = k
    · subst hk
      simp only [List.lookup, beq_self_eq_true, Option.some.injEq, List.mem_cons,
        Prod.mk.injEq, true_and]
      constructor
      · intro h; exact Or.inl h.symm
      · rintro (h | h)
        · exact h.symm
        · exact absurd (List.mem_map_of_mem Prod.fst h) hn.1
    · have hb : (key == k) = false := by simpa using hk
      simp only [List.lookup, hb, List.mem_cons, Prod.mk.injEq, hk, false_and, false_or]
      exact ih hn.2

/-- The lookup in a map does not depend on the order of its bindings. -/
theorem lookup_perm (v v' : Variables) (hperm : v'.Perm v)
    (hn : (v.map Prod.fst).Nodup) (key : String) : v'.lookup key = v.lookup key := by
  have hn' : (v'.map Prod.fst).Nodup := (hperm.map Prod.fst).nodup_iff.2 hn
  cases h : v.lookup key with
  | some value =>
    rw [lookup_eq_some_iff_mem v' hn']
    exact hperm.mem_iff.2 ((lookup_eq_some_iff_mem v hn key value).1 h)
  | none =>
    cases h' : v'.lookup key with
    | none => rfl
    | some value =>
      have := (lookup_eq_some_iff_mem v hn key value).2
        (hperm.mem_iff.1 ((lookup_eq_some_iff_mem v' hn' key value).1 h'))
      rw [h] at this
      cases this

theorem substitute_perm (v v' : Variables) (hperm : v'.Perm v)
    (hn : (v.map Prod.fst).Nodup) (seg : Segment) :
    seg.substitute v' = seg.substitute v := by
  cases seg with
  | text content => rfl
  | placeholder key =>
    rw [substitute_placeholder, substitute_placeholder, lookup_perm v v' hperm hn key]

/-- C27 (amended): on a template made of text without braces and of placeholders whose
names hold no brace, for a map whose keys are pairwise distinct and whose keys and
values hold no brace, `ApplyTo` returns the same string whatever the order in which the
bindings are visited: the template with every placeholder of a key of the map replaced
by the value of the key. -/
theorem ApplyTo_order_independent (v v' : Variables) (segs : List Segment)
    (hperm : v'.Perm v) (hn : (v.map Prod.fst).Nodup)
    (hv : ∀ p ∈ v, BraceFree p.1 ∧ BraceFree p.2)
    (hsegs : ∀ seg ∈ segs, seg.BraceFree) :
    Variables.ApplyTo v' (render segs) = Variables.ApplyTo v (render segs)
      ∧ Variables.ApplyTo v (render segs) = render (segs.map (Segment.substitute v)) := by
  have hv' : ∀ p ∈ v', BraceFree p.1 ∧ BraceFree p.2 :=
    fun p hp => hv p (hperm.mem_iff.1 hp)
  have hmap : segs.map (Segment.substitute v') = segs.map (Segment.substitute v) :=
    List.map_congr_left (fun seg _ => substitute_perm v v' hperm hn seg)
  rw [ApplyTo_template v' segs hv' hsegs, ApplyTo_template v segs hv hsegs, hmap]
  exact ⟨rfl, rfl⟩

/-- Counterexample to C27 as stated: the variables seeded on the session built for
`namedTargetRequest`, whose target holds the placeholder of the name.  Visited in the
order of their insertion they turn the placeholder of the target into a string that
still holds the placeholder of the name; visited in the reverse order they replace that
one as well. -/
theorem ApplyTo_order_counterexample :
    (acceptSessionBuild emptyWorker exampleEnvironment namedTargetRequest).session.map
        (fun s => s.Variables) = some namedTargetVariables
      ∧ namedTargetVariables.reverse.Perm namedTargetVariables
      ∧ Variables.ApplyTo namedTargetVariables "\x7b\x7btarget\x7d\x7d"
        = "http://\x7b\x7bname\x7d\x7d.localhost:8080"
      ∧ Variables.ApplyTo namedTargetVariables.reverse "\x7b\x7btarget\x7d\x7d"
        = "http://testserver.localhost:8080"
      ∧ Variables.ApplyTo namedTargetVariables.reverse "\x7b\x7btarget\x7d\x7d"
        ≠ Variables.ApplyTo namedTargetVariables "\x7b\x7btarget\x7d\x7d" :=
  ⟨by decide, List.reverse_perm _, by decide, by decide, by decide⟩

/-- Witness of C27: `plainVariables` and their reverse on `exampleTemplate`. -/
theorem ApplyTo_order_independent_witness :
    Variables.ApplyTo plainVariables.reverse (render exampleTemplate)
        = Variables.ApplyTo plainVariables (render exampleTemplate)
      ∧ Variables.ApplyTo plainVariables (render exampleTemplate)
        = render (exampleTemplate.map (Segment.substitute plainVariables)) :=
  ApplyTo_order_independent plainVariables plainVariables.reverse exampleTemplate
    (List.reverse_perm _) (by decide) (by decide) (by decide)

end Polo
